import Mathlib

/-!
# pt-gen-cfworker: a shallow embedding of `src/index.js`

The worker answers a request either with a JSON error body or by running one
of six site extractors.  This file embeds, as pure Lean functions,

* the pattern table `support_list` and the resolution loop of `handle`
  (JavaScript regular expressions are embedded as a small backtracking
  matcher over a regex syntax tree);
* the JSON values and objects the extractors build (`JVal`, `Obj`);
* the id normalisation, record construction and text rendering of
  `gen_imdb` and `gen_douban`.

JavaScript strings are Lean `String`s.  The patterns and string operations
used here never split a surrogate pair, so working with code points instead
of UTF-16 code units does not change any result, except for `length`, which
is embedded as `utf16Length`.
-/

namespace PtGen

/-! ## Characters and strings -/

/-- The characters matched by `\s` (and removed by `String.prototype.trim`):
ECMAScript WhiteSpace and LineTerminator code points. -/
def isWhiteSpace (c : Char) : Bool :=
  c.val = 0x09 || c.val = 0x0A || c.val = 0x0B || c.val = 0x0C || c.val = 0x0D ||
  c.val = 0x20 || c.val = 0xA0 || c.val = 0x1680 ||
  (0x2000 ≤ c.val && c.val ≤ 0x200A) ||
  c.val = 0x2028 || c.val = 0x2029 || c.val = 0x202F || c.val = 0x205F ||
  c.val = 0x3000 || c.val = 0xFEFF

/-- The class `\d`. -/
def isDigit (c : Char) : Bool := '0' ≤ c && c ≤ '9'

/-- The class `\S`. -/
def isNonSpace (c : Char) : Bool := !isWhiteSpace c

/-- The class `[a-zA-Z-]`. -/
def isAlphaDash (c : Char) : Bool :=
  ('a' ≤ c && c ≤ 'z') || ('A' ≤ c && c ≤ 'Z') || c = '-'

/-! ## Regular expressions

Only the constructs that occur in `support_list` and in `jsonp_parser` are
embedded.  The quantifier `+` is applied to character classes only, `?` to
arbitrary sub-patterns, and there is a single capturing group. -/

/-- Syntax tree of a regular expression. -/
inductive Regex where
  /-- a run of literal characters, such as `douban\.com\/` -/
  | lit (cs : List Char)
  /-- one character of a class, such as `\S` -/
  | cls (p : Char → Bool)
  /-- concatenation -/
  | seq (r s : Regex)
  /-- alternation `r|s` -/
  | alt (r s : Regex)
  /-- greedy `r?` -/
  | opt (r : Regex)
  /-- greedy `c+` for a character class `c` -/
  | plus (p : Char → Bool)
  /-- the capturing group `(r)` -/
  | group (r : Regex)

/-- A matcher state: the input still to be read and the text captured by
group 1, if the group has been matched. -/
abbrev MState := List Char × Option (List Char)

/-- Remove a literal prefix. -/
def stripLit : List Char → List Char → Option (List Char)
  | [], s => some s
  | _ :: _, [] => none
  | c :: cs, x :: xs => if c = x then stripLit cs xs else none

/-- The inputs left after a greedy `c+`, longest run first. -/
def runPlus (p : Char → Bool) : List Char → List (List Char)
  | [] => []
  | x :: xs => if p x then runPlus p xs ++ [xs] else []

/-- All ways of matching `r` at the head of the input, in the priority order
of a backtracking matcher (the first element is the match JavaScript
reports).  Each result carries the remaining input and the capture. -/
def Regex.run : Regex → List Char → Option (List Char) → List MState
  | .lit cs, s, cap =>
    match stripLit cs s with
    | some s' => [(s', cap)]
    | none => []
  | .cls p, s, cap =>
    match s with
    | x :: xs => if p x then [(xs, cap)] else []
    | [] => []
  | .seq r t, s, cap => (r.run s cap).flatMap (fun st => t.run st.1 st.2)
  | .alt r t, s, cap => r.run s cap ++ t.run s cap
  | .opt r, s, cap =>
    -- an iteration of a quantifier that consumes nothing is rejected
    (r.run s cap).filter (fun st => decide (st.1.length < s.length)) ++ [(s, cap)]
  | .plus p, s, cap => (runPlus p s).map (fun s' => (s', cap))
  | .group r, s, cap =>
    (r.run s cap).map (fun st => (st.1, some (s.take (s.length - st.1.length))))

/-- Concatenation of a list of patterns. -/
def Regex.cat : List Regex → Regex
  | [] => .lit []
  | [r] => r
  | r :: rs => .seq r (Regex.cat rs)

/-- A literal text. -/
def Regex.text (s : String) : Regex := .lit s.toList

/-- Search for the leftmost match (the pattern is not anchored): `none` when
the pattern matches nowhere, otherwise the capture of group 1. -/
def Regex.exec (r : Regex) : List Char → Option (Option (List Char))
  | [] => ((r.run [] none).head?).map (fun st => st.2)
  | c :: t =>
    match (r.run (c :: t) none).head? with
    | some st => some st.2
    | none => Regex.exec r t

/-- This is `s.match(pattern)` for a pattern without the `g` flag, reduced to
what `handle` reads from it: `none` for `null`, otherwise element `[1]` of
the match array (`none` inside when group 1 did not take part). -/
def jsMatch (s : String) (pattern : Regex) : Option (Option String) :=
  (pattern.exec s.toList).map (fun cap => cap.map String.mk)

/-! ## The pattern table -/

/-- The common prefix `(?:https?:\/\/)?`. -/
def scheme : Regex :=
  .opt (.cat [.text "http", .opt (.text "s"), .text "://"])

/-- The pattern
`(?:https?:\/\/)?(?:(?:movie|www)\.)?douban\.com\/(?:subject|movie)\/(\d+)\/?`. -/
def pattern_douban : Regex :=
  .cat [scheme,
        .opt (.cat [.alt (.text "movie") (.text "www"), .text "."]),
        .text "douban.com/",
        .alt (.text "subject") (.text "movie"),
        .text "/", .group (.plus isDigit), .opt (.text "/")]

/-- The pattern `(?:https?:\/\/)?(?:www\.)?imdb\.com\/title\/(tt\d+)\/?`. -/
def pattern_imdb : Regex :=
  .cat [scheme, .opt (.text "www."), .text "imdb.com/title/",
        .group (.cat [.text "tt", .plus isDigit]), .opt (.text "/")]

/-- The pattern
`(?:https?:\/\/)?(?:bgm\.tv|bangumi\.tv|chii\.in)\/subject\/(\d+)\/?`. -/
def pattern_bangumi : Regex :=
  .cat [scheme,
        .alt (.text "bgm.tv") (.alt (.text "bangumi.tv") (.text "chii.in")),
        .text "/subject/", .group (.plus isDigit), .opt (.text "/")]

/-- The pattern
`(?:https?:\/\/)?(?:store\.)?steam(?:powered|community)\.com\/app\/(\d+)\/?`. -/
def pattern_steam : Regex :=
  .cat [scheme, .opt (.text "store."), .text "steam",
        .alt (.text "powered") (.text "community"),
        .text ".com/app/", .group (.plus isDigit), .opt (.text "/")]

/-- The pattern `(?:https?:\/\/)?indienova\.com\/game\/(\S+)`. -/
def pattern_indienova : Regex :=
  .cat [scheme, .text "indienova.com/game/", .group (.plus isNonSpace)]

/-- The pattern
`(?:https?:\/\/)?www\.epicgames\.com\/store\/[a-zA-Z-]+\/product\/(\S+)\/\S?`. -/
def pattern_epic : Regex :=
  .cat [scheme, .text "www.epicgames.com/store/", .plus isAlphaDash,
        .text "/product/", .group (.plus isNonSpace), .text "/",
        .opt (.cls isNonSpace)]

/-- The table `support_list`, in declaration order (the order in which
`for (let site_ in support_list)` visits its keys). -/
def support_list : List (String × Regex) :=
  [ ("douban", pattern_douban), ("imdb", pattern_imdb), ("bangumi", pattern_bangumi),
    ("steam", pattern_steam), ("indienova", pattern_indienova), ("epic", pattern_epic) ]

/-- The list `support_site_list = Object.keys(support_list)`. -/
def support_site_list : List String := support_list.map (fun e => e.1)

/-! ## JSON values and objects -/

/-- A JavaScript value as produced by `JSON.parse` or stored in a record.
A number is carried as the text `String(n)` yields for it (`8.5` is
`num "8.5"`); arithmetic on numbers is not needed and not embedded. -/
inductive JVal where
  | undefined
  | null
  | bool (b : Bool)
  | num (shown : String)
  | str (s : String)
  | arr (items : List JVal)
  | obj (fields : List (String × JVal))

/-- An object: its own properties in insertion order. -/
abbrev Obj := List (String × JVal)

/-- The number of UTF-16 code units of a string (`s.length`). -/
def utf16Length (s : String) : Nat :=
  (s.toList.map (fun c => if c.val < 0x10000 then 1 else 2)).sum

/-- This is ToBoolean: `0`, `NaN`, `""`, `null`, `undefined` and `false` are falsy. -/
def JVal.truthy : JVal → Bool
  | .undefined => false
  | .null => false
  | .bool b => b
  | .num shown => !(shown = "0" || shown = "NaN")
  | .str s => !(s = "")
  | .arr _ => true
  | .obj _ => true

mutual
/-- This is ToString, as applied by template literals and by `+` on strings. -/
def JVal.toStr : JVal → String
  | .undefined => "undefined"
  | .null => "null"
  | .bool b => if b then "true" else "false"
  | .num shown => shown
  | .str s => s
  | .arr items => ",".intercalate (JVal.joinItems items)
  | .obj _ => "[object Object]"
/-- The texts `Array.prototype.join` concatenates: `null` and `undefined`
items count as empty. -/
def JVal.joinItems : List JVal → List String
  | [] => []
  | .undefined :: rest => "" :: JVal.joinItems rest
  | .null :: rest => "" :: JVal.joinItems rest
  | v :: rest => JVal.toStr v :: JVal.joinItems rest
end

/-- This is `items.join(sep)`. -/
def JVal.join (items : List JVal) (sep : String) : String :=
  sep.intercalate (JVal.joinItems items)

/-- Read own property `k` of an object (`undefined` when absent). -/
def Obj.get (o : Obj) (k : String) : JVal :=
  match o.lookup k with
  | some v => v
  | none => .undefined

/-- The assignment `o[k] = v`: an existing key keeps its position. -/
def Obj.set : Obj → String → JVal → Obj
  | [], k, v => [(k, v)]
  | (k', v') :: rest, k, v =>
    if k' = k then (k, v) :: rest else (k', v') :: Obj.set rest k v

/-- Tell whether `k` is an own property of the object. -/
def Obj.has (o : Obj) (k : String) : Bool := (o.lookup k).isSome

/-- This is `Object.assign(target, source)`. -/
def Obj.assign (target source : Obj) : Obj :=
  source.foldl (fun o kv => o.set kv.1 kv.2) target

/-- The property read `v[k]` for a key `k` that no built-in prototype
defines: `none` stands for the TypeError raised on `null` and `undefined`. -/
def JVal.prop : JVal → String → Option JVal
  | .undefined, _ => none
  | .null, _ => none
  | .obj fields, k => some (Obj.get fields k)
  | _, _ => some .undefined

/-- The test `v.length > 0`.  Strings and arrays have a length; a value
without a `length` property compares false.  `none` marks the one case that
is not embedded: an object whose own `length` property is not a number
(the comparison would coerce it). -/
def JVal.lengthPos : JVal → Option Bool
  | .str s => some (decide (0 < utf16Length s))
  | .arr items => some (decide (0 < items.length))
  | .obj fields =>
    match fields.lookup "length" with
    | none => some false
    | some (.num shown) =>
      some (!(shown = "0" || shown = "NaN" || shown.toList.head? = some '-'))
    | some .undefined => some false
    | some _ => none
  | _ => some false

/-- The operator `a || b` on values. -/
def JVal.or (a b : JVal) : JVal := if a.truthy then a else b

/-! ## String operations -/

/-- This is `s.trim()`. -/
def jsTrim (s : String) : String :=
  String.mk ((s.toList.dropWhile isWhiteSpace).rdropWhile isWhiteSpace)

/-- The worker loop of `splitChars`: `skip` counts the characters of a
separator just found that are still to be passed over, `acc` holds the
current piece in reverse. -/
def splitGo (sep : List Char) : List Char → Nat → List Char → List (List Char)
  | [], _, acc => [acc.reverse]
  | _ :: cs, skip + 1, acc => splitGo sep cs skip acc
  | c :: cs, 0, acc =>
    if sep.isPrefixOf (c :: cs) then acc.reverse :: splitGo sep cs (sep.length - 1) []
    else splitGo sep cs 0 (c :: acc)

/-- Split at every occurrence of a non-empty separator, scanning from the left. -/
def splitChars (sep s : List Char) : List (List Char) := splitGo sep s 0 []

/-- This is `s.split(sep)` for a non-empty separator string. -/
def jsSplit (s sep : String) : List String :=
  (splitChars sep.toList s.toList).map String.mk

/-- This is `items.join(sep)` on an array of strings. -/
def jsJoin : List String → String → String
  | [], _ => ""
  | [a], _ => a
  | a :: b :: rest, sep => a ++ sep ++ jsJoin (b :: rest) sep

/-- Replace the first occurrence of `pat` (scanning from the left). -/
def replaceFirstChars (pat rep : List Char) : List Char → List Char
  | [] => if pat = [] then rep else []
  | c :: cs =>
    if pat.isPrefixOf (c :: cs) then rep ++ (c :: cs).drop pat.length
    else c :: replaceFirstChars pat rep cs

/-- This is `s.replace(pat, rep)` for a string pattern and a replacement text
without `$`. -/
def replaceFirst (s pat rep : String) : String :=
  String.mk (replaceFirstChars pat.toList rep.toList s.toList)

/-- This is `s.replace(/\n/g, rep)`. -/
def replaceNewlines (s rep : String) : String :=
  String.mk (s.toList.flatMap (fun c => if c = '\n' then rep.toList else [c]))

/-- This is `s.includes(t)`; also the test `s.match(/t/)` for a pattern that
is a literal text. -/
def includes (s t : String) : Bool := decide (t.toList <:+: s.toList)

/-- This is `Array.prototype.sort(comparefn)` for a comparator that orders
the array consistently: the stable arrangement in which `comparefn(a, b) ≤ 0`
for every `a` placed before `b`.  (For an inconsistent comparator the
language leaves the order to the engine.)  A comparator result of `NaN`
counts as `0`, so comparators are embedded with integer results. -/
def jsSort {α : Type} (comparefn : α → α → Int) (items : List α) : List α :=
  items.insertionSort (fun a b => comparefn a b ≤ 0)

/-! ## Response bodies -/

def AUTHOR : String := "Rhilip"
def VERSION : String := "0.6.1"
def NONE_EXIST_ERROR : String := "The corresponding resource does not exist."

/-- The object `default_body`. -/
def default_body : Obj :=
  [ ("success", .bool false), ("error", .null), ("format", .str ""),
    ("copyright", .str ("Powered by @" ++ AUTHOR)), ("version", .str VERSION),
    ("generate_at", .num "0") ]

/-- The body `makeJsonResponse` serialises; `now` is the value of
`(new Date()).valueOf()`. -/
def makeJsonResponse (now : JVal) (body_update : Obj) : Obj :=
  Obj.assign (Obj.assign (Obj.assign [] default_body) body_update) [("generate_at", now)]

/-! ## `handle`: the content-generation branch -/

/-- The query parameters read by the content-generation branch
(`uri.searchParams.get`, `none` for `null`). -/
structure SearchParams where
  url : Option String
  site : Option String
  sid : Option String

/-- The loop of lines 98-105 over a pattern table: the values of `site` and
`sid` when it ends (`none` for a variable left unset). -/
def scan : List (String × Regex) → String → Option String × Option String
  | [], _ => (none, none)
  | (site_, pattern) :: rest, url_ =>
    match jsMatch url_ pattern with
    | some m => (some site_, m)
    | none => scan rest url_

/-- Lines 93-109: how `site` and `sid` are determined. -/
def resolve (p : SearchParams) : Option String × Option String :=
  match p.url with
  | some url_ => if url_ ≠ "" then scan support_list url_ else (p.site, p.sid)
  | none => (p.site, p.sid)

/-- What the content-generation branch does next. -/
inductive Action where
  /-- answer with `makeJsonResponse(body_update)` -/
  | respond (body_update : Obj)
  | gen_douban (sid : String)
  | gen_imdb (sid : String)
  | gen_bangumi (sid : String)
  | gen_steam (sid : String)
  | gen_indienova (sid : String)
  | gen_epic (sid : String)

/-- Lines 112-142. -/
def dispatch : Option String × Option String → Action
  | (some site, some sid) =>
    if support_site_list.contains site then
      if site = "douban" then .gen_douban sid
      else if site = "imdb" then .gen_imdb sid
      else if site = "bangumi" then .gen_bangumi sid
      else if site = "steam" then .gen_steam sid
      else if site = "indienova" then .gen_indienova sid
      else if site = "epic" then .gen_epic sid
      else .respond [("error", .str ("Miss generate function for `site`: " ++ site ++ "."))]
    else .respond [("error", .str "Unknown value of key `site`.")]
  | _ => .respond [("error",
      .str "Miss key of `site` or `sid` , or input unsupported resource `url`.")]

/-- Lines 92-142: the content-generation branch of `handle`. -/
def generate (p : SearchParams) : Action := dispatch (resolve p)

/-! ## Dates -/

/-- Leap years of the proleptic Gregorian calendar. -/
def isLeapYear (y : Nat) : Bool := (y % 4 = 0 && y % 100 ≠ 0) || y % 400 = 0

/-- The number of days of month `m` (1 to 12) of year `y`; `0` for any other `m`. -/
def daysInMonth (y m : Nat) : Nat :=
  match m with
  | 1 => 31 | 2 => if isLeapYear y then 29 else 28 | 3 => 31 | 4 => 30
  | 5 => 31 | 6 => 30 | 7 => 31 | 8 => 31 | 9 => 30 | 10 => 31 | 11 => 30 | 12 => 31
  | _ => 0

/-- The days of year `y` that precede the first day of month `m`. -/
def daysBeforeMonth (y m : Nat) : Nat :=
  ((List.range (m - 1)).map (fun k => daysInMonth y (k + 1))).sum

/-- ECMAScript DayFromYear: the day number of 1 January of year `y`,
counted from 1 January 1970. -/
def dayFromYear (y : Int) : Int :=
  365 * (y - 1970) + (y - 1969) / 4 - (y - 1901) / 100 + (y - 1601) / 400

/-- The time value (milliseconds since the epoch, UTC) of a calendar date. -/
def timeValue (y m d : Nat) : Int :=
  (dayFromYear y + daysBeforeMonth y m + d - 1) * 86400000

/-- The numeric value of a decimal digit character. -/
def digitValue (c : Char) : Nat := c.toNat - '0'.toNat

/-- Read the fields of a text of the shape `YYYY-MM-DD` (year, month, day),
when the text has that shape and names a day of the calendar. -/
def calendarDate (s : String) : Option (Nat × Nat × Nat) :=
  match s.toList with
  | [y1, y2, y3, y4, '-', m1, m2, '-', d1, d2] =>
    if [y1, y2, y3, y4, m1, m2, d1, d2].all isDigit then
      let y := 1000 * digitValue y1 + 100 * digitValue y2 + 10 * digitValue y3 + digitValue y4
      let m := 10 * digitValue m1 + digitValue m2
      let d := 10 * digitValue d1 + digitValue d2
      if 1 ≤ m ∧ m ≤ 12 ∧ 1 ≤ d ∧ d ≤ daysInMonth y m then some (y, m, d) else none
    else none
  | _ => none

/-- The time value of `new Date(s)`, `none` for an invalid date.  A text
`YYYY-MM-DD` that names a calendar day is read as that day at midnight UTC.
For any other text the result is whatever the engine's parser makes of it,
which is the parameter `other`. -/
def dateValue (other : String → Option Int) (s : String) : Option Int :=
  match calendarDate s with
  | some (y, m, d) => some (timeValue y m d)
  | none => other s

/-- The comparator `new Date(a) - new Date(b)`; the difference is `NaN`,
which sorting treats as `0`, when either date is invalid. -/
def compareDates (other : String → Option Int) (a b : String) : Int :=
  match dateValue other a, dateValue other b with
  | some x, some y => x - y
  | _, _ => 0

/-! ## The imdb extractor -/

/-- The value of `sid` after lines 526-528 of `gen_imdb`. -/
def imdb_strip (sid : String) : String :=
  if "tt".toList.isPrefixOf sid.toList then String.mk (sid.toList.drop 2) else sid

/-- This is `s.padStart(targetLength, fill)` for a one-character `fill`. -/
def padStart (s : String) (targetLength : Nat) (fill : Char) : String :=
  String.mk (List.replicate (targetLength - utf16Length s) fill) ++ s

/-- The value of `imdb_id` in `gen_imdb` (line 531). -/
def imdb_id (sid : String) : String := "tt" ++ padStart (imdb_strip sid) 7 '0'

/-- The value of `imdb_url` in `gen_imdb` (line 532), the address fetched. -/
def imdb_url (sid : String) : String := "https://www.imdb.com/title/" ++ imdb_id sid ++ "/"

/-- This is `getNumberFromString`: the first run of digits and commas, with
the commas removed.  When the text has no digit or comma the source calls
`replace` on the number `0`, which raises (`none`). -/
def getNumberFromString (raw : String) : Option String :=
  match (raw.toList.dropWhile (fun c => !(isDigit c || c = ','))).takeWhile
      (fun c => isDigit c || c = ',') with
  | [] => none
  | m => some (String.mk (m.filter (fun c => c ≠ ',')))

/-- The test `v && v.length > 0` that guards the lines of a rendering. -/
def JVal.nonEmpty (v : JVal) : Option Bool :=
  if v.truthy then v.lengthPos else some false

/-- The texts read from one `div.titleReviewBarItem` of the imdb page. -/
structure ReviewBarItem where
  /-- the value of `that.text()` -/
  text : String
  /-- the value of `that.find("div.metacriticScore").text()` -/
  metacriticScore : String
  /-- the value of `that.find("a[href^=reviews]").text()` -/
  reviews : String
  /-- the value of `that.find("a[href^=externalreviews]").text()` -/
  externalreviews : String

/-- What `gen_imdb` reads from the two documents it fetches.  The HTML
queries themselves are not embedded: each field is the value of one read. -/
structure ImdbPage where
  /-- the text of the title page -/
  imdb_page_raw : String
  /-- the parsed `application/ld+json` script of the title page -/
  page_json : JVal
  /-- the items of `div.titleReviewBar`, in document order -/
  review_bar : List ReviewBarItem
  /-- the object `details_dict` built by lines 617-626 -/
  details_dict : Obj
  /-- country and date text of each `tr.release-date-item` -/
  release_date_items : List (String × String)
  /-- country and title text of each `tr.aka-item` -/
  aka_items : List (String × String)

/-- The filter `raw.filter(d => d["@type"] === "Person")` of lines 579-581. -/
def filterPersons : List JVal → Option (List JVal)
  | [] => some []
  | d :: rest =>
    match d.prop "@type", filterPersons rest with
    | some (.str t), some kept => if t = "Person" then some (d :: kept) else some kept
    | some _, some kept => some kept
    | _, _ => none

/-- The effect of `delete d["@type"]` on the value `d`. -/
def deleteType : JVal → JVal
  | .obj fields => .obj (fields.filter (fun kv => kv.1 ≠ "@type"))
  | v => v

/-- One round of the loop over `person_items` (lines 567-589). -/
def person_round (page_json : JVal) (data : Obj) (person_item : String) : Option Obj :=
  match page_json.prop person_item with
  | none => none
  | some raw =>
    if raw.truthy then
      match filterPersons (match raw with | .arr items => items | v => [v]) with
      | none => none
      | some item_persons =>
        if 0 < item_persons.length then
          some (data.set (person_item ++ "s") (.arr (item_persons.map deleteType)))
        else some data
    else some data

/-- One round of the loop over the review bar (lines 601-614). -/
def review_bar_round (data : Obj) (that : ReviewBarItem) : Option Obj :=
  if includes that.text "Metascore" then
    some (data.set "metascore" (.str (jsTrim that.metacriticScore)))
  else if includes that.text "Reviews" then
    match getNumberFromString that.reviews, getNumberFromString that.externalreviews with
    | some reviews, some critic =>
      some ((data.set "reviews" (.str reviews)).set "critic" (.str critic))
    | _, _ => none
  else if includes that.text "Popularity" then
    (getNumberFromString that.text).map (fun n => data.set "popularity" (.str n))
  else some data

/-- A loop whose rounds may raise. -/
def foldRounds {α : Type} (round : Obj → α → Option Obj) : Obj → List α → Option Obj
  | data, [] => some data
  | data, x :: rest =>
    match round data x with
    | some data' => foldRounds round data' rest
    | none => none

/-- The `map(x => x[k])` of an array; it raises if an item is `null` or
`undefined`. -/
def propAll (k : String) : List JVal → Option (List JVal)
  | [] => some []
  | x :: rest =>
    match x.prop k, propAll k rest with
    | some v, some vs => some (v :: vs)
    | _, _ => none

/-- The `map(i => i["name"]).join(sep)` of the person lines. -/
def joinNames (v : JVal) (sep : String) : Option String :=
  match v with
  | .arr items => (propAll "name" items).map (fun names => JVal.join names sep)
  | _ => none

/-- One soft line of a rendering: `(v && v.length > 0) ? text : ""`. -/
def softLine (v : JVal) (text : Option String) : Option String :=
  match v.nonEmpty with
  | some true => text
  | some false => some ""
  | none => none

/-- Collect the lines of a rendering; a line that raises makes the whole
rendering raise. -/
def allSome : List (Option String) → Option (List String)
  | [] => some []
  | none :: _ => none
  | some x :: rest =>
    match allSome rest with
    | some xs => some (x :: xs)
    | none => none

/-- The lines appended to `descr` by lines 668-677 of `gen_imdb`, in order. -/
def imdb_lines (data : Obj) : List (Option String) :=
  [softLine (data.get "poster") (some ("[img]" ++ (data.get "poster").toStr ++ "[/img]\n\n")),
   softLine (data.get "name") (some ("Title: " ++ (data.get "name").toStr ++ "\n")),
   softLine (data.get "keywords")
     (match data.get "keywords" with
      | .arr items => some ("Keywords: " ++ JVal.join items ", " ++ "\n")
      | _ => none),
   softLine (data.get "datePublished")
     (some ("Date Published: " ++ (data.get "datePublished").toStr ++ "\n")),
   softLine (data.get "imdb_rating")
     (some ("IMDb Rating: " ++ (data.get "imdb_rating").toStr ++ "\n")),
   softLine (data.get "imdb_link")
     (some ("IMDb Link: " ++ (data.get "imdb_link").toStr ++ "\n")),
   softLine (data.get "directors")
     ((joinNames (data.get "directors") " / ").map (fun t => "Directors: " ++ t ++ "\n")),
   softLine (data.get "creators")
     ((joinNames (data.get "creators") " / ").map (fun t => "Creators: " ++ t ++ "\n")),
   softLine (data.get "actors")
     ((joinNames (data.get "actors") " / ").map (fun t => "Actors: " ++ t ++ "\n")),
   softLine (data.get "description")
     (match data.get "description" with
      | .str s => some ("\nIntroduction\n    " ++ replaceNewlines s "\n　　" ++ "\n")
      | _ => none)]

/-- The text `descr` built by lines 668-677 of `gen_imdb`, before trimming. -/
def imdb_descr (data : Obj) : Option String :=
  (allSome (imdb_lines data)).map String.join

/-- The value of `data["datePublished"].slice(0, 4)`. -/
def sliceYear : JVal → Option JVal
  | .str s => some (.str (String.mk (s.toList.take 4)))
  | .arr items => some (.arr (items.take 4))
  | _ => none

/-- Lines 550-564 of `gen_imdb`: the ids and the fields copied from `page_json`. -/
def imdb_copy_fields (sid : String) (page_json : JVal) (data : Obj) : Option Obj :=
  match foldRounds (fun data copy_item =>
      (page_json.prop copy_item).map (fun v => data.set copy_item v))
      ((data.set "imdb_id" (.str (imdb_id sid))).set "imdb_link" (.str (imdb_url sid)))
      ["@type", "name", "genre", "contentRating", "datePublished", "description", "duration"],
    page_json.prop "image" with
  | some data, some image =>
    if ((data.set "poster" image).get "datePublished").truthy then
      (sliceYear ((data.set "poster" image).get "datePublished")).map
        (fun y => (data.set "poster" image).set "year" y)
    else some (data.set "poster" image)
  | _, _ => none

/-- Lines 591-596 of `gen_imdb`: the keywords and the rating. -/
def imdb_rating_fields (page_json : JVal) (data : Obj) : Option Obj :=
  match page_json.prop "keywords" with
  | some (.str k) =>
    match (((page_json.prop "aggregateRating").getD .undefined).or (.obj [])).prop "ratingCount",
      (((page_json.prop "aggregateRating").getD .undefined).or (.obj [])).prop "ratingValue" with
    | some ratingCount, some ratingValue =>
      some ((((data.set "keywords" (.arr ((jsSplit k ",").map JVal.str))).set
        "imdb_votes" (ratingCount.or (.num "0"))).set
        "imdb_rating_average" (ratingValue.or (.num "0"))).set
        "imdb_rating" (.str ((ratingCount.or (.num "0")).toStr ++ "/10 from "
          ++ (ratingValue.or (.num "0")).toStr ++ " users")))
    | _, _ => none
  | _ => none

/-- Lines 550-596 of `gen_imdb`: the fields taken from `page_json`. -/
def imdb_json_fields (sid : String) (page_json : JVal) (data : Obj) : Option Obj :=
  match imdb_copy_fields sid page_json data with
  | some data =>
    match foldRounds (person_round page_json) data ["actor", "director", "creator"] with
    | some data => imdb_rating_fields page_json data
    | none => none
  | none => none

/-- Lines 598-665 of `gen_imdb`: the fields read from the page elements. -/
def imdb_page_fields (page : ImdbPage) (data : Obj) : Option Obj :=
  match foldRounds review_bar_round data page.review_bar with
  | some data =>
    some (((data.set "details" (.obj page.details_dict)).set "release_date"
      (.arr (page.release_date_items.map (fun (i : String × String) =>
        .obj [("country", .str (jsTrim i.1)), ("date", .str (jsTrim i.2))])))).set "aka"
      (.arr (page.aka_items.map (fun (i : String × String) =>
        .obj [("country", .str (jsTrim i.1)), ("title", .str (jsTrim i.2))]))))
  | none => none

/-- The success path of `gen_imdb` (lines 543-681). -/
def imdb_success (now : JVal) (sid : String) (page : ImdbPage) (data : Obj) : Option Obj :=
  match imdb_json_fields sid page.page_json data with
  | some data =>
    match imdb_page_fields page data with
    | some data =>
      match imdb_descr data with
      | some descr =>
        some (makeJsonResponse now
          ((data.set "format" (.str (jsTrim descr))).set "success" (.bool true)))
      | none => none
    | none => none
  | none => none

/-- The body `gen_imdb(sid)` answers with, given what it reads from the
documents it fetches; `none` when the source raises (or leaves the embedded
fragment, see `JVal.lengthPos`). -/
def gen_imdb (now : JVal) (sid : String) (page : ImdbPage) : Option Obj :=
  if includes page.imdb_page_raw "404 Error - IMDb" then
    some (makeJsonResponse now (Obj.assign [("site", .str "imdb"), ("sid", .str sid)]
      [("error", .str NONE_EXIST_ERROR)]))
  else imdb_success now sid page [("site", .str "imdb"), ("sid", .str sid)]

/-- The addresses `gen_imdb(sid)` passes to `fetch`, in order: the title
page and, unless the page carries the not-found marker, the release-info
page. -/
def imdb_fetches (sid : String) (page : ImdbPage) : List String :=
  if includes page.imdb_page_raw "404 Error - IMDb" then [imdb_url sid]
  else [imdb_url sid, imdb_url sid ++ "releaseinfo"]

/-! ## The douban extractor -/

/-- The imdb cross-reference of a douban page. -/
structure ImdbRef where
  /-- the value of `imdb_link_anchor.attr("href")` -/
  href : String
  /-- the value of `jsonp_parser(imdb_api_raw)` -/
  imdb_json : JVal

/-- What `gen_douban` reads from the documents it fetches.  The HTML queries
are not embedded: each field is the value of one read, and an anchor field
is the `nodeValue` of the node that follows the first selected element
(`none` when nothing is selected). -/
structure DoubanPage where
  /-- the text of the subject page -/
  douban_page_raw : String
  /-- the value of `$("title").text()` -/
  title : String
  /-- the parsed `application/ld+json` script of the page head -/
  ld_json : JVal
  /-- the imdb link of the info block, when there is one (`has_imdb`) -/
  imdb : Option ImdbRef
  /-- the value of `$("span[property=\"v:itemreviewed\"]").text()` -/
  itemreviewed : String
  /-- the text after the label "又名" -/
  aka_anchor : Option String
  /-- the text after the label "制片国家/地区" -/
  regions_anchor : Option String
  /-- the text after the label "语言" -/
  language_anchor : Option String
  /-- the text after the label "集数" -/
  episodes_anchor : Option String
  /-- the text after the label "单集片长" -/
  duration_anchor : Option String
  /-- the value of `$("#content > h1 > span.year").text()` -/
  year : String
  /-- the text of each `span[property="v:genre"]` -/
  genre : List String
  /-- the text of each `span[property="v:initialReleaseDate"]` -/
  initialReleaseDate : List String
  /-- the value of `$("#info span[property=\"v:runtime\"]").text()` -/
  runtime : String
  /-- the value of `introduction_another.text()`, when the selection is not empty -/
  summary : Option String
  /-- the text of each tag link -/
  tags : List String
  /-- the value of the expression of lines 482-490 (the awards text) -/
  awards : String

/-- This is `fetch_anchor`, applied to the `nodeValue` it reads. -/
def fetch_anchor (nodeValue : String) : String := jsTrim nodeValue

/-- The value of `s.replace(/(\/)?$/, "/")`: a final slash is added unless
the text already ends with one. -/
def withFinalSlash (s : String) : String :=
  if s.toList.getLast? = some '/' then s else s ++ "/"

/-- The pattern `/tt\d+/`, with the whole match as its group. -/
def pattern_tt : Regex := .group (.cat [.text "tt", .plus isDigit])

/-- The worker loop of `posterLarge`; `skip` counts the characters of a
match still to be passed over. -/
def posterGo : List Char → Nat → List Char
  | [], _ => []
  | _ :: cs, skip + 1 => posterGo cs skip
  | c :: cs, 0 =>
    if "s_ratio_poster".toList.isPrefixOf (c :: cs) then
      "l_ratio_poster".toList ++ posterGo cs 13
    else if "spic".toList.isPrefixOf (c :: cs) then "lpic".toList ++ posterGo cs 3
    else c :: posterGo cs 0

/-- The value of `image.replace(/s(_ratio_poster|pic)/g, "l$1").replace("img3", "img1")`. -/
def posterLarge (image : String) : String :=
  replaceFirst (String.mk (posterGo image.toList 0)) "img3" "img1"

/-- The normalisation of line 459:
`text.split('\n').map(a => a.trim()).filter(a => a.length > 0).join('\n')`. -/
def normalizeLines (text : String) : String :=
  jsJoin (((jsSplit text "\n").map jsTrim).filter (fun a => decide (0 < utf16Length a))) "\n"

/-- The alias list after sorting (lines 415-417), as the text `aka`. -/
def douban_aka (localeCompare : String → String → Int) (anchor : String) : String :=
  jsJoin (jsSort localeCompare (jsSplit (fetch_anchor anchor) " / ")) "/"

/-- The release dates after sorting (lines 446-450). -/
def douban_playdate (other : String → Option Int) (texts : List String) : List String :=
  jsSort (compareDates other) (texts.map jsTrim)

/-- The rating text of line 464 (and of lines 406 and 596). -/
def ratingText (average votes : JVal) : String :=
  average.toStr ++ "/10 from " ++ votes.toStr ++ " users"

/-- Lines 394-408 of `gen_douban`: the imdb cross-reference. -/
def douban_imdb_fields (ref : ImdbRef) (data : Obj) : Option Obj :=
  let imdb_link := replaceFirst (withFinalSlash ref.href) "http://" "https://"
  match jsMatch imdb_link pattern_tt, ref.imdb_json.prop "resource" with
  | some (some imdb_id), some resource =>
    let data := (data.set "imdb_link" (.str imdb_link)).set "imdb_id" (.str imdb_id)
    if resource.truthy then
      match resource.prop "rating", resource.prop "ratingCount" with
      | some rating, some ratingCount =>
        let data := data.set "imdb_rating_average" (rating.or (.num "0"))
        let data := data.set "imdb_votes" (ratingCount.or (.num "0"))
        some (data.set "imdb_rating"
          (.str (ratingText (rating.or (.num "0")) (ratingCount.or (.num "0")))))
      | _, _ => none
    else some data
  | _, _ => none

/-- A line of the douban rendering guarded by the truthiness of a text. -/
def textLine (value : String) (line : String) : String :=
  if value = "" then "" else line

/-- The person lines of lines 507-509: `v && v.length > 0 ? label + names : ""`. -/
def personLine (v : JVal) (label sep : String) (trimmed : Bool) : Option String :=
  softLine v ((joinNames v sep).map (fun names =>
    label ++ (if trimmed then jsTrim names else names) ++ "\n"))

/-- The local `title` (line 373), also `chinese_title`. -/
def douban_title (page : DoubanPage) : String :=
  jsTrim (replaceFirst page.title "(豆瓣)" "")

/-- The local `foreign_title` (line 411). -/
def douban_foreign_title (page : DoubanPage) : String :=
  jsTrim (replaceFirst page.itemreviewed (douban_title page) "")

/-- The local `aka`; the empty text stands for `undefined` as well, both
being falsy where `aka` is tested. -/
def douban_aka_text (localeCompare : String → String → Int) (page : DoubanPage) : String :=
  (page.aka_anchor.map (douban_aka localeCompare)).getD ""

/-- The local `trans_title` (lines 421-427). -/
def douban_trans_title (localeCompare : String → String → Int) (page : DoubanPage) : String :=
  if douban_foreign_title page = "" then douban_aka_text localeCompare page
  else douban_title page ++
    (if douban_aka_text localeCompare page = "" then ""
     else "/" ++ douban_aka_text localeCompare page)

/-- The local `this_title` (lines 421-427). -/
def douban_this_title (page : DoubanPage) : String :=
  if douban_foreign_title page = "" then douban_title page else douban_foreign_title page

/-- The local `year` (line 437): a blank and `text.substr(1, 4)`. -/
def douban_year (page : DoubanPage) : String :=
  " " ++ String.mk ((page.year.toList.drop 1).take 4)

/-- The locals `region` and `language` (lines 438 and 444). -/
def douban_anchor_list (anchor : Option String) : JVal :=
  match anchor with
  | some t => .arr ((jsSplit (fetch_anchor t) " / ").map JVal.str)
  | none => .str ""

/-- The local `duration` (line 453). -/
def douban_duration (page : DoubanPage) : String :=
  (page.duration_anchor.map fetch_anchor).getD (jsTrim page.runtime)

/-- The local `introduction` (lines 456-459). -/
def douban_introduction (page : DoubanPage) : String :=
  normalizeLines (page.summary.getD "暂无相关剧情介绍")

/-- The assignments to `data` of lines 410-459, in order. -/
def douban_page_entries (localeCompare : String → String → Int)
    (other : String → Option Int) (page : DoubanPage) : List (String × JVal) :=
  [("chinese_title", .str (douban_title page)),
   ("foreign_title", .str (douban_foreign_title page))]
  ++ (match page.aka_anchor with
      | some _ =>
        [("aka", JVal.arr ((jsSplit (douban_aka_text localeCompare page) "/").map JVal.str))]
      | none => [])
  ++ [("trans_title",
        .arr ((jsSplit (douban_trans_title localeCompare page) "/").map JVal.str)),
      ("this_title", .arr ((jsSplit (douban_this_title page) "/").map JVal.str)),
      ("year", .str (douban_year page)),
      ("region", douban_anchor_list page.regions_anchor),
      ("genre", .arr ((page.genre.map jsTrim).map JVal.str)),
      ("language", douban_anchor_list page.language_anchor),
      ("playdate", .arr ((douban_playdate other page.initialReleaseDate).map JVal.str)),
      ("episodes", .str ((page.episodes_anchor.map fetch_anchor).getD "")),
      ("duration", .str (douban_duration page)),
      ("introduction", .str (douban_introduction page))]

/-- The locals `douban_average_rating` and `douban_votes` (lines 462-463). -/
def douban_rating_parts (ld_json : JVal) : Option (JVal × JVal) :=
  match ld_json.prop "aggregateRating" with
  | none => none
  | some aggregateRating =>
    if aggregateRating.truthy then
      match aggregateRating.prop "ratingValue", aggregateRating.prop "ratingCount" with
      | some average, some votes => some (average, votes)
      | _, _ => none
    else some (.num "0", .num "0")

/-- The local `poster` (lines 466-468); the source raises unless the image
is a text. -/
def douban_poster (ld_json : JVal) : Option String :=
  match ld_json.prop "image" with
  | some (.str s) => some (posterLarge s)
  | _ => none

/-- The locals `director`, `writer` and `cast` (lines 470-472), for the key
`k` of the structured data: `ld_json[k] ? ld_json[k] : []`. -/
def douban_people (ld_json : JVal) (k : String) : JVal :=
  ((ld_json.prop k).getD .undefined).or (.arr [])

/-- The assignments to `data` of lines 462-472, in order, given the values
of the locals. -/
def douban_ld_list (ld_json average votes : JVal) (poster : String) : List (String × JVal) :=
  [("douban_rating_average", average), ("douban_votes", votes),
   ("douban_rating", .str (ratingText average votes)),
   ("poster", .str poster),
   ("director", douban_people ld_json "director"),
   ("writer", douban_people ld_json "author"),
   ("cast", douban_people ld_json "actor")]

/-- The assignments to `data` of lines 462-472, unless one of them raises. -/
def douban_ld_entries (ld_json : JVal) : Option (List (String × JVal)) :=
  match douban_rating_parts ld_json, douban_poster ld_json with
  | some (average, votes), some poster => some (douban_ld_list ld_json average votes poster)
  | _, _ => none

/-- The assignments to `data` of lines 474-490, in order. -/
def douban_tail_entries (page : DoubanPage) : List (String × JVal) :=
  (if 0 < page.tags.length then [("tags", JVal.arr (page.tags.map JVal.str))] else [])
  ++ [("awards", .str page.awards)]

/-- The title and key lines of the rendering (lines 493-500), given the
record so far, which holds `poster`. -/
def douban_descr_head (localeCompare : String → String → Int)
    (other : String → Option Int) (page : DoubanPage) (poster : String) : List String :=
  [textLine poster ("[img]" ++ poster ++ "[/img]\n\n"),
   textLine (douban_trans_title localeCompare page)
     ("◎译　　名　" ++ douban_trans_title localeCompare page ++ "\n"),
   textLine (douban_this_title page) ("◎片　　名　" ++ douban_this_title page ++ "\n"),
   textLine (douban_year page) ("◎年　　代　" ++ jsTrim (douban_year page) ++ "\n"),
   if (douban_anchor_list page.regions_anchor).truthy then
     "◎产　　地　" ++ (douban_anchor_list page.regions_anchor).toStr ++ "\n" else "",
   "◎类　　别　" ++ jsJoin (page.genre.map jsTrim) " / " ++ "\n",
   if (douban_anchor_list page.language_anchor).truthy then
     "◎语　　言　" ++ (douban_anchor_list page.language_anchor).toStr ++ "\n" else "",
   "◎上映日期　" ++ jsJoin (douban_playdate other page.initialReleaseDate) " / " ++ "\n"]

/-- The rating and link lines of the rendering (lines 501-506). -/
def douban_descr_ratings (sid : String) (page : DoubanPage) (imdb_rating imdb_link : JVal)
    (douban_rating : String) : List String :=
  [if imdb_rating.truthy then "◎IMDb评分  " ++ imdb_rating.toStr ++ "\n" else "",
   if imdb_link.truthy then "◎IMDb链接  " ++ imdb_link.toStr ++ "\n" else "",
   textLine douban_rating ("◎豆瓣评分　" ++ douban_rating ++ "\n"),
   textLine ("https://movie.douban.com/subject/" ++ sid ++ "/")
     ("◎豆瓣链接　" ++ ("https://movie.douban.com/subject/" ++ sid ++ "/") ++ "\n"),
   textLine ((page.episodes_anchor.map fetch_anchor).getD "")
     ("◎集　　数　" ++ (page.episodes_anchor.map fetch_anchor).getD "" ++ "\n"),
   textLine (douban_duration page) ("◎片　　长　" ++ douban_duration page ++ "\n")]

/-- The people lines of the rendering (lines 507-509). -/
def douban_descr_people (ld_json : JVal) : Option (List String) :=
  match personLine (douban_people ld_json "director") "◎导　　演　" " / " false,
      personLine (douban_people ld_json "author") "◎编　　剧　" " / " false,
      personLine (douban_people ld_json "actor") "◎主　　演　" "\n　　　　  　" true with
  | some d, some w, some c => some [d, w, c]
  | _, _, _ => none

/-- The closing lines of the rendering (lines 510-512). -/
def douban_descr_tail (page : DoubanPage) : List String :=
  [if 0 < page.tags.length then "\n◎标　　签　" ++ jsJoin page.tags " | " ++ "\n" else "",
   textLine (douban_introduction page)
     ("\n◎简　　介\n\n　　" ++ replaceNewlines (douban_introduction page) "\n　　" ++ "\n"),
   textLine page.awards
     ("\n◎获奖情况\n\n　　" ++ replaceNewlines page.awards "\n　　" ++ "\n")]

/-- The text `descr` of `gen_douban` before trimming (lines 493-512), given
the record `data` built so far. -/
def douban_descr (localeCompare : String → String → Int) (other : String → Option Int)
    (sid : String) (page : DoubanPage) (data : Obj) : Option String :=
  match douban_descr_people page.ld_json with
  | none => none
  | some people =>
    some (String.join
      (douban_descr_head localeCompare other page (data.get "poster").toStr
        ++ douban_descr_ratings sid page (data.get "imdb_rating") (data.get "imdb_link")
            (data.get "douban_rating").toStr
        ++ people ++ douban_descr_tail page))

/-- The record `data` when the rendering starts (line 493). -/
def douban_data (localeCompare : String → String → Int) (other : String → Option Int)
    (page : DoubanPage) (data : Obj) (ld_entries : List (String × JVal)) : Obj :=
  Obj.assign (Obj.assign (Obj.assign data (douban_page_entries localeCompare other page))
    ld_entries) (douban_tail_entries page)

/-- The success path of `gen_douban` (lines 368-516). -/
def douban_success (localeCompare : String → String → Int) (other : String → Option Int)
    (now : JVal) (sid : String) (page : DoubanPage) (data : Obj) : Option Obj :=
  match (match page.imdb with
      | some ref => douban_imdb_fields ref data
      | none => some data), douban_ld_entries page.ld_json with
  | some data, some ld_entries =>
    match douban_descr localeCompare other sid page
        (douban_data localeCompare other page data ld_entries) with
    | some descr =>
      some (makeJsonResponse now
        (((douban_data localeCompare other page data ld_entries).set
          "format" (.str (jsTrim descr))).set "success" (.bool true)))
    | none => none
  | _, _ => none

/-- The body `gen_douban(sid)` answers with, given what it reads from the
documents it fetches; `none` when the source raises.  `localeCompare` is the
engine's `String.prototype.localeCompare`, `other` its date parser on texts
that are not calendar dates (see `dateValue`). -/
def gen_douban (localeCompare : String → String → Int) (other : String → Option Int)
    (now : JVal) (sid : String) (page : DoubanPage) : Option Obj :=
  if includes page.douban_page_raw "你想访问的页面不存在" then
    some (makeJsonResponse now (Obj.assign [("site", .str "douban"), ("sid", .str sid)]
      [("error", .str NONE_EXIST_ERROR)]))
  else if includes page.douban_page_raw "检测到有异常请求" then
    some (makeJsonResponse now (Obj.assign [("site", .str "douban"), ("sid", .str sid)]
      [("error", .str "GenHelp was temporary banned by Douban, Please wait....")]))
  else douban_success localeCompare other now sid page
    [("site", .str "douban"), ("sid", .str sid)]

/-- The addresses `gen_douban(sid)` passes to `fetch`, in order: the subject
page, then (unless the page carries a marker) the awards page and, when the
page links to imdb and the link holds an id, the imdb rating document. -/
def douban_fetches (sid : String) (page : DoubanPage) : List String :=
  let douban_link := "https://movie.douban.com/subject/" ++ sid ++ "/"
  if includes page.douban_page_raw "你想访问的页面不存在" then [douban_link]
  else if includes page.douban_page_raw "检测到有异常请求" then [douban_link]
  else
    [douban_link, douban_link ++ "awards"] ++
    (match page.imdb with
      | some ref =>
        match jsMatch (replaceFirst (withFinalSlash ref.href) "http://" "https://") pattern_tt with
        | some (some imdb_id) =>
          ["https://p.media-imdb.com/static-content/documents/v1/title/" ++ imdb_id
            ++ "/ratings%3Fjsonp=imdb.rating.run:imdb.api.title.ratings/data.json"]
        | _ => []
      | none => [])

/-! ## Sample inputs -/

/-- A small douban page around the given structured data: no imdb link, no
aliases, one genre, the given release dates. -/
def sample_douban_page (ld_json : JVal) (dates : List String) : DoubanPage where
  douban_page_raw := "<html>"
  title := "Up (豆瓣)"
  ld_json := ld_json
  imdb := none
  itemreviewed := "Up"
  aka_anchor := none
  regions_anchor := none
  language_anchor := none
  episodes_anchor := none
  duration_anchor := none
  year := "(2009)"
  genre := ["动画"]
  initialReleaseDate := dates
  runtime := "96分钟"
  summary := none
  tags := []
  awards := ""

/-- Compare two texts character by character, by code point. -/
def compareChars : List Char → List Char → Int
  | [], [] => 0
  | [], _ :: _ => -1
  | _ :: _, [] => 1
  | a :: as, b :: bs =>
    if a.toNat < b.toNat then -1
    else if b.toNat < a.toNat then 1
    else compareChars as bs

/-- Code-point order as a stand-in for `localeCompare` in examples. -/
def sample_compare (a b : String) : Int := compareChars a.toList b.toList

/-- A small imdb title page around the given structured data. -/
def sample_imdb_page (page_json : JVal) : ImdbPage where
  imdb_page_raw := "<html>"
  page_json := page_json
  review_bar := []
  details_dict := []
  release_date_items := []
  aka_items := []

/-- The sample douban page with the given alias text after the label "又名". -/
def sample_douban_page_aka (aka : String) : DoubanPage :=
  { sample_douban_page (.obj [("image", .str "p.jpg")]) [] with aka_anchor := some aka }

/-- The sample douban page without year, genre and release dates. -/
def sample_douban_page_bare : DoubanPage :=
  { sample_douban_page (.obj [("image", .str "p.jpg")]) [] with year := "", genre := [] }

/-- The sample douban page with the given synopsis text. -/
def sample_douban_page_summary (text : String) : DoubanPage :=
  { sample_douban_page (.obj [("image", .str "p.jpg")]) [] with summary := some text }

/-! ## The epic extractor -/

/-- A chain of property reads `v[k1][k2]...`; it raises (`none`) when a read
is made on `null` or `undefined`. -/
def JVal.path : JVal → List String → Option JVal
  | v, [] => some v
  | v, k :: rest =>
    match v.prop k with
    | some w => JVal.path w rest
    | none => none

/-- The read `v[0]`. -/
def JVal.first : JVal → Option JVal
  | .undefined => none
  | .null => none
  | .arr (x :: _) => some x
  | .str s =>
    match s.toList with
    | c :: _ => some (.str (String.mk [c]))
    | [] => some .undefined
  | _ => some .undefined

/-- The receiver of a call `v.map(...)` or `v.forEach(...)`: the items of an
array; any other value has no such method and the call raises. -/
def JVal.items : JVal → Option (List JVal)
  | .arr items => some items
  | _ => none

/-- This is `s.search(c)` compared with `-1`, for a one-character pattern
without special meaning: whether the character occurs. -/
def hasChar (s : String) (c : Char) : Bool := s.toList.contains c

/-- One round of the loop of lines 1057-1073 of `gen_epic` over the language
descriptors; `languages` is the list built so far. -/
def epic_language_round (languages : List String) (lang : String) : List String :=
  if !hasChar lang ':' && !hasChar lang '：' && decide (0 < languages.length) then
    match languages.getLast? with
    | some last => languages.dropLast ++ [last ++ "、" ++ lang]
    | none => languages
  else if hasChar lang '-' then
    languages ++ (jsSplit lang "-").map jsTrim
  else languages ++ [lang]

/-- The list `languages` after the loop of lines 1056-1073. -/
def epic_languages (descriptors : List String) : List String :=
  descriptors.foldl epic_language_round []

/-- The merge of language descriptors as the specification words it, with
the entries emitted so far kept in reverse (the last emitted entry first):
a descriptor with neither `:` nor `：` that follows an emitted entry is
appended to the last emitted entry after `、`; otherwise a descriptor with
`-` is split at every `-` and each piece is emitted trimmed; otherwise the
descriptor is emitted unchanged. -/
def merge_spec : List String → List String → List String
  | emitted, [] => emitted.reverse
  | emitted, d :: rest =>
    match emitted with
    | last :: earlier =>
      if !hasChar d ':' && !hasChar d '：' then
        merge_spec ((last ++ "、" ++ d) :: earlier) rest
      else if hasChar d '-' then
        merge_spec (((jsSplit d "-").map jsTrim).reverse ++ emitted) rest
      else merge_spec (d :: emitted) rest
    | [] =>
      if hasChar d '-' then merge_spec (((jsSplit d "-").map jsTrim).reverse) rest
      else merge_spec [d] rest

/-- The descriptors `requirements["languages"][i]` read by the loop of lines
1057-1073.  Reading `length` raises on `undefined` and `null`; a value
without a length gives no round; each item of an array must be a text, or
the call of `search` raises.  A value that is a text itself (read letter by
letter) or an object with a `length` is not embedded (`none`). -/
def epic_descriptors : JVal → Option (List String)
  | .arr items =>
    items.foldr (fun item acc =>
      match item, acc with
      | .str s, some rest => some (s :: rest)
      | _, _ => none) (some [])
  | .obj fields => if (fields.lookup "length").isSome then none else some []
  | .num _ => some []
  | .bool _ => some []
  | _ => none

/-- The body of the callback of lines 1082-1083: the texts
`title: minimum` (or `title: recommended`) of the detail rows. -/
def epic_detail_lines (k : String) : List JVal → Option (List JVal)
  | [] => some []
  | x :: rest =>
    match x.prop "title", x.prop k, epic_detail_lines k rest with
    | some title, some v, some lines =>
      some (.str (title.toStr ++ ": " ++ (v.or (.str "")).toStr) :: lines)
    | _, _, _ => none

/-- One round of `requirements["systems"].forEach` (lines 1079-1084), on the
pair of objects `data["min_req"]` and `data["max_req"]`. -/
def epic_system_round (reqs : Obj × Obj) (i : JVal) : Option (Obj × Obj) :=
  match i.prop "systemType", i.prop "details" with
  | some systemType, some details =>
    match details.items with
    | some rows =>
      match epic_detail_lines "minimum" rows, epic_detail_lines "recommended" rows with
      | some mins, some recs =>
        some (reqs.1.set systemType.toStr (.arr mins), reqs.2.set systemType.toStr (.arr recs))
      | _, _ => none
    | none => none
  | _, _ => none

/-- The loop `requirements["systems"].forEach`. -/
def epic_systems : Obj × Obj → List JVal → Option (Obj × Obj)
  | reqs, [] => some reqs
  | reqs, i :: rest =>
    match epic_system_round reqs i with
    | some reqs' => epic_systems reqs' rest
    | none => none

/-- The assignments to `data` of lines 1046-1085 of `gen_epic`, in order,
unless one of the reads raises. -/
def epic_entries (sid : String) (epic_api_json : JVal) : Option (List (String × JVal)) :=
  match (epic_api_json.prop "pages").bind JVal.first with
  | none => none
  | some page =>
    match page.prop "productName", page.path ["data", "about", "description"],
      page.path ["data", "hero", "logoImage", "src"],
      (page.path ["data", "gallery", "galleryImages"]).bind
        (fun g => (g.or (.arr [])).items.bind (propAll "src")),
      page.path ["data", "requirements"] with
    | some name, some desc, some logo, some screenshot, some req =>
      match ((req.or (.arr [])).prop "languages").bind epic_descriptors,
        (((req.or (.arr [])).prop "systems").bind JVal.items).bind (epic_systems ([], [])),
        (((req.or (.arr [])).prop "legalTags").bind JVal.items).bind (propAll "src") with
      | some descriptors, some reqs, some level =>
        some [("name", name),
          ("epic_link", .str ("https://www.epicgames.com/store/zh-CN/product/" ++ sid ++ "/home")),
          ("desc", desc), ("logo", logo), ("poster", logo),
          ("screenshot", .arr screenshot),
          ("language", .arr ((epic_languages descriptors).map JVal.str)),
          ("min_req", .obj reqs.1), ("max_req", .obj reqs.2), ("level", .arr level)]
      | _, _, _ => none
    | _, _, _, _, _ => none

/-- The image lines `v.map(x => "[img]" + x + "[/img]").join("\n")`. -/
def imgLines (items : List JVal) : String :=
  jsJoin (items.map (fun x => "[img]" ++ x.toStr ++ "[/img]")) "\n"

/-- The block of one requirement object in the rendering (lines 1101-1107);
empty when the object has no entry. -/
def epic_req_block (label : String) (req : Obj) : String :=
  if req.length = 0 then ""
  else label ++ "\n\n"
    ++ String.join (req.map (fun e => e.1 ++ "\n" ++
        (match e.2 with
          | .arr lines => JVal.join lines "\n"
          | _ => "") ++ "\n"))
    ++ "\n\n"

/-- The text `descr` of `gen_epic` before trimming (lines 1088-1110), from
the entries of `data`. -/
def epic_descr (sid : String) (logo name desc : JVal) (language : List String)
    (screenshot level : List JVal) (min_req max_req : Obj) : Option String :=
  match softLine logo (some ("[img]" ++ logo.toStr ++ "[/img]\n\n")),
    softLine name (some ("游戏名称：" ++ name.toStr ++ "\n")),
    softLine desc (some ("【游戏简介】\n\n" ++ desc.toStr ++ "\n\n")) with
  | some logoLine, some nameLine, some descLine =>
    some (String.join
      [logoLine, "【基本信息】\n\n", nameLine,
       "商店链接：" ++ ("https://www.epicgames.com/store/zh-CN/product/" ++ sid ++ "/home") ++ "\n",
       "\n",
       if 0 < language.length then "【支持语言】\n\n" ++ jsJoin language "\n" ++ "\n\n" else "",
       descLine,
       epic_req_block "【最低配置】" min_req,
       epic_req_block "【推荐配置】" max_req,
       if 0 < screenshot.length then "【游戏截图】\n\n" ++ imgLines screenshot ++ "\n\n" else "",
       if 0 < level.length then "【游戏评级】\n\n" ++ imgLines level ++ "\n\n" else ""])
  | _, _, _ => none

/-- The body `gen_epic(sid)` answers with, given the status and the parsed
JSON of the product document; `none` when the source raises. -/
def gen_epic (now : JVal) (sid : String) (status : Nat) (epic_api_json : JVal) : Option Obj :=
  if status = 404 then
    some (makeJsonResponse now (Obj.assign [("site", .str "epic"), ("sid", .str sid)]
      [("error", .str NONE_EXIST_ERROR)]))
  else
    match epic_entries sid epic_api_json with
    | none => none
    | some entries =>
      match epic_descr sid (Obj.get entries "logo") (Obj.get entries "name")
          (Obj.get entries "desc")
          (match Obj.get entries "language" with
            | .arr items => JVal.joinItems items
            | _ => [])
          (match Obj.get entries "screenshot" with | .arr items => items | _ => [])
          (match Obj.get entries "level" with | .arr items => items | _ => [])
          (match Obj.get entries "min_req" with | .obj o => o | _ => [])
          (match Obj.get entries "max_req" with | .obj o => o | _ => []) with
      | none => none
      | some descr =>
        some (makeJsonResponse now
          (((Obj.assign [("site", .str "epic"), ("sid", .str sid)] entries).set
            "format" (.str (jsTrim descr))).set "success" (.bool true)))

/-- The addresses `gen_epic(sid)` passes to `fetch`: the product document only. -/
def epic_fetches (sid : String) : List String :=
  ["https://store-content.ak.epicgames.com/api/zh-CN/content/products/" ++ sid]

/-- A product document of the epic store with the given properties added to
the page data (beside `about`, `hero` and `gallery`). -/
def sample_epic_json (extra : List (String × JVal)) : JVal :=
  .obj [("pages", .arr [.obj [("productName", .str "G"),
    ("data", .obj ([("about", .obj [("description", .str "D")]),
      ("hero", .obj [("logoImage", .obj [("src", .str "l.png")])]),
      ("gallery", .obj [("galleryImages", .arr [])])] ++ extra))]])]

/-! ## The bangumi search -/

/-- The table `tp_dict` of `search_bangumi`; a number used as a property
name is written as the text `String(n)`. -/
def tp_dict : List (String × String) :=
  [("1", "漫画/小说"), ("2", "动画/二次元番"), ("3", "音乐"), ("4", "游戏"), ("6", "三次元番")]

/-- The read `tp_dict[t]`, for a value `t` whose text is not the name of a
property that every object inherits. -/
def tp_dict_get (t : JVal) : JVal :=
  match tp_dict.lookup t.toStr with
  | some label => .str label
  | none => .undefined

/-- The callback of `bgm_search_json.list.map` (lines 335-341). -/
def bangumi_search_item (d : JVal) : Option JVal :=
  match (d.prop "air_date").bind sliceYear, d.prop "type", d.prop "name_cn", d.prop "name",
    d.prop "url" with
  | some year, some type, some name_cn, some name, some url =>
    some (.obj [("year", year), ("subtype", tp_dict_get type),
      ("title", match name_cn with
        | .str "" => name
        | v => v),
      ("subtitle", name), ("link", url)])
  | _, _, _, _, _ => none

/-- The items `bgm_search_json.list.map(...)` yields, unless the callback raises. -/
def bangumi_search_items : List JVal → Option (List JVal)
  | [] => some []
  | d :: rest =>
    match bangumi_search_item d, bangumi_search_items rest with
    | some item, some items => some (item :: items)
    | _, _ => none

/-- The body `search_bangumi(query)` answers with, given the parsed JSON of
the upstream answer; `none` when the source raises. -/
def search_bangumi (now : JVal) (bgm_search_json : JVal) : Option Obj :=
  match ((bgm_search_json.prop "list").bind JVal.items).bind bangumi_search_items with
  | some items => some (makeJsonResponse now [("data", .arr items)])
  | none => none

/-! ## The bangumi extractor -/

/-- One item of the cast list of the characters page. -/
structure CastItem where
  /-- the value of `h2.find("span.tip").text()` -/
  tip : String
  /-- the value of `h2.find("a").text()` -/
  name : String
  /-- the value of `p.find("small").text()` for each `div.clearit > p` -/
  actors : List String

/-- What `gen_bangumi` reads from the two documents it fetches.  The HTML
queries are not embedded: each field is the value of one read. -/
structure BangumiPage where
  /-- the text of the subject page -/
  bangumi_page_raw : String
  /-- the value of `cover_another.attr("href")` (`none` for `undefined`) -/
  cover_href : Option String
  /-- the value of `story_another.text()` -/
  story : String
  /-- the text of each `li` of the info box -/
  staff : List String
  /-- the value of `$('span[property="v:votes"]').text()` -/
  votes : String
  /-- the text of the average score -/
  average : String
  /-- the text of each tag -/
  tags : List String
  /-- the items of the cast list, in document order -/
  cast : List CastItem

/-- The value of `s.replace(/\/cover\/[lcmsg]\//, "/cover/l/")`. -/
def coverLarge : List Char → List Char
  | [] => []
  | c :: cs =>
    match stripLit "/cover/".toList (c :: cs) with
    | some (k :: '/' :: rest) =>
      if k ∈ ['l', 'c', 'm', 's', 'g'] then "/cover/l/".toList ++ rest else c :: coverLarge cs
    | _ => c :: coverLarge cs

/-- The value of `data["poster"]` in `gen_bangumi` (line 718); a missing
`href` is written out as `undefined`. -/
def bangumi_poster (page : BangumiPage) : String :=
  String.mk (coverLarge ("https:" ++ page.cover_href.getD "undefined").toList)

/-- One entry of `data["cast"]` (lines 743-752). -/
def bangumi_cast_entry (item : CastItem) : String :=
  jsTrim (replaceFirst (if item.tip ≠ "" then item.tip else item.name) "/" "")
    ++ ": " ++ jsJoin (item.actors.map jsTrim) "，"

/-- The staff items shown in the rendering (lines 758-760). -/
def bangumi_staff_shown (staff : List String) : List String :=
  (staff.filter (fun d => !(["中文名", "话数", "放送开始", "放送星期"].any
    (fun p => p.toList.isPrefixOf d.toList)))).take 15

/-- The pieces of `descr` in `gen_bangumi`, in order (lines 755-763). -/
def bangumi_lines (poster story : String) (staff cast : List String) (alt : String) :
    List String :=
  [textLine poster ("[img]" ++ poster ++ "[/img]\n\n"),
   textLine story ("[b]Story: [/b]\n\n" ++ story ++ "\n\n"),
   if 0 < staff.length then
     "[b]Staff: [/b]\n\n" ++ jsJoin (bangumi_staff_shown staff) "\n" ++ "\n\n" else "",
   if 0 < cast.length then "[b]Cast: [/b]\n\n" ++ jsJoin (cast.take 9) "\n" ++ "\n\n" else "",
   textLine alt ("(来源于 " ++ alt ++ " )\n")]

/-- The assignments to `data` of lines 700-752, in order. -/
def bangumi_entries (sid : String) (page : BangumiPage) : List (String × JVal) :=
  [("alt", .str ("https://bgm.tv/subject/" ++ sid)),
   ("poster", .str (bangumi_poster page)),
   ("cover", .str (bangumi_poster page)),
   ("story", .str (jsTrim page.story)),
   ("staff", .arr (page.staff.map JVal.str)),
   ("bangumi_votes", .str page.votes),
   ("bangumi_rating_average", .str page.average),
   ("tags", .arr (page.tags.map JVal.str)),
   ("cast", .arr ((page.cast.map bangumi_cast_entry).map JVal.str))]

/-- The body `gen_bangumi(sid)` answers with, given what it reads from the
documents it fetches. -/
def gen_bangumi (now : JVal) (sid : String) (page : BangumiPage) : Obj :=
  if includes page.bangumi_page_raw "呜咕，出错了" then
    makeJsonResponse now (Obj.assign [("site", .str "bangumi"), ("sid", .str sid)]
      [("error", .str NONE_EXIST_ERROR)])
  else
    makeJsonResponse now
      (((Obj.assign [("site", .str "bangumi"), ("sid", .str sid)] (bangumi_entries sid page)).set
        "format" (.str (jsTrim (String.join (bangumi_lines (bangumi_poster page)
          (jsTrim page.story) page.staff (page.cast.map bangumi_cast_entry)
          ("https://bgm.tv/subject/" ++ sid)))))).set "success" (.bool true))

/-- The addresses `gen_bangumi(sid)` passes to `fetch`, in order: the subject
page and, unless the page carries the not-found marker, the characters page. -/
def bangumi_fetches (sid : String) (page : BangumiPage) : List String :=
  if includes page.bangumi_page_raw "呜咕，出错了" then ["https://bgm.tv/subject/" ++ sid]
  else ["https://bgm.tv/subject/" ++ sid, "https://bgm.tv/subject/" ++ sid ++ "/characters"]

/-! ## The steam extractor -/

/-- The worker loop of `jsSearch`; `i` is the position reached, in UTF-16
code units. -/
def searchGo (pat : List Char) : List Char → Nat → Int
  | [], i => if pat = [] then (i : Int) else -1
  | c :: cs, i =>
    if pat.isPrefixOf (c :: cs) then (i : Int)
    else searchGo pat cs (i + (if c.val < 0x10000 then 1 else 2))

/-- This is `s.search(pat)` for a pattern that is a literal text: the
position of the first occurrence, `-1` when there is none. -/
def jsSearch (s pat : String) : Int := searchGo pat.toList s.toList 0

/-- The pattern `/[^(]+\((.+)\)/` of `jsonp_parser`. -/
def pattern_jsonp : Regex :=
  .cat [.plus (fun c => c ≠ '('), .text "(",
    .group (.plus (fun c => c ≠ '\n' && c ≠ '\r' && c ≠ '\u2028' && c ≠ '\u2029')), .text ")"]

/-- This is `jsonp_parser`.  `JSON_parse` is the engine's `JSON.parse`, with
`none` for the SyntaxError it raises; whatever is raised inside the `try`
block yields the empty object. -/
def jsonp_parse (JSON_parse : String → Option JVal) (responseText : String) : JVal :=
  match jsMatch (replaceNewlines responseText "") pattern_jsonp with
  | some (some text) =>
    match JSON_parse text with
    | some v => v
    | none => .obj []
  | _ => .obj []

/-- One block of the system requirements of a steam page. -/
structure SysreqItem where
  /-- the value of `tag.attr("data-os")` (`none` for `undefined`) -/
  data_os : Option String
  /-- the value of `clone_tag.text()`, in which every `<br>` reads `[br]` -/
  text : String

/-- What `gen_steam` reads from the two documents it fetches.  The HTML
queries and the replacements by a regular expression are not embedded: each
field is the value of one read. -/
structure SteamPage where
  /-- the value of `steam_page_resp.status` -/
  status : Nat
  /-- the value of `cover_anchor.attr("src").replace(...)` of line 808;
  `none` when there is no `src`, and the call of `replace` raises -/
  cover : Option String
  /-- the value of `name_anchor.text()` -/
  name : String
  /-- the value of `detail_anchor.eq(0).text().replace(/:[ \t\n]+/g, ": ")` -/
  detail : String
  /-- the text of each tag -/
  tags : List String
  /-- the value of `$(this).text().replace("：", ":").replace(/[ \t\n]{2,}/ig, " ")`
  for each review row -/
  review : List String
  /-- the value of `linkbar_anchor.text()` -/
  linkbar_text : String
  /-- the value of `linkbar_anchor.attr("href").replace(...)` of line 824;
  `none` when there is no `href`, and the call of `replace` raises -/
  linkbar_href : Option String
  /-- the text of each `td` of each row selected as `language_anchor`, in
  document order -/
  language_rows : List (List String)
  /-- the value of `html2bbcode(descr_anchor.html())` -/
  descr : String
  /-- the value of `dic.attr("href").replace(...)` of line 850 for each
  screenshot link; `none` when a link has no `href` -/
  screenshot : List (Option String)
  /-- the blocks selected as `sysreq_anchor`, in document order -/
  sysreq : List SysreqItem
  /-- the text of the localisation document -/
  steamcn_api_jsonp : String

/-- The constant `lag_checkcol_list`. -/
def lag_checkcol_list : List String := ["界面", "完全音频", "字幕"]

/-- The callback of `language_anchor.slice(1, 4).map` (lines 831-845) on the
cell texts of a row: an absent cell has the empty text. -/
def steam_language_row (tag_td_list : List String) : String :=
  let lag_support_checkcol := (List.range lag_checkcol_list.length).filterMap (fun i =>
    if jsSearch (tag_td_list.getD (i + 1) "") "✔" ≠ 0 then lag_checkcol_list.get? i else none)
  jsTrim (tag_td_list.getD 0 "")
    ++ (if 0 < lag_support_checkcol.length then
          " (" ++ jsJoin lag_support_checkcol ", " ++ ")" else "")

/-- The value of `data["language"]` (lines 828-845). -/
def steam_language (rows : List (List String)) : List String :=
  ((rows.drop 1).take 3).map steam_language_row

/-- The constant `os_dict`. -/
def os_dict : List (String × String) :=
  [("win", "Windows"), ("mac", "Mac OS X"), ("linux", "SteamOS + Linux")]

/-- One entry of `data["sysreq"]` (lines 858-871), for an attribute value
that is not the name of a property every object inherits. -/
def steam_sysreq_entry (item : SysreqItem) : String :=
  (match item.data_os.bind (fun os => os_dict.lookup os) with
    | some os_type => os_type
    | none => "undefined")
  ++ "\n"
  ++ jsJoin (((jsSplit (jsJoin (((jsSplit item.text "\n").map jsTrim).filter
        (fun x => decide (0 < utf16Length x))) "\n\n") "[br]").map jsTrim).filter
      (fun x => decide (0 < utf16Length x))) "\n"

/-- Collect the values of a `map` whose callback raises on `none`. -/
def allTexts : List (Option String) → Option (List String)
  | [] => some []
  | none :: _ => none
  | some x :: rest =>
    match allTexts rest with
    | some xs => some (x :: xs)
    | none => none

/-- The assignment of lines 823-825: the official site, unless the text of
the link bar starts with "访问网站"; `none` when the source raises. -/
def steam_linkbar (page : SteamPage) : Option (List (String × JVal)) :=
  if jsSearch page.linkbar_text "访问网站" ≠ 0 then
    match page.linkbar_href with
    | some href => some [("linkbar", .str href)]
    | none => none
  else some []

/-- The assignment of line 877, given the value of `steamcn_api_json["name_cn"]`. -/
def steam_name_chs (name_cn : JVal) : List (String × JVal) :=
  if name_cn.truthy then [("name_chs", name_cn)] else []

/-- The assignments to `data` of lines 790-877, in order, given the values
of the locals; the keys `linkbar` and `name_chs` are conditional. -/
def steam_entries (sid : String) (page : SteamPage) (cover : String)
    (linkbar : List (String × JVal)) (screenshot : List String)
    (name_chs : List (String × JVal)) : List (String × JVal) :=
  [("steam_id", .str sid),
   ("poster", .str cover),
   ("cover", .str cover),
   ("name", .str (jsTrim page.name)),
   ("detail", .str (normalizeLines page.detail)),
   ("tags", .arr ((page.tags.map jsTrim).map JVal.str)),
   ("review", .arr ((page.review.map jsTrim).map JVal.str))]
  ++ linkbar
  ++ [("language", .arr ((steam_language page.language_rows).map JVal.str)),
      ("descr", .str (jsTrim (replaceFirst page.descr "[h2]关于这款游戏[/h2]" ""))),
      ("screenshot", .arr (screenshot.map JVal.str)),
      ("sysreq", .arr ((page.sysreq.map steam_sysreq_entry).map JVal.str))]
  ++ name_chs

/-- The pieces of `descr` in `gen_steam`, in order (lines 880-892), given the
line of the localised name. -/
def steam_lines (sid : String) (page : SteamPage) (cover : String) (linkbar : JVal)
    (screenshot : List String) (name_line : String) : List String :=
  [textLine cover ("[img]" ++ cover ++ "[/img]\n\n"),
   "【基本信息】\n\n",
   name_line,
   textLine (normalizeLines page.detail) (normalizeLines page.detail ++ "\n"),
   (match linkbar with
    | .str href => textLine href ("官方网站: " ++ href ++ "\n")
    | _ => ""),
   textLine sid ("Steam页面: https://store.steampowered.com/app/" ++ sid ++ "/\n"),
   if 0 < (steam_language page.language_rows).length then
     "游戏语种: " ++ jsJoin (steam_language page.language_rows) " | " ++ "\n" else "",
   if 0 < page.tags.length then "标签: " ++ jsJoin (page.tags.map jsTrim) " | " ++ "\n" else "",
   if 0 < page.review.length then "\n" ++ jsJoin (page.review.map jsTrim) "\n" ++ "\n" else "",
   "\n",
   textLine (jsTrim (replaceFirst page.descr "[h2]关于这款游戏[/h2]" ""))
     ("【游戏简介】\n\n" ++ jsTrim (replaceFirst page.descr "[h2]关于这款游戏[/h2]" "") ++ "\n\n"),
   if 0 < page.sysreq.length then
     "【配置需求】\n\n" ++ jsJoin (page.sysreq.map steam_sysreq_entry) "\n" ++ "\n\n" else "",
   if 0 < screenshot.length then
     "【游戏截图】\n\n" ++ jsJoin (screenshot.map (fun x => "[img]" ++ x ++ "[/img]")) "\n"
       ++ "\n\n" else ""]

/-- The body `gen_steam(sid)` answers with, given what it reads from the
documents it fetches; `none` when the source raises (or leaves the embedded
fragment, see `JVal.lengthPos`). -/
def gen_steam (JSON_parse : String → Option JVal) (now : JVal) (sid : String)
    (page : SteamPage) : Option Obj :=
  if page.status = 302 then
    some (makeJsonResponse now (Obj.assign [("site", .str "steam"), ("sid", .str sid)]
      [("error", .str NONE_EXIST_ERROR)]))
  else
    match page.cover, steam_linkbar page, allTexts page.screenshot,
      (jsonp_parse JSON_parse page.steamcn_api_jsonp).prop "name_cn" with
    | some cover, some linkbar, some screenshot, some name_cn =>
      match softLine (Obj.get (steam_name_chs name_cn) "name_chs")
          (some ("中文名: " ++ (Obj.get (steam_name_chs name_cn) "name_chs").toStr ++ "\n")) with
      | some name_line =>
        some (makeJsonResponse now
          (((Obj.assign [("site", .str "steam"), ("sid", .str sid)]
              (steam_entries sid page cover linkbar screenshot (steam_name_chs name_cn))).set
            "format" (.str (jsTrim (String.join (steam_lines sid page cover
              (Obj.get linkbar "linkbar") screenshot name_line))))).set "success" (.bool true)))
      | none => none
    | _, _, _, _ => none

/-- The addresses `gen_steam(sid)` passes to `fetch`, in order: the store
page and, unless the answer is a redirect, the localisation document. -/
def steam_fetches (sid : String) (page : SteamPage) : List String :=
  if page.status = 302 then ["https://store.steampowered.com/app/" ++ sid ++ "/?l=schinese"]
  else ["https://store.steampowered.com/app/" ++ sid ++ "/?l=schinese",
    "https://steamdb.keylol.com/app/" ++ sid ++ "/data.js?v=38"]

/-! ## The indienova extractor -/

/-- What `gen_indienova` reads from the page it fetches.  The HTML queries
and the replacements by a regular expression are not embedded: each field is
the value of one read. -/
structure IndienovaPage where
  /-- the text of the game page -/
  indienova_page_raw : String
  /-- the value of `$("div.cover-image img").attr("src")` (`none` for `undefined`) -/
  cover : Option String
  /-- the value of `$("title").text()` -/
  title : String
  /-- the value of `title_field.find("h1 small").text()` -/
  h1_small : String
  /-- the value of `title_field.find("h1 span").text()` -/
  h1_span : String
  /-- the value of `title_field.find("p.gamedb-release").text()` -/
  release : String
  /-- text and `href` of each link selected as `link_field`, in document order -/
  links : List (String × Option String)
  /-- the value of `intro_field.find("div.bottommargin-sm").text()` -/
  intro : String
  /-- the value of `$(this).text().replace(/[ \n]+/ig, " ").replace(/,/g, "/")`
  for each `p.single-line` -/
  intro_detail : List String
  /-- the value of `descr_field.text()`, when the selection is not empty -/
  article : Option String
  /-- the text of each `div#scores text` -/
  rating_field : List String
  /-- the text of each list selected as `pubdev` -/
  pubdev : List String
  /-- the `src` of each `li.slide img` (`none` for `undefined`) -/
  screenshot : List (Option String)
  /-- the value of `cat_field.text()` -/
  cat : String
  /-- the `src` of each image of the rating block (`none` for `undefined`) -/
  level : List (Option String)
  /-- for each item of the price list, the text of the store and the value
  of `price_field.eq(2).text().trim().replace(/[ \n]{2,}/, " ")` -/
  price : List (String × String)

/-- The object `links` built by lines 928-933, for link names that are not
array indices (own properties are kept in insertion order). -/
def indienova_links (link_field : List (String × Option String)) : Obj :=
  link_field.foldl (fun links that =>
    links.set (jsTrim that.1) (match that.2 with
      | some href => .str href
      | none => .undefined)) []

/-- The value of `data["rate"]` (line 956); a missing text is written out
as `undefined`. -/
def indienova_rate (rating_field : List String) : String :=
  rating_field.getD 0 "undefined" ++ ":" ++ rating_field.getD 1 "undefined" ++ " / "
    ++ rating_field.getD 2 "undefined" ++ ":" ++ rating_field.getD 3 "undefined"

/-- The value of `text.trim().split("\n").map(value => value.trim())`. -/
def trimmedLines (text : String) : List String := (jsSplit (jsTrim text) "\n").map jsTrim

/-- The filter of lines 978-980: first occurrences only, without "查看全部 +". -/
def indienova_cat (cat : List String) : List String :=
  (cat.enum.filter (fun (e : Nat × String) =>
    decide (cat.indexOf e.2 = e.1) && decide (e.2 ≠ "查看全部 +"))).map Prod.snd

/-- The values a cheerio `map` collects: a callback result of `undefined` is
left out. -/
def collected (items : List (Option String)) : List String := items.reduceOption

/-- The value of `data["descr"]` (line 950). -/
def indienova_descr_text (page : IndienovaPage) : String :=
  match page.article with
  | some text => jsTrim (replaceFirst text "……显示全部" "")
  | none => jsTrim page.intro

/-- The assignments to `data` of lines 917-996, in order; the keys `links`
and `intro_detail` are conditional. -/
def indienova_entries (page : IndienovaPage) : List (String × JVal) :=
  [("cover", match page.cover with
      | some src => .str src
      | none => .undefined),
   ("poster", match page.cover with
      | some src => .str src
      | none => .undefined),
   ("chinese_title",
      .str (jsTrim ((jsSplit ((jsSplit page.title "|").headD "") "-").headD ""))),
   ("another_title", .str (jsTrim page.h1_small)),
   ("english_title", .str (jsTrim page.h1_span)),
   ("release_date", .str (jsTrim page.release))]
  ++ (if 0 < page.links.length then [("links", JVal.obj (indienova_links page.links))] else [])
  ++ [("intro", .str (jsTrim page.intro))]
  ++ (if 0 < page.intro_detail.length then
        [("intro_detail", JVal.arr ((page.intro_detail.map jsTrim).map JVal.str))] else [])
  ++ [("descr", .str (indienova_descr_text page)),
      ("rate", .str (indienova_rate page.rating_field)),
      ("dev", .arr ((trimmedLines (page.pubdev.getD 0 "")).map JVal.str)),
      ("pub", .arr ((if page.pubdev.length = 2 then trimmedLines (page.pubdev.getD 1 "")
        else []).map JVal.str)),
      ("screenshot", .arr ((collected page.screenshot).map JVal.str)),
      ("cat", .arr ((indienova_cat (trimmedLines page.cat)).map JVal.str)),
      ("level", .arr ((collected page.level).map JVal.str)),
      ("price", .arr (page.price.map (fun (p : String × String) =>
        JVal.str (jsTrim p.1 ++ "：" ++ p.2))))]

/-- The piece of `descr` added by lines 1010-1016, given the value of
`data["links"]`: the entries are listed when the guard
`data["links"] && data["links"].length > 0` holds; `none` where the guard
leaves the embedded fragment (see `JVal.lengthPos`). -/
def indienova_links_line (links : JVal) : Option String :=
  if links.truthy then
    match links.lengthPos, links with
    | some true, .obj entries =>
      some ("链接地址：" ++ jsJoin (entries.map (fun e =>
        "[url=" ++ e.2.toStr ++ "]" ++ e.1 ++ "[/url]")) "  " ++ "\n")
    | some true, _ => none
    | some false, _ => some ""
    | none, _ => none
  else some ""

/-- The line of a list in the renderings: `v.length > 0 ? label + v.join(sep) + "\n" : ""`. -/
def listLine (label : String) (items : List String) (sep : String) : String :=
  if 0 < items.length then label ++ jsJoin items sep ++ "\n" else ""

/-- The pieces of `descr` in `gen_indienova`, in order (lines 999-1021),
given the piece of the links. -/
def indienova_lines (page : IndienovaPage) (links_line : String) : List String :=
  [(match page.cover with
    | some src => textLine src ("[img]" ++ src ++ "[/img]\n\n")
    | none => ""),
   "【基本信息】\n\n",
   textLine (jsTrim ((jsSplit ((jsSplit page.title "|").headD "") "-").headD ""))
     ("中文名称：" ++ jsTrim ((jsSplit ((jsSplit page.title "|").headD "") "-").headD "") ++ "\n"),
   textLine (jsTrim page.h1_span) ("英文名称：" ++ jsTrim page.h1_span ++ "\n"),
   textLine (jsTrim page.h1_small) ("其他名称：" ++ jsTrim page.h1_small ++ "\n"),
   textLine (jsTrim page.release) ("发行时间：" ++ jsTrim page.release ++ "\n"),
   textLine (indienova_rate page.rating_field)
     ("评分：" ++ indienova_rate page.rating_field ++ "\n"),
   listLine "开发商：" (trimmedLines (page.pubdev.getD 0 "")) " / ",
   listLine "发行商："
     (if page.pubdev.length = 2 then trimmedLines (page.pubdev.getD 1 "") else []) " / ",
   listLine "" (page.intro_detail.map jsTrim) "\n",
   listLine "标签：" ((indienova_cat (trimmedLines page.cat)).take 8) " | ",
   links_line,
   listLine "价格信息：" (page.price.map (fun (p : String × String) => jsTrim p.1 ++ "：" ++ p.2))
     " / ",
   "\n",
   textLine (indienova_descr_text page) ("【游戏简介】\n\n" ++ indienova_descr_text page ++ "\n\n"),
   if 0 < (collected page.screenshot).length then
     "【游戏截图】\n\n" ++ jsJoin ((collected page.screenshot).map
       (fun x => "[img]" ++ x ++ "[/img]")) "\n" ++ "\n\n" else "",
   if 0 < (collected page.level).length then
     "【游戏评级】\n\n" ++ jsJoin ((collected page.level).map
       (fun x => "[img]" ++ x ++ "[/img]")) "\n" ++ "\n\n" else ""]

/-- The body `gen_indienova(sid)` answers with, given what it reads from the
page it fetches; `none` when the run leaves the embedded fragment. -/
def gen_indienova (now : JVal) (sid : String) (page : IndienovaPage) : Option Obj :=
  if includes page.indienova_page_raw "出现错误" then
    some (makeJsonResponse now (Obj.assign [("site", .str "indienova"), ("sid", .str sid)]
      [("error", .str NONE_EXIST_ERROR)]))
  else
    match indienova_links_line (Obj.get (indienova_entries page) "links") with
    | some links_line =>
      some (makeJsonResponse now
        (((Obj.assign [("site", .str "indienova"), ("sid", .str sid)]
            (indienova_entries page)).set
          "format" (.str (jsTrim (String.join (indienova_lines page links_line))))).set
          "success" (.bool true)))
    | none => none

/-- The addresses `gen_indienova(sid)` passes to `fetch`: the game page only. -/
def indienova_fetches (sid : String) : List String := ["https://indienova.com/game/" ++ sid]

/-! ## `handle` and the edge cache -/

/-- A response of the worker. -/
inductive Response where
  /-- the answer of `handleOptions`: to a CORS pre-flight request or not -/
  | options (preflight : Bool)
  /-- the page of `makeIndexResponse` -/
  | index
  /-- the JSON answer `makeJsonResponse` builds, with its body -/
  | json (body : Obj)

/-- What `handle` reads from the request. -/
structure Request where
  /-- the value of `request.method` -/
  method : String
  /-- whether the three headers tested by `handleOptions` are all present -/
  preflight : Bool
  /-- the value of `uri.pathname` -/
  pathname : String
  /-- the value of `uri.search` -/
  search : String
  /-- the value of `uri.searchParams.get("search")` -/
  keywords : Option String
  /-- the value of `uri.searchParams.get("source")` -/
  source : Option String
  /-- the parameters of the content-generation branch -/
  params : SearchParams
  /-- the value of `uri.searchParams.get("debug")` -/
  debug : Option String

/-- What the calls made by `handle` yield: a body, or the message of the
exception raised. -/
structure Upstream where
  /-- the outcome of `search_<source>(keywords)` -/
  search : String → String → Except String Obj
  /-- the outcome of `gen_<site>(sid)` -/
  extract : String → String → Except String Obj
  /-- the value of `debug_get_err(e, request)` -/
  debug_info : JVal
  /-- the value of `(new Date()).valueOf()` -/
  now : JVal

/-- Lines 92-142 of `handle`: the content-generation branch with its calls. -/
def respond_generate (up : Upstream) (p : SearchParams) : Except String Response :=
  match generate p with
  | .respond body_update => .ok (.json (makeJsonResponse up.now body_update))
  | .gen_douban sid => (up.extract "douban" sid).map Response.json
  | .gen_imdb sid => (up.extract "imdb" sid).map Response.json
  | .gen_bangumi sid => (up.extract "bangumi" sid).map Response.json
  | .gen_steam sid => (up.extract "steam" sid).map Response.json
  | .gen_indienova sid => (up.extract "indienova" sid).map Response.json
  | .gen_epic sid => (up.extract "epic" sid).map Response.json

/-- The value of `a || b` for a query parameter `a` (`none` for `null`). -/
def paramOr (a : Option String) (b : String) : String :=
  match a with
  | some s => if s ≠ "" then s else b
  | none => b

/-- Lines 68-90 of `handle`: the search branch with its calls. -/
def respond_search (up : Upstream) (keywords : String) (source : String) :
    Except String Response :=
  if support_site_list.contains source then
    if source = "douban" then (up.search "douban" keywords).map Response.json
    else if source = "bangumi" then (up.search "bangumi" keywords).map Response.json
    else if source = "imdb" then (up.search "imdb" keywords).map Response.json
    else .ok (.json (makeJsonResponse up.now
      [("error", .str ("Miss search function for `source`: " ++ source ++ "."))]))
  else .ok (.json (makeJsonResponse up.now [("error", .str "Unknown value of key `source`.")]))

/-- The `try` block of `handle` up to line 143: the response built, or the
message of the exception raised. -/
def respond (up : Upstream) (req : Request) : Except String Response :=
  if req.pathname = "/" ∧ req.search = "" then .ok .index
  else if paramOr req.keywords "" ≠ "" then
    respond_search up (paramOr req.keywords "") (paramOr req.source "douban")
  else respond_generate up req.params

/-- What a call of `handle` does. -/
structure Handled where
  /-- the response returned -/
  response : Response
  /-- the response passed to `cache.put`, when the call is made -/
  put : Option Response

/-- This is `handle`; `cached` is the value of `cache.match(request)`. -/
def handle (up : Upstream) (cached : Option Response) (req : Request) : Handled :=
  if req.method = "OPTIONS" then ⟨.options req.preflight, none⟩
  else
    match cached with
    | some response => ⟨response, none⟩
    | none =>
      match respond up req with
      | .ok response => ⟨response, some response⟩
      | .error message =>
        ⟨.json (makeJsonResponse up.now
          ([("error", .str ("Internal Error, Please contact @" ++ AUTHOR ++ ". Exception: "
              ++ message))]
            ++ (if req.debug = some "1" then [("debug", up.debug_info)] else []))), none⟩

/-- The body of a JSON response. -/
def Response.body : Response → Option Obj
  | .json body => some body
  | _ => none

/-! ## The record invariant -/

/-- The invariant of a metadata record, in the words of the specification:
with `success = true` the error is `null` and the format is a non-empty
text; with `success = false` the format is empty and the error is a message. -/
def record_invariant (body : Obj) : Bool :=
  match body.get "success", body.get "error", body.get "format" with
  | .bool true, .null, .str format => decide (format ≠ "")
  | .bool false, .str message, .str format => decide (format = "") && decide (message ≠ "")
  | _, _, _ => false

/-- The body of a not-found answer, in the words of the specification: the
defaults with the standard message, and `site` and `sid` as the only other
fields. -/
def not_found_record (now : JVal) (site sid : String) : Obj :=
  [("success", .bool false), ("error", .str "The corresponding resource does not exist."),
   ("format", .str ""), ("copyright", .str "Powered by @Rhilip"), ("version", .str "0.6.1"),
   ("generate_at", now), ("site", .str site), ("sid", .str sid)]

/-! ## Sample inputs of the game extractors -/

/-- A steam store page with the given rows of the language table and the
given text of the localisation document. -/
def sample_steam_page (rows : List (List String)) (jsonp : String) : SteamPage where
  status := 200
  cover := some "https://cdn.example/header.jpg"
  name := "G"
  detail := ""
  tags := []
  review := []
  linkbar_text := "访问网站"
  linkbar_href := none
  language_rows := rows
  descr := ""
  screenshot := []
  sysreq := []
  steamcn_api_jsonp := jsonp

/-- A parser that knows three JSON texts. -/
def sample_JSON_parse (text : String) : Option JVal :=
  if text = "null" then some .null
  else if text = "\x7b\x7d" then some (.obj [])
  else if text = "\x7b\"name_cn\":\"游戏\"\x7d" then some (.obj [("name_cn", .str "游戏")])
  else none

/-- An indienova game page with the given links. -/
def sample_indienova_page (links : List (String × Option String)) : IndienovaPage where
  indienova_page_raw := ""
  cover := none
  title := "G | indienova"
  h1_small := ""
  h1_span := ""
  release := ""
  links := links
  intro := ""
  intro_detail := []
  article := none
  rating_field := []
  pubdev := []
  screenshot := []
  cat := ""
  level := []
  price := []

/-- A bangumi subject page whose text is `raw`. -/
def sample_bangumi_page (raw : String) : BangumiPage where
  bangumi_page_raw := raw
  cover_href := none
  story := ""
  staff := []
  votes := ""
  average := ""
  tags := []
  cast := []

/-- Calls that answer as the epic extractor does for a product the store
does not know, and fail for the other sites. -/
def sample_upstream : Upstream where
  search := fun _ _ => .error "fetch failed"
  extract := fun site sid =>
    if site = "epic" then
      match gen_epic (.num "0") sid 404 .null with
      | some body => .ok body
      | none => .error "TypeError"
    else .error "fetch failed"
  debug_info := .null
  now := .num "0"

/-- A GET request for `/?...` with the given parameters of the
content-generation branch and no search keywords. -/
def sample_request (params : SearchParams) : Request where
  method := "GET"
  preflight := false
  pathname := "/"
  search := "?"
  keywords := none
  source := none
  params := params
  debug := none

/-! ## Lemmas on the matcher -/

theorem stripLit_append (cs rest : List Char) : stripLit cs (cs ++ rest) = some rest := by
  induction cs with
  | nil => cases rest <;> rfl
  | cons c cs ih => simp [stripLit, ih]

theorem stripLit_eq_some (cs s s' : List Char) (h : stripLit cs s = some s') : s = cs ++ s' := by
  induction cs generalizing s with
  | nil => cases s <;> simp_all [stripLit]
  | cons c cs ih =>
    cases s with
    | nil => simp [stripLit] at h
    | cons x xs =>
      by_cases hcx : c = x
      · simp [stripLit, hcx] at h
        simp [hcx, ih xs h]
      · simp [stripLit, hcx] at h

/-- A greedy `c+` takes a whole non-empty run of class characters first,
when what follows the run cannot extend it. -/
theorem runPlus_greedy (p : Char → Bool) (d rest : List Char) (hd : ∀ c ∈ d, p c = true)
    (hne : d ≠ []) (hrest : runPlus p rest = []) :
    ∃ tl, runPlus p (d ++ rest) = rest :: tl := by
  induction d with
  | nil => exact absurd rfl hne
  | cons x d ih =>
    have hx : p x = true := hd x (List.mem_cons_self _ _)
    by_cases hd0 : d = []
    · subst hd0
      exact ⟨[], by simp [runPlus, hx, hrest]⟩
    · obtain ⟨tl, htl⟩ := ih (fun c hc => hd c (List.mem_cons_of_mem _ hc)) hd0
      exact ⟨tl ++ [d ++ rest], by simp [runPlus, hx, htl]⟩

theorem runPlus_suffix (p : Char → Bool) (s s' : List Char) (h : s' ∈ runPlus p s) :
    s' <:+ s := by
  induction s with
  | nil => simp [runPlus] at h
  | cons x xs ih =>
    by_cases hx : p x = true
    · simp [runPlus, hx] at h
      rcases h with h | h
      · exact (ih h).trans (List.suffix_cons x xs)
      · rw [h]; exact List.suffix_cons x xs
    · simp [runPlus, hx] at h

/-- Every result of the matcher leaves a suffix of its input. -/
theorem run_suffix (r : Regex) : ∀ (s : List Char) (cap : Option (List Char)) (st : MState),
    st ∈ r.run s cap → st.1 <:+ s := by
  induction r with
  | lit cs =>
    intro s cap st h
    simp only [Regex.run] at h
    cases hs : stripLit cs s with
    | none => simp [hs] at h
    | some s' =>
      simp [hs] at h
      subst h
      rw [stripLit_eq_some cs s s' hs]
      exact List.suffix_append cs s'
  | cls p =>
    intro s cap st h
    cases s with
    | nil => simp [Regex.run] at h
    | cons x xs =>
      by_cases hx : p x = true
      · simp [Regex.run, hx] at h; subst h; exact List.suffix_cons x xs
      · simp [Regex.run, hx] at h
  | seq r t ihr iht =>
    intro s cap st h
    simp only [Regex.run, List.mem_flatMap] at h
    obtain ⟨st1, h1, h2⟩ := h
    exact (iht _ _ _ h2).trans (ihr _ _ _ h1)
  | alt r t ihr iht =>
    intro s cap st h
    simp only [Regex.run, List.mem_append] at h
    rcases h with h | h
    · exact ihr _ _ _ h
    · exact iht _ _ _ h
  | opt r ih =>
    intro s cap st h
    simp only [Regex.run, List.mem_append, List.mem_filter, List.mem_singleton] at h
    rcases h with ⟨h, _⟩ | h
    · exact ih _ _ _ h
    · subst h; exact List.suffix_refl s
  | plus p =>
    intro s cap st h
    simp only [Regex.run, List.mem_map] at h
    obtain ⟨s', h1, h2⟩ := h
    subst h2
    exact runPlus_suffix p s s' h1
  | group r ih =>
    intro s cap st h
    simp only [Regex.run, List.mem_map] at h
    obtain ⟨st1, h1, h2⟩ := h
    subst h2
    exact ih _ _ st1 h1

/-- The search reports the first result found at the leftmost position. -/
theorem exec_of_run (r : Regex) (s : List Char) (st : MState) (tl : List MState)
    (h : r.run s none = st :: tl) : r.exec s = some st.2 := by
  cases s with
  | nil => simp [Regex.exec, h]
  | cons c t => simp [Regex.exec, h]

theorem douban_run (d : List Char) (hd : ∀ c ∈ d, isDigit c = true) (hne : d ≠ []) :
    ∃ tl, Regex.run pattern_douban
      ("https://movie.douban.com/subject/".toList ++ d ++ ['/']) none = ([], some d) :: tl := by
  obtain ⟨tl, htl⟩ := runPlus_greedy isDigit d ['/'] hd hne (by decide)
  simp [pattern_douban, Regex.cat, Regex.run, scheme, Regex.text, stripLit, htl]

theorem jsMatch_douban (d : String) (hne : d ≠ "") (hd : ∀ c ∈ d.toList, isDigit c = true) :
    jsMatch ("https://movie.douban.com/subject/" ++ d ++ "/") pattern_douban = some (some d) := by
  have hne' : d.toList ≠ [] := by
    intro h
    apply hne
    cases d
    simp_all
  obtain ⟨tl, htl⟩ := douban_run d.toList hd hne'
  have hl : ("https://movie.douban.com/subject/" ++ d ++ "/").toList
      = "https://movie.douban.com/subject/".toList ++ d.toList ++ ['/'] := by
    simp [String.toList]
  unfold jsMatch
  rw [hl, exec_of_run _ _ _ _ htl]
  simp [String.toList]

/-- C1. For every non-empty string `d` of decimal digits, a request whose
`url` parameter is `https://movie.douban.com/subject/<d>/` is resolved to
site `douban` and sid `d`, and the douban extractor is called with `d`,
whatever the `site` and `sid` parameters are. -/
theorem C1_douban_url_resolves (d : String) (hne : d ≠ "")
    (hd : ∀ c ∈ d.toList, isDigit c = true) (site sid : Option String) :
    resolve ⟨some ("https://movie.douban.com/subject/" ++ d ++ "/"), site, sid⟩
        = (some "douban", some d)
      ∧ generate ⟨some ("https://movie.douban.com/subject/" ++ d ++ "/"), site, sid⟩
        = Action.gen_douban d := by
  have hurl : "https://movie.douban.com/subject/" ++ d ++ "/" ≠ "" := by
    intro h
    have h2 := congrArg String.data h
    rw [String.data_append] at h2
    exact absurd h2 (by simp)
  have hres : resolve ⟨some ("https://movie.douban.com/subject/" ++ d ++ "/"), site, sid⟩
      = (some "douban", some d) := by
    simp [resolve, hurl, support_list, scan, jsMatch_douban d hne hd]
  refine ⟨hres, ?_⟩
  simp only [generate, hres]
  rfl

/-- Witness of C1 at `d = "12345"`. -/
theorem C1_douban_url_resolves_witness :
    resolve ⟨some "https://movie.douban.com/subject/12345/", none, none⟩
        = (some "douban", some "12345")
      ∧ generate ⟨some "https://movie.douban.com/subject/12345/", none, none⟩
        = Action.gen_douban "12345" :=
  C1_douban_url_resolves "12345" (by decide) (by decide) none none

/-! ## The resolution loop -/

/-- The loop stops at the first entry whose pattern matches. -/
theorem scan_first_match (url : String) (pre post : List (String × Regex)) (tag : String)
    (pat : Regex) (m : Option String) (hpre : ∀ e ∈ pre, jsMatch url e.2 = none)
    (hm : jsMatch url pat = some m) :
    scan (pre ++ (tag, pat) :: post) url = (some tag, m) := by
  induction pre with
  | nil => simp [scan, hm]
  | cons e pre ih =>
    obtain ⟨t, p⟩ := e
    have he : jsMatch url p = none := hpre (t, p) (List.mem_cons_self _ _)
    have := ih (fun e he => hpre e (List.mem_cons_of_mem _ he))
    simpa [scan, he] using this

/-- The loop leaves `site` and `sid` unset when no pattern matches. -/
theorem scan_no_match (url : String) (table : List (String × Regex))
    (h : ∀ e ∈ table, jsMatch url e.2 = none) : scan table url = (none, none) := by
  induction table with
  | nil => rfl
  | cons e table ih =>
    obtain ⟨t, p⟩ := e
    have he : jsMatch url p = none := h (t, p) (List.mem_cons_self _ _)
    have := ih (fun e he => h e (List.mem_cons_of_mem _ he))
    simpa [scan, he] using this

/-- C3. For every non-empty `url` parameter the resolver scans the table in
the order douban, imdb, bangumi, steam, indienova, epic.  If an entry's
pattern matches and no earlier entry's does, the resolved site is that
entry's tag and `sid` is capture group 1 of that match, whatever entries
follow it in the table; if no pattern matches, site and sid stay unset. -/
theorem C3_first_matching_pattern_wins (url : String) (hne : url ≠ "")
    (site sid : Option String) :
    support_list.map (fun e => e.1)
        = ["douban", "imdb", "bangumi", "steam", "indienova", "epic"]
      ∧ (∀ pre tag pat post m, support_list = pre ++ (tag, pat) :: post →
          (∀ e ∈ pre, jsMatch url e.2 = none) → jsMatch url pat = some m →
          resolve ⟨some url, site, sid⟩ = (some tag, m)
            ∧ ∀ post', scan (pre ++ (tag, pat) :: post') url = (some tag, m))
      ∧ ((∀ e ∈ support_list, jsMatch url e.2 = none) →
          resolve ⟨some url, site, sid⟩ = (none, none)) := by
  refine ⟨rfl, ?_, ?_⟩
  · intro pre tag pat post m hsplit hpre hm
    refine ⟨?_, fun post' => scan_first_match url pre post' tag pat m hpre hm⟩
    simp only [resolve, hne, ne_eq, not_false_eq_true, if_true]
    rw [hsplit]
    exact scan_first_match url pre post tag pat m hpre hm
  · intro h
    simp only [resolve, hne, ne_eq, not_false_eq_true, if_true]
    exact scan_no_match url support_list h

/-- Witness of C3: an imdb address is not matched by the douban pattern and
is resolved by the second entry of the table. -/
theorem C3_first_matching_pattern_wins_witness :
    "https://www.imdb.com/title/tt1234567/" ≠ ""
      ∧ jsMatch "https://www.imdb.com/title/tt1234567/" pattern_douban = none
      ∧ jsMatch "https://www.imdb.com/title/tt1234567/" pattern_imdb = some (some "tt1234567")
      ∧ resolve ⟨some "https://www.imdb.com/title/tt1234567/", some "douban", some "1"⟩
          = (some "imdb", some "tt1234567") :=
  ⟨by decide, by decide, by decide,
    ((C3_first_matching_pattern_wins "https://www.imdb.com/title/tt1234567/" (by decide)
      (some "douban") (some "1")).2.1 [("douban", pattern_douban)] "imdb" pattern_imdb
      [("bangumi", pattern_bangumi), ("steam", pattern_steam),
        ("indienova", pattern_indienova), ("epic", pattern_epic)]
      (some "tt1234567") rfl (by decide) (by decide)).1⟩

/-! ## What a match implies about the address -/

theorem mem_run_lit (cs s : List Char) (cap : Option (List Char)) (st : MState)
    (h : st ∈ (Regex.lit cs).run s cap) : s = cs ++ st.1 := by
  simp only [Regex.run] at h
  cases hs : stripLit cs s with
  | none => simp [hs] at h
  | some s' =>
    simp [hs] at h
    subst h
    exact stripLit_eq_some cs s s' hs

/-- A literal inside `cs` occurs in every input that `cs` matches. -/
theorem needs_lit (Ls : List (List Char)) (L cs : List Char) (hL : L ∈ Ls) (hcs : L <:+: cs) :
    ∀ s cap st, st ∈ (Regex.lit cs).run s cap → ∃ L ∈ Ls, L <:+: s := by
  intro s cap st h
  refine ⟨L, hL, ?_⟩
  rw [mem_run_lit cs s cap st h]
  exact hcs.trans (List.infix_append' [] cs st.1)

theorem needs_first (Ls : List (List Char)) (r t : Regex)
    (h : ∀ s cap st, st ∈ r.run s cap → ∃ L ∈ Ls, L <:+: s) :
    ∀ s cap st, st ∈ (Regex.seq r t).run s cap → ∃ L ∈ Ls, L <:+: s := by
  intro s cap st hst
  simp only [Regex.run, List.mem_flatMap] at hst
  obtain ⟨st1, h1, _⟩ := hst
  exact h s cap st1 h1

theorem needs_after (Ls : List (List Char)) (r t : Regex)
    (h : ∀ s cap st, st ∈ t.run s cap → ∃ L ∈ Ls, L <:+: s) :
    ∀ s cap st, st ∈ (Regex.seq r t).run s cap → ∃ L ∈ Ls, L <:+: s := by
  intro s cap st hst
  simp only [Regex.run, List.mem_flatMap] at hst
  obtain ⟨st1, h1, h2⟩ := hst
  obtain ⟨L, hL, hin⟩ := h st1.1 st1.2 st h2
  exact ⟨L, hL, hin.trans (run_suffix r s cap st1 h1).isInfix⟩

theorem needs_alt (Ls : List (List Char)) (r t : Regex)
    (hr : ∀ s cap st, st ∈ r.run s cap → ∃ L ∈ Ls, L <:+: s)
    (ht : ∀ s cap st, st ∈ t.run s cap → ∃ L ∈ Ls, L <:+: s) :
    ∀ s cap st, st ∈ (Regex.alt r t).run s cap → ∃ L ∈ Ls, L <:+: s := by
  intro s cap st hst
  simp only [Regex.run, List.mem_append] at hst
  rcases hst with h | h
  · exact hr s cap st h
  · exact ht s cap st h

/-- A successful search has found a match at some position of the input. -/
theorem exec_some (r : Regex) (s : List Char) (m : Option (List Char))
    (h : r.exec s = some m) : ∃ t st, t <:+ s ∧ st ∈ r.run t none := by
  induction s with
  | nil =>
    cases hr : r.run [] none with
    | nil => simp [Regex.exec, hr] at h
    | cons st tl => exact ⟨[], st, List.suffix_refl _, by simp [hr]⟩
  | cons c t ih =>
    cases hr : r.run (c :: t) none with
    | nil =>
      simp [Regex.exec, hr] at h
      obtain ⟨u, st, hu, hst⟩ := ih h
      exact ⟨u, st, hu.trans (List.suffix_cons c t), hst⟩
    | cons st tl => exact ⟨c :: t, st, List.suffix_refl _, by simp [hr]⟩

/-- A pattern whose matches all contain one of the texts `Ls` matches
nowhere in an address that contains none of them. -/
theorem jsMatch_none (Ls : List (List Char)) (r : Regex)
    (h : ∀ s cap st, st ∈ r.run s cap → ∃ L ∈ Ls, L <:+: s)
    (url : String) (hurl : ∀ L ∈ Ls, ¬ L <:+: url.toList) : jsMatch url r = none := by
  cases hm : r.exec url.toList with
  | none => unfold jsMatch; rw [hm]; rfl
  | some m =>
    obtain ⟨t, st, ht, hst⟩ := exec_some r url.toList m hm
    obtain ⟨L, hL, hin⟩ := h t none st hst
    exact absurd (hin.trans ht.isInfix) (hurl L hL)

theorem pattern_douban_needs :
    ∀ s cap st, st ∈ pattern_douban.run s cap → ∃ L ∈ ["douban.com".toList], L <:+: s :=
  needs_after _ _ _ (needs_after _ _ _ (needs_first _ _ _
    (needs_lit _ "douban.com".toList _ (by simp) (by decide))))

theorem pattern_imdb_needs :
    ∀ s cap st, st ∈ pattern_imdb.run s cap → ∃ L ∈ ["imdb.com".toList], L <:+: s :=
  needs_after _ _ _ (needs_after _ _ _ (needs_first _ _ _
    (needs_lit _ "imdb.com".toList _ (by simp) (by decide))))

theorem pattern_bangumi_needs :
    ∀ s cap st, st ∈ pattern_bangumi.run s cap →
      ∃ L ∈ ["bgm.tv".toList, "bangumi.tv".toList, "chii.in".toList], L <:+: s :=
  needs_after _ _ _ (needs_first _ _ _ (needs_alt _ _ _
    (needs_lit _ "bgm.tv".toList _ (by simp) (by decide))
    (needs_alt _ _ _
      (needs_lit _ "bangumi.tv".toList _ (by simp) (by decide))
      (needs_lit _ "chii.in".toList _ (by simp) (by decide)))))

theorem pattern_indienova_needs :
    ∀ s cap st, st ∈ pattern_indienova.run s cap → ∃ L ∈ ["indienova.com".toList], L <:+: s :=
  needs_after _ _ _ (needs_first _ _ _
    (needs_lit _ "indienova.com".toList _ (by simp) (by decide)))

theorem pattern_epic_needs :
    ∀ s cap st, st ∈ pattern_epic.run s cap → ∃ L ∈ ["epicgames.com".toList], L <:+: s :=
  needs_after _ _ _ (needs_first _ _ _
    (needs_lit _ "epicgames.com".toList _ (by simp) (by decide)))

theorem pattern_steam_needs :
    ∀ s cap st, st ∈ pattern_steam.run s cap →
      ∃ L ∈ ["steampowered.com".toList, "steamcommunity.com".toList], L <:+: s := by
  have key : ∀ s cap st,
      st ∈ (Regex.seq (.lit "steam".toList)
        (.seq (.alt (.lit "powered".toList) (.lit "community".toList))
          (.seq (.lit ".com/app/".toList)
            (.seq (.group (.plus isDigit)) (.opt (.lit "/".toList)))))).run s cap →
      ∃ L ∈ ["steampowered.com".toList, "steamcommunity.com".toList], L <:+: s := by
    intro s cap st hst
    rw [Regex.run, List.mem_flatMap] at hst
    obtain ⟨st1, h1, hst⟩ := hst
    rw [Regex.run, List.mem_flatMap] at hst
    obtain ⟨st2, h2, hst⟩ := hst
    rw [Regex.run, List.mem_flatMap] at hst
    obtain ⟨st3, h3, _⟩ := hst
    have e1 := mem_run_lit _ _ _ _ h1
    have e3 := mem_run_lit _ _ _ _ h3
    rw [Regex.run] at h2
    rcases List.mem_append.mp h2 with h2 | h2
    · have e2 := mem_run_lit _ _ _ _ h2
      refine ⟨"steampowered.com".toList, by simp, ?_⟩
      rw [e1, e2, e3]
      exact ⟨[], "/app/".toList ++ st3.1, by simp⟩
    · have e2 := mem_run_lit _ _ _ _ h2
      refine ⟨"steamcommunity.com".toList, by simp, ?_⟩
      rw [e1, e2, e3]
      exact ⟨[], "/app/".toList ++ st3.1, by simp⟩
  exact needs_after _ _ _ (needs_after _ _ _ key)

/-- C2, as stated, fails: the patterns are not anchored, so an address on a
foreign domain (`example.org`) that merely contains the text
`douban.com/subject/12345/` is resolved to douban and dispatched. -/
theorem C2_foreign_domain_is_resolved :
    resolve ⟨some "https://example.org/douban.com/subject/12345/", none, none⟩
        = (some "douban", some "12345")
      ∧ generate ⟨some "https://example.org/douban.com/subject/12345/", none, none⟩
        = Action.gen_douban "12345" :=
  ⟨by decide, by rfl⟩

/-- C2, amended. For every non-empty `url` parameter in which none of the
supported domain names occurs anywhere as a substring, resolution leaves
site and sid unset, no extractor is called, and the response body carries
the error "Miss key of `site` or `sid` , or input unsupported resource `url`.". -/
theorem C2_unsupported_url_unresolved (url : String) (hne : url ≠ "")
    (h : ∀ dom ∈ ["douban.com", "imdb.com", "bgm.tv", "bangumi.tv", "chii.in",
        "steampowered.com", "steamcommunity.com", "indienova.com", "epicgames.com"],
      ¬ dom.toList <:+: url.toList)
    (site sid : Option String) (now : JVal) :
    resolve ⟨some url, site, sid⟩ = (none, none)
      ∧ generate ⟨some url, site, sid⟩ = Action.respond [("error",
          .str "Miss key of `site` or `sid` , or input unsupported resource `url`.")]
      ∧ Obj.get (makeJsonResponse now [("error",
          .str "Miss key of `site` or `sid` , or input unsupported resource `url`.")]) "error"
        = .str "Miss key of `site` or `sid` , or input unsupported resource `url`." := by
  have hres : resolve ⟨some url, site, sid⟩ = (none, none) := by
    simp only [resolve, hne, ne_eq, not_false_eq_true, if_true]
    apply scan_no_match
    intro e he
    simp only [support_list, List.mem_cons, List.mem_singleton, List.not_mem_nil, or_false] at he
    rcases he with rfl | rfl | rfl | rfl | rfl | rfl
    · exact jsMatch_none _ _ pattern_douban_needs url (by
        intro L hL; simp only [List.mem_singleton] at hL; subst hL; exact h _ (by simp))
    · exact jsMatch_none _ _ pattern_imdb_needs url (by
        intro L hL; simp only [List.mem_singleton] at hL; subst hL; exact h _ (by simp))
    · exact jsMatch_none _ _ pattern_bangumi_needs url (by
        intro L hL
        simp only [List.mem_cons, List.mem_singleton, List.not_mem_nil, or_false] at hL
        rcases hL with rfl | rfl | rfl <;> exact h _ (by simp))
    · exact jsMatch_none _ _ pattern_steam_needs url (by
        intro L hL
        simp only [List.mem_cons, List.mem_singleton, List.not_mem_nil, or_false] at hL
        rcases hL with rfl | rfl <;> exact h _ (by simp))
    · exact jsMatch_none _ _ pattern_indienova_needs url (by
        intro L hL; simp only [List.mem_singleton] at hL; subst hL; exact h _ (by simp))
    · exact jsMatch_none _ _ pattern_epic_needs url (by
        intro L hL; simp only [List.mem_singleton] at hL; subst hL; exact h _ (by simp))
  refine ⟨hres, ?_, by rfl⟩
  simp only [generate, hres]
  rfl

/-- Witness of C2 (amended) at an address on an unsupported domain. -/
theorem C2_unsupported_url_unresolved_witness :
    resolve ⟨some "https://example.org/title/tt1234567/", some "imdb", some "tt1234567"⟩
        = (none, none)
      ∧ generate ⟨some "https://example.org/title/tt1234567/", some "imdb", some "tt1234567"⟩
        = Action.respond [("error",
          .str "Miss key of `site` or `sid` , or input unsupported resource `url`.")]
      ∧ Obj.get (makeJsonResponse (.num "1700000000000") [("error",
          .str "Miss key of `site` or `sid` , or input unsupported resource `url`.")]) "error"
        = .str "Miss key of `site` or `sid` , or input unsupported resource `url`." :=
  C2_unsupported_url_unresolved "https://example.org/title/tt1234567/" (by decide)
    (by decide) (some "imdb") (some "tt1234567") (.num "1700000000000")

/-! ## The imdb id -/

theorem utf16Length_digits (s : String) (hs : ∀ c ∈ s.toList, isDigit c = true) :
    utf16Length s = s.length := by
  unfold utf16Length String.length
  have : ∀ l : List Char, (∀ c ∈ l, isDigit c = true) →
      (l.map (fun c => if c.val < 0x10000 then 1 else 2)).sum = l.length := by
    intro l hl
    induction l with
    | nil => rfl
    | cons c l ih =>
      have hc := hl c (List.mem_cons_self _ _)
      have hlt : c.val < 0x10000 := by
        simp only [isDigit, Bool.and_eq_true, decide_eq_true_eq] at hc
        have h9 : c.val.toNat ≤ ('9' : Char).val.toNat := hc.2
        show c.val.toNat < (0x10000 : UInt32).toNat
        exact Nat.lt_of_le_of_lt h9 (by decide)
      simp [hlt, ih (fun c hc => hl c (List.mem_cons_of_mem _ hc))]
      omega
  exact this s.toList hs

theorem imdb_strip_digits (s : String) (hs : ∀ c ∈ s.toList, isDigit c = true) :
    imdb_strip s = s := by
  unfold imdb_strip
  have : ("tt".toList.isPrefixOf s.toList) = false := by
    cases hl : s.toList with
    | nil => rfl
    | cons c l =>
      have hc : isDigit c = true := hs c (by rw [hl]; exact List.mem_cons_self _ _)
      have hne : ('t' == c) = false := by
        apply beq_false_of_ne
        intro h
        subst h
        exact absurd hc (by decide)
      show (('t' == c) && ['t'].isPrefixOf l) = false
      rw [hne]; rfl
  rw [this]
  rfl

theorem imdb_strip_tt (s : String) : imdb_strip ("tt" ++ s) = s := by
  unfold imdb_strip
  have hl : ("tt" ++ s).toList = 't' :: 't' :: s.toList := by
    simp [String.toList]
  rw [hl]
  simp [String.toList]

/-- C4. For every string `s` of decimal digits, `gen_imdb` computes the same
imdb id for `sid = s` and for `sid = "tt" + s`: the text `tt` followed by
`s` left-padded with `0` to at least 7 characters (`s` itself when it has 7
or more), and the address fetched is `https://www.imdb.com/title/<id>/`. -/
theorem C4_imdb_id_normalised (s : String) (hs : ∀ c ∈ s.toList, isDigit c = true) :
    imdb_id ("tt" ++ s) = imdb_id s
      ∧ imdb_id s = "tt" ++ (String.mk (List.replicate (7 - s.length) '0') ++ s)
      ∧ (7 ≤ s.length → imdb_id s = "tt" ++ s)
      ∧ imdb_url s = "https://www.imdb.com/title/" ++ imdb_id s ++ "/"
      ∧ imdb_url ("tt" ++ s) = "https://www.imdb.com/title/" ++ imdb_id s ++ "/" := by
  have h1 : imdb_id ("tt" ++ s) = imdb_id s := by
    unfold imdb_id
    rw [imdb_strip_tt, imdb_strip_digits s hs]
  have h2 : imdb_id s = "tt" ++ (String.mk (List.replicate (7 - s.length) '0') ++ s) := by
    unfold imdb_id padStart
    rw [imdb_strip_digits s hs, utf16Length_digits s hs]
  refine ⟨h1, h2, ?_, rfl, ?_⟩
  · intro h7
    rw [h2, Nat.sub_eq_zero_of_le h7]
    rfl
  · unfold imdb_url
    rw [h1]

/-- Witness of C4 at `s = "1234567"`: both spellings give `tt1234567`. -/
theorem C4_imdb_id_normalised_witness :
    imdb_id "tt1234567" = "tt1234567" ∧ imdb_id "1234567" = "tt1234567"
      ∧ imdb_url "1234567" = "https://www.imdb.com/title/tt1234567/" := by
  have h := C4_imdb_id_normalised "1234567" (by decide)
  exact ⟨h.1.trans (h.2.2.1 (by decide)), h.2.2.1 (by decide),
    h.2.2.2.1.trans (by rw [h.2.2.1 (by decide)]; rfl)⟩

/-! ## Lemmas on objects -/

theorem lookup_cons_self (o : Obj) (k : String) (v : JVal) :
    List.lookup k ((k, v) :: o) = some v := by
  simp [List.lookup]

theorem lookup_cons_ne (o : Obj) (k k0 : String) (v0 : JVal) (h : ¬ k = k0) :
    List.lookup k ((k0, v0) :: o) = List.lookup k o := by
  have hb : (k == k0) = false := beq_false_of_ne h
  simp [List.lookup, hb]

theorem lookup_set (o : Obj) (k : String) (v : JVal) (k' : String) :
    (Obj.set o k v).lookup k' = if k' = k then some v else o.lookup k' := by
  induction o with
  | nil =>
    by_cases h : k' = k
    · subst h; simp [Obj.set, lookup_cons_self]
    · simp [Obj.set, lookup_cons_ne _ _ _ _ h, h]
  | cons e o ih =>
    obtain ⟨k0, v0⟩ := e
    by_cases h0 : k0 = k
    · subst h0
      by_cases h : k' = k0
      · subst h; simp [Obj.set, lookup_cons_self]
      · simp [Obj.set, lookup_cons_ne _ _ _ _ h, h]
    · by_cases h : k' = k
      · subst h
        have hne : ¬ (k' = k0) := fun e => h0 e.symm
        simp [Obj.set, h0, lookup_cons_ne _ _ _ _ hne, ih]
      · by_cases h1 : k' = k0
        · subst h1; simp [Obj.set, h0, h, lookup_cons_self]
        · simp [Obj.set, h0, h, lookup_cons_ne _ _ _ _ h1, ih]

theorem get_set (o : Obj) (k : String) (v : JVal) (k' : String) :
    Obj.get (Obj.set o k v) k' = if k' = k then v else Obj.get o k' := by
  unfold Obj.get
  rw [lookup_set]
  by_cases h : k' = k <;> simp [h]

theorem lookup_eq_none_iff (o : Obj) (k : String) :
    o.lookup k = none ↔ k ∉ o.map Prod.fst := by
  induction o with
  | nil => simp [List.lookup]
  | cons e o ih =>
    obtain ⟨k0, v0⟩ := e
    by_cases h : k = k0
    · subst h; simp [lookup_cons_self]
    · rw [lookup_cons_ne _ _ _ _ h, ih]
      simp [h]

theorem keys_set (o : Obj) (k : String) (v : JVal) :
    (Obj.set o k v).map Prod.fst
      = if k ∈ o.map Prod.fst then o.map Prod.fst else o.map Prod.fst ++ [k] := by
  induction o with
  | nil => simp [Obj.set]
  | cons e o ih =>
    obtain ⟨k0, v0⟩ := e
    by_cases h0 : k0 = k
    · subst h0; simp [Obj.set]
    · have hne : ¬ (k = k0) := fun e => h0 e.symm
      simp only [Obj.set, h0, if_false, List.map_cons, ih, List.mem_cons, hne, false_or]
      by_cases hm : k ∈ o.map Prod.fst
      · simp [hm]
      · simp [hm]

theorem nodup_set (o : Obj) (k : String) (v : JVal) (h : (o.map Prod.fst).Nodup) :
    ((Obj.set o k v).map Prod.fst).Nodup := by
  rw [keys_set]
  by_cases hm : k ∈ o.map Prod.fst
  · simpa [hm] using h
  · simp only [hm, if_false]
    exact List.Nodup.append h (List.nodup_singleton k) (by simpa using hm)

theorem nodup_assign (t s : Obj) (h : (t.map Prod.fst).Nodup) :
    ((Obj.assign t s).map Prod.fst).Nodup := by
  induction s generalizing t with
  | nil => exact h
  | cons e s ih => exact ih (Obj.set t e.1 e.2) (nodup_set t e.1 e.2 h)

/-- With distinct keys in the source, `Object.assign` takes each property
from the source when the source has it and keeps the target's otherwise. -/
theorem lookup_assign (t s : Obj) (hs : (s.map Prod.fst).Nodup) (k : String) :
    (Obj.assign t s).lookup k
      = match s.lookup k with
        | some v => some v
        | none => t.lookup k := by
  induction s generalizing t with
  | nil => rfl
  | cons e s ih =>
    obtain ⟨k0, v0⟩ := e
    have hk0 : k0 ∉ s.map Prod.fst := (List.nodup_cons.mp hs).1
    have hs' : (s.map Prod.fst).Nodup := (List.nodup_cons.mp hs).2
    show (Obj.assign (Obj.set t k0 v0) s).lookup k = _
    rw [ih (Obj.set t k0 v0) hs', lookup_set]
    by_cases h : k = k0
    · subst h
      rw [(lookup_eq_none_iff s k).mpr hk0, lookup_cons_self]
      simp
    · rw [lookup_cons_ne _ _ _ _ h]
      simp [h]

theorem get_assign (t s : Obj) (hs : (s.map Prod.fst).Nodup) (k : String) :
    Obj.get (Obj.assign t s) k = if Obj.has s k then Obj.get s k else Obj.get t k := by
  unfold Obj.get Obj.has
  rw [lookup_assign t s hs]
  cases s.lookup k <;> simp

/-- A property of the body `makeJsonResponse` builds from a record with
distinct keys: the time stamp, else the record's value, else the default. -/
theorem get_makeJsonResponse (now : JVal) (data : Obj) (hd : (data.map Prod.fst).Nodup)
    (k : String) :
    Obj.get (makeJsonResponse now data) k
      = if k = "generate_at" then now
        else if Obj.has data k then Obj.get data k else Obj.get default_body k := by
  unfold makeJsonResponse
  rw [get_assign _ _ (by simp), get_assign _ _ hd]
  by_cases h : k = "generate_at"
  · subst h; simp [Obj.has, Obj.get, lookup_cons_self]
  · have h1 : Obj.has [("generate_at", now)] k = false := by
      unfold Obj.has
      rw [lookup_cons_ne _ _ _ _ h]
      rfl
    rw [h1]
    simp only [h, if_false, Bool.false_eq_true]
    rfl

theorem has_set (o : Obj) (k : String) (v : JVal) (k' : String) :
    Obj.has (Obj.set o k v) k' = (decide (k' = k) || Obj.has o k') := by
  unfold Obj.has
  rw [lookup_set]
  by_cases h : k' = k <;> simp [h]

/-! ## Lemmas on trimming -/

theorem dropWhile_keeps (p : Char → Bool) (a rest : List Char) (c : Char) (hc : p c = false) :
    ∃ a', (a ++ c :: rest).dropWhile p = a' ++ c :: rest := by
  induction a with
  | nil => exact ⟨[], by simp [List.dropWhile, hc]⟩
  | cons x a ih =>
    by_cases hx : p x = true
    · obtain ⟨a', ha'⟩ := ih
      exact ⟨a', by simp [List.dropWhile, hx, ha']⟩
    · exact ⟨x :: a, by simp [List.dropWhile, hx]⟩

theorem rdropWhile_keeps (p : Char → Bool) (front b : List Char) (c : Char)
    (hc : p c = false) : ∃ b', (front ++ c :: b).rdropWhile p = front ++ c :: b' := by
  obtain ⟨r, hr⟩ := dropWhile_keeps p b.reverse front.reverse c hc
  refine ⟨r.reverse, ?_⟩
  unfold List.rdropWhile
  have : (front ++ c :: b).reverse = b.reverse ++ c :: front.reverse := by simp
  rw [this, hr]
  simp

/-- Trimming keeps any part of a text that starts and ends with characters
that are not white space. -/
theorem jsTrim_keeps (a b : String) (c1 c2 : Char) (mid : List Char)
    (h1 : isWhiteSpace c1 = false) (h2 : isWhiteSpace c2 = false) :
    ∃ a' b' : String,
      jsTrim (a ++ String.mk (c1 :: mid ++ [c2]) ++ b)
        = a' ++ String.mk (c1 :: mid ++ [c2]) ++ b' := by
  obtain ⟨a', ha'⟩ := dropWhile_keeps isWhiteSpace a.toList (mid ++ [c2] ++ b.toList) c1 h1
  obtain ⟨b', hb'⟩ := rdropWhile_keeps isWhiteSpace (a' ++ c1 :: mid) b.toList c2 h2
  refine ⟨String.mk a', String.mk b', ?_⟩
  unfold jsTrim
  have e1 : (a ++ String.mk (c1 :: mid ++ [c2]) ++ b).toList
      = a.toList ++ c1 :: (mid ++ [c2] ++ b.toList) := by
    simp [String.toList]
  rw [e1, ha']
  have e2 : a' ++ c1 :: (mid ++ [c2] ++ b.toList) = (a' ++ c1 :: mid) ++ c2 :: b.toList := by
    simp
  rw [e2, hb']
  apply String.ext
  simp

/-! ## Lemmas on texts -/

theorem join_acc (l : List String) (acc : String) :
    l.foldl (fun r s => r ++ s) acc = acc ++ String.join l := by
  induction l generalizing acc with
  | nil => simp [String.join]
  | cons x l ih =>
    simp only [List.foldl_cons, String.join]
    rw [ih (acc ++ x), ih ("" ++ x)]
    simp [String.append_assoc]

theorem join_cons (x : String) (l : List String) : String.join (x :: l) = x ++ String.join l := by
  show List.foldl (fun r s => r ++ s) ("" ++ x) l = x ++ String.join l
  rw [join_acc]
  simp

theorem join_append (l1 l2 : List String) :
    String.join (l1 ++ l2) = String.join l1 ++ String.join l2 := by
  induction l1 with
  | nil => simp [String.join]
  | cons x l ih => simp [join_cons, ih, String.append_assoc]

theorem append_ne_empty_left (a b : String) (h : a ≠ "") : a ++ b ≠ "" := by
  intro e
  apply h
  have e2 := congrArg String.data e
  rw [String.data_append] at e2
  apply String.ext
  simp at e2
  simp [e2.1]

theorem append_ne_empty_right (a b : String) (h : b ≠ "") : a ++ b ≠ "" := by
  intro e
  apply h
  have e2 := congrArg String.data e
  rw [String.data_append] at e2
  apply String.ext
  simp at e2
  simp [e2.2]

theorem ratingText_ne_empty (average votes : JVal) : ratingText average votes ≠ "" := by
  unfold ratingText
  exact append_ne_empty_left _ _ (append_ne_empty_left _ _
    (append_ne_empty_right _ _ (by decide)))

theorem textLine_of_ne (value line : String) (h : value ≠ "") : textLine value line = line := by
  simp [textLine, h]

/-! ## The douban record -/

theorem nodup_douban_imdb_fields (ref : ImdbRef) (data data' : Obj)
    (hd : (data.map Prod.fst).Nodup) (h : douban_imdb_fields ref data = some data') :
    (data'.map Prod.fst).Nodup := by
  unfold douban_imdb_fields at h
  dsimp only at h
  split at h
  · split at h
    · split at h
      · simp only [Option.some.injEq] at h
        subst h
        exact nodup_set _ _ _ (nodup_set _ _ _ (nodup_set _ _ _
          (nodup_set _ _ _ (nodup_set _ _ _ hd))))
      · exact absurd h (by simp)
    · simp only [Option.some.injEq] at h
      subst h
      exact nodup_set _ _ _ (nodup_set _ _ _ hd)
  · exact absurd h (by simp)

/-- The record a successful run of `gen_douban` hands to `makeJsonResponse`. -/
theorem douban_success_some (localeCompare : String → String → Int)
    (other : String → Option Int) (now : JVal) (sid : String) (page : DoubanPage)
    (data0 body : Obj) (hd : (data0.map Prod.fst).Nodup)
    (h : douban_success localeCompare other now sid page data0 = some body) :
    ∃ data1 average votes poster descr,
      (data1.map Prod.fst).Nodup
      ∧ (match page.imdb with
          | some ref => douban_imdb_fields ref data0
          | none => some data0) = some data1
      ∧ douban_rating_parts page.ld_json = some (average, votes)
      ∧ douban_poster page.ld_json = some poster
      ∧ douban_descr localeCompare other sid page
          (douban_data localeCompare other page data1
            (douban_ld_list page.ld_json average votes poster)) = some descr
      ∧ body = makeJsonResponse now
          (((douban_data localeCompare other page data1
            (douban_ld_list page.ld_json average votes poster)).set
            "format" (.str (jsTrim descr))).set "success" (.bool true)) := by
  unfold douban_success at h
  cases h1 : (match page.imdb with
      | some ref => douban_imdb_fields ref data0
      | none => some data0) with
  | none => simp [h1] at h
  | some data1 =>
    have hd1 : (data1.map Prod.fst).Nodup := by
      cases hi : page.imdb with
      | none => simp [hi] at h1; subst h1; exact hd
      | some ref => simp [hi] at h1; exact nodup_douban_imdb_fields ref data0 data1 hd h1
    cases h2 : douban_ld_entries page.ld_json with
    | none => simp [h1, h2] at h
    | some ld_entries =>
      simp only [h1, h2] at h
      unfold douban_ld_entries at h2
      cases h3 : douban_rating_parts page.ld_json with
      | none => simp [h3] at h2
      | some parts =>
        obtain ⟨average, votes⟩ := parts
        cases h4 : douban_poster page.ld_json with
        | none => simp [h3, h4] at h2
        | some poster =>
          simp only [h3, h4, Option.some.injEq] at h2
          subst h2
          cases h5 : douban_descr localeCompare other sid page
              (douban_data localeCompare other page data1
                (douban_ld_list page.ld_json average votes poster)) with
          | none => simp [h5] at h
          | some descr =>
            simp only [h5, Option.some.injEq] at h
            exact ⟨data1, average, votes, poster, descr, hd1, rfl, rfl, rfl, h5, h.symm⟩

theorem nodup_page_entries (localeCompare : String → String → Int)
    (other : String → Option Int) (page : DoubanPage) :
    ((douban_page_entries localeCompare other page).map Prod.fst).Nodup := by
  unfold douban_page_entries
  cases page.aka_anchor <;> simp

theorem nodup_tail_entries (page : DoubanPage) :
    ((douban_tail_entries page).map Prod.fst).Nodup := by
  unfold douban_tail_entries
  split <;> simp

theorem nodup_ld_list (ld_json average votes : JVal) (poster : String) :
    ((douban_ld_list ld_json average votes poster).map Prod.fst).Nodup := by
  simp [douban_ld_list]

theorem nodup_douban_data (localeCompare : String → String → Int)
    (other : String → Option Int) (page : DoubanPage) (data : Obj) (l : List (String × JVal))
    (hd : (data.map Prod.fst).Nodup) :
    ((douban_data localeCompare other page data l).map Prod.fst).Nodup :=
  nodup_assign _ _ (nodup_assign _ _ (nodup_assign _ _ hd))

/-- A key assigned by lines 462-472 keeps its value until the rendering. -/
theorem douban_data_lookup_ld (localeCompare : String → String → Int)
    (other : String → Option Int) (page : DoubanPage) (data : Obj)
    (average votes : JVal) (poster : String) (k : String) (v : JVal)
    (hk : (douban_ld_list page.ld_json average votes poster).lookup k = some v)
    (hk' : k ≠ "tags" ∧ k ≠ "awards") :
    (douban_data localeCompare other page data
      (douban_ld_list page.ld_json average votes poster)).lookup k = some v := by
  unfold douban_data
  rw [lookup_assign _ _ (nodup_tail_entries page)]
  have ht : (douban_tail_entries page).lookup k = none := by
    rw [lookup_eq_none_iff]
    unfold douban_tail_entries
    split <;> simp [hk'.1, hk'.2]
  rw [ht]
  simp only
  rw [lookup_assign _ _ (nodup_ld_list _ _ _ _), hk]

/-- A key of the imdb cross-reference keeps its value until the rendering. -/
theorem douban_data_lookup_imdb (localeCompare : String → String → Int)
    (other : String → Option Int) (page : DoubanPage) (data : Obj)
    (average votes : JVal) (poster : String) (k : String)
    (hk : k = "imdb_rating" ∨ k = "imdb_link") :
    (douban_data localeCompare other page data
      (douban_ld_list page.ld_json average votes poster)).lookup k = data.lookup k := by
  unfold douban_data
  rw [lookup_assign _ _ (nodup_tail_entries page)]
  have ht : (douban_tail_entries page).lookup k = none := by
    rw [lookup_eq_none_iff]
    unfold douban_tail_entries
    rcases hk with rfl | rfl <;> split <;> simp
  rw [ht]
  simp only
  rw [lookup_assign _ _ (nodup_ld_list _ _ _ _)]
  have hl : (douban_ld_list page.ld_json average votes poster).lookup k = none := by
    rw [lookup_eq_none_iff]
    rcases hk with rfl | rfl <;> simp [douban_ld_list]
  rw [hl]
  simp only
  rw [lookup_assign _ _ (nodup_page_entries _ _ _)]
  have hp : (douban_page_entries localeCompare other page).lookup k = none := by
    rw [lookup_eq_none_iff]
    unfold douban_page_entries
    rcases hk with rfl | rfl <;> cases page.aka_anchor <;> simp
  rw [hp]

/-- Reading a property of the body that the record holds. -/
theorem get_body_of_lookup (now : JVal) (data : Obj) (hd : (data.map Prod.fst).Nodup)
    (k : String) (v : JVal) (hk : k ≠ "generate_at") (h : data.lookup k = some v) :
    Obj.get (makeJsonResponse now data) k = v := by
  rw [get_makeJsonResponse now data hd]
  simp [hk, Obj.has, Obj.get, h]

/-- A line that starts with a visible character survives trimming when a
later line ends with a visible character. -/
theorem jsTrim_keeps_line (A B rest1 pre2 : String) (c1 c2 : Char)
    (h1 : isWhiteSpace c1 = false) (h2 : isWhiteSpace c2 = false) :
    ∃ pre post : String,
      jsTrim (A ++ ((String.mk (c1 :: rest1.toList) ++ "\n")
          ++ ((pre2 ++ String.mk [c2] ++ "\n") ++ B)))
        = pre ++ (String.mk (c1 :: rest1.toList) ++ "\n") ++ post := by
  obtain ⟨a', b', h⟩ := jsTrim_keeps A ("\n" ++ B) c1 c2
    (rest1.toList ++ '\n' :: pre2.toList) h1 h2
  refine ⟨a', pre2 ++ String.mk [c2] ++ b', ?_⟩
  have e : A ++ ((String.mk (c1 :: rest1.toList) ++ "\n")
          ++ ((pre2 ++ String.mk [c2] ++ "\n") ++ B))
      = A ++ String.mk (c1 :: (rest1.toList ++ '\n' :: pre2.toList) ++ [c2]) ++ ("\n" ++ B) := by
    apply String.ext
    simp [String.data_append]
  rw [e, h]
  apply String.ext
  simp [String.data_append]

/-- The douban rating text and its line, given the values of the locals
`douban_average_rating` and `douban_votes`. -/
theorem douban_rating_of_parts (localeCompare : String → String → Int)
    (other : String → Option Int) (now : JVal) (sid : String) (page : DoubanPage)
    (a c : JVal) (body : Obj)
    (hmark1 : includes page.douban_page_raw "你想访问的页面不存在" = false)
    (hmark2 : includes page.douban_page_raw "检测到有异常请求" = false)
    (hac : douban_rating_parts page.ld_json = some (a, c))
    (hbody : gen_douban localeCompare other now sid page = some body) :
    Obj.get body "douban_rating" = .str (a.toStr ++ "/10 from " ++ c.toStr ++ " users")
      ∧ ∃ pre post : String, Obj.get body "format"
          = .str (pre ++ ("◎豆瓣评分　" ++ (a.toStr ++ "/10 from " ++ c.toStr ++ " users") ++ "\n")
              ++ post) := by
  unfold gen_douban at hbody
  simp only [hmark1, hmark2, if_false, Bool.false_eq_true] at hbody
  obtain ⟨data1, average, votes, poster, descr, hd1, _, hparts, _, hdescr, hb⟩ :=
    douban_success_some localeCompare other now sid page _ body (by simp) hbody
  have hav : average = a ∧ votes = c := by
    rw [hac] at hparts
    simp only [Option.some.injEq, Prod.mk.injEq] at hparts
    exact ⟨hparts.1.symm, hparts.2.symm⟩
  obtain ⟨rfl, rfl⟩ := hav
  have hlook : (douban_data localeCompare other page data1
      (douban_ld_list page.ld_json average votes poster)).lookup "douban_rating"
        = some (.str (ratingText average votes)) :=
    douban_data_lookup_ld _ _ _ _ _ _ _ _ _ (by simp [douban_ld_list, List.lookup])
      (by decide)
  have hnd := nodup_set _ "success" (.bool true)
    (nodup_set _ "format" (.str (jsTrim descr))
      (nodup_douban_data localeCompare other page data1
        (douban_ld_list page.ld_json average votes poster) hd1))
  constructor
  · rw [hb]
    exact get_body_of_lookup now _ hnd _ _ (by decide)
      (by rw [lookup_set, lookup_set]; simpa using hlook)
  · have hfmt : Obj.get body "format" = .str (jsTrim descr) := by
      rw [hb]
      exact get_body_of_lookup now _ hnd _ _ (by decide)
        (by rw [lookup_set, lookup_set]; simp)
    rw [hfmt]
    unfold douban_descr at hdescr
    cases hp : douban_descr_people page.ld_json with
    | none => simp [hp] at hdescr
    | some people =>
      simp only [hp, Option.some.injEq] at hdescr
      have hget : (Obj.get (douban_data localeCompare other page data1
          (douban_ld_list page.ld_json average votes poster)) "douban_rating").toStr
            = ratingText average votes := by
        unfold Obj.get
        rw [hlook]
        rfl
      rw [hget] at hdescr
      rw [join_append, join_append, join_append] at hdescr
      unfold douban_descr_ratings at hdescr
      simp only [join_cons] at hdescr
      rw [textLine_of_ne _ _ (ratingText_ne_empty average votes),
        textLine_of_ne _ _ (append_ne_empty_right _ _ (by decide))] at hdescr
      generalize String.join (douban_descr_head localeCompare other page
        (Obj.get (douban_data localeCompare other page data1
          (douban_ld_list page.ld_json average votes poster)) "poster").toStr) = A at hdescr
      generalize (if (Obj.get (douban_data localeCompare other page data1
          (douban_ld_list page.ld_json average votes poster)) "imdb_rating").truthy = true
        then "◎IMDb评分  " ++ (Obj.get (douban_data localeCompare other page data1
          (douban_ld_list page.ld_json average votes poster)) "imdb_rating").toStr ++ "\n"
        else "") = x1 at hdescr
      generalize (if (Obj.get (douban_data localeCompare other page data1
          (douban_ld_list page.ld_json average votes poster)) "imdb_link").truthy = true
        then "◎IMDb链接  " ++ (Obj.get (douban_data localeCompare other page data1
          (douban_ld_list page.ld_json average votes poster)) "imdb_link").toStr ++ "\n"
        else "") = x2 at hdescr
      generalize textLine ((page.episodes_anchor.map fetch_anchor).getD "")
        ("◎集　　数　" ++ (page.episodes_anchor.map fetch_anchor).getD "" ++ "\n") = x3 at hdescr
      generalize textLine (douban_duration page)
        ("◎片　　长　" ++ douban_duration page ++ "\n") = x4 at hdescr
      generalize String.join people = P at hdescr
      generalize String.join (douban_descr_tail page) = T at hdescr
      obtain ⟨pre, post, hkeep⟩ := jsTrim_keeps_line (A ++ (x1 ++ x2))
        ((x3 ++ x4) ++ (P ++ T))
        ("豆瓣评分　" ++ ratingText average votes)
        ("◎豆瓣链接　https://movie.douban.com/subject/" ++ sid) '◎' '/'
        (by decide) (by decide)
      refine ⟨pre, post, ?_⟩
      have e1 : String.mk ('◎' :: ("豆瓣评分　" ++ ratingText average votes).toList)
          = "◎豆瓣评分　" ++ (average.toStr ++ "/10 from " ++ votes.toStr ++ " users") := by
        apply String.ext
        simp [String.data_append, ratingText]
      have e2 : descr = A ++ (x1 ++ x2) ++
          ((String.mk ('◎' :: ("豆瓣评分　" ++ ratingText average votes).toList) ++ "\n")
          ++ ((("◎豆瓣链接　https://movie.douban.com/subject/" ++ sid) ++ String.mk ['/'] ++ "\n")
            ++ ((x3 ++ x4) ++ (P ++ T)))) := by
        rw [← hdescr]
        apply String.ext
        simp [String.data_append, String.join]
      rw [e2, hkeep, e1]


/-- C6. In the douban extractor, when the structured data of the page carries
an aggregate rating with average `a` (ratingValue) and count `c`
(ratingCount), the record's `douban_rating` is exactly `<a>/10 from <c> users`
and the formatted text contains the line `◎豆瓣评分　<a>/10 from <c> users`. -/
theorem C6_douban_rating_rendered (localeCompare : String → String → Int)
    (other : String → Option Int) (now : JVal) (sid : String) (page : DoubanPage)
    (agg a c : JVal) (body : Obj)
    (hmark1 : includes page.douban_page_raw "你想访问的页面不存在" = false)
    (hmark2 : includes page.douban_page_raw "检测到有异常请求" = false)
    (hagg : page.ld_json.prop "aggregateRating" = some agg) (htruthy : agg.truthy = true)
    (ha : agg.prop "ratingValue" = some a) (hc : agg.prop "ratingCount" = some c)
    (hbody : gen_douban localeCompare other now sid page = some body) :
    Obj.get body "douban_rating" = .str (a.toStr ++ "/10 from " ++ c.toStr ++ " users")
      ∧ ∃ pre post : String, Obj.get body "format"
          = .str (pre ++ ("◎豆瓣评分　" ++ (a.toStr ++ "/10 from " ++ c.toStr ++ " users") ++ "\n")
              ++ post) := by
  refine douban_rating_of_parts localeCompare other now sid page a c body hmark1 hmark2 ?_ hbody
  unfold douban_rating_parts
  simp only [hagg, htruthy, if_true, ha, hc]

/-- Witness of C6: average 8.5 and count 1000 give `8.5/10 from 1000 users`. -/
theorem C6_douban_rating_rendered_witness :
    ∃ body, gen_douban sample_compare (fun _ => none) (.num "0") "12345"
        (sample_douban_page (.obj [("image", .str "p.jpg"), ("aggregateRating",
          .obj [("ratingCount", .num "1000"), ("ratingValue", .num "8.5")])]) []) = some body
      ∧ Obj.get body "douban_rating" = .str "8.5/10 from 1000 users"
      ∧ ∃ pre post : String, Obj.get body "format"
          = .str (pre ++ "◎豆瓣评分　8.5/10 from 1000 users\n" ++ post) := by
  have hsome : (gen_douban sample_compare (fun _ => none) (.num "0") "12345"
        (sample_douban_page (.obj [("image", .str "p.jpg"), ("aggregateRating",
          .obj [("ratingCount", .num "1000"), ("ratingValue", .num "8.5")])]) [])).isSome
      = true := by rfl
  obtain ⟨body, hbody⟩ := Option.isSome_iff_exists.mp hsome
  exact ⟨body, hbody, C6_douban_rating_rendered sample_compare (fun _ => none) (.num "0")
    "12345" _ (.obj [("ratingCount", .num "1000"), ("ratingValue", .num "8.5")])
    (.num "8.5") (.num "1000") body (by decide) (by decide) (by rfl) (by rfl) (by rfl) (by rfl)
    hbody⟩

/-! ## The imdb record -/

/-- A property kept by every round of a loop holds when the loop ends. -/
theorem foldRounds_inv {α : Type} (P : Obj → Prop) (round : Obj → α → Option Obj)
    (l : List α)
    (hround : ∀ data x data', x ∈ l → P data → round data x = some data' → P data') :
    ∀ data data', P data → foldRounds round data l = some data' → P data' := by
  induction l with
  | nil =>
    intro data data' hP h
    simp only [foldRounds, Option.some.injEq] at h
    subst h
    exact hP
  | cons x l ih =>
    intro data data' hP h
    simp only [foldRounds] at h
    cases hr : round data x with
    | none => simp [hr] at h
    | some d1 =>
      simp only [hr] at h
      exact ih (fun d y d' hy => hround d y d' (List.mem_cons_of_mem _ hy)) d1 data'
        (hround data x d1 (List.mem_cons_self _ _) hP hr) h

theorem lookup_set_ne (o : Obj) (k : String) (v : JVal) (k' : String) (h : k' ≠ k) :
    (Obj.set o k v).lookup k' = o.lookup k' := by
  rw [lookup_set]
  simp [h]

/-- The rounds of `person_round` keep the key `k` unless it is one of the
three they assign. -/
theorem person_round_keeps (page_json : JVal) (k : String) (r : Option JVal)
    (hk : k ≠ "actors" ∧ k ≠ "directors" ∧ k ≠ "creators") (data data' : Obj)
    (h0 : (data.map Prod.fst).Nodup ∧ data.lookup k = r)
    (h : foldRounds (person_round page_json) data ["actor", "director", "creator"]
      = some data') :
    (data'.map Prod.fst).Nodup ∧ data'.lookup k = r := by
  refine foldRounds_inv (fun d => (d.map Prod.fst).Nodup ∧ d.lookup k = r)
    (person_round page_json) _ ?_ data data' h0 h
  intro d x d' hx hP hr
  unfold person_round at hr
  have hne : k ≠ x ++ "s" := by
    simp only [List.mem_cons, List.mem_singleton, List.not_mem_nil, or_false] at hx
    rcases hx with rfl | rfl | rfl
    · exact hk.1
    · exact hk.2.1
    · exact hk.2.2
  split at hr
  · exact absurd hr (by simp)
  · split at hr
    · split at hr
      · exact absurd hr (by simp)
      · split at hr
        · simp only [Option.some.injEq] at hr
          subst hr
          exact ⟨nodup_set _ _ _ hP.1, by rw [lookup_set_ne _ _ _ _ hne]; exact hP.2⟩
        · simp only [Option.some.injEq] at hr
          subst hr
          exact hP
    · simp only [Option.some.injEq] at hr
      subst hr
      exact hP

/-- The record after lines 550-596 of `gen_imdb` holds the link and the
rating text, which puts the count where the average belongs. -/
theorem imdb_json_fields_some (sid : String) (page_json : JVal) (data d : Obj)
    (hd : (data.map Prod.fst).Nodup) (h : imdb_json_fields sid page_json data = some d) :
    ∃ ratingCount ratingValue,
      (((page_json.prop "aggregateRating").getD .undefined).or (.obj [])).prop "ratingCount"
        = some ratingCount
      ∧ (((page_json.prop "aggregateRating").getD .undefined).or (.obj [])).prop "ratingValue"
        = some ratingValue
      ∧ (d.map Prod.fst).Nodup
      ∧ d.lookup "imdb_link" = some (.str (imdb_url sid))
      ∧ d.lookup "imdb_rating" = some (.str ((ratingCount.or (.num "0")).toStr ++ "/10 from "
          ++ (ratingValue.or (.num "0")).toStr ++ " users")) := by
  unfold imdb_json_fields at h
  cases h1 : imdb_copy_fields sid page_json data with
  | none => simp [h1] at h
  | some d1 =>
    simp only [h1] at h
    have hP1 : (d1.map Prod.fst).Nodup ∧ d1.lookup "imdb_link" = some (.str (imdb_url sid)) := by
      unfold imdb_copy_fields at h1
      cases hf : foldRounds (fun data copy_item =>
          (page_json.prop copy_item).map (fun v => data.set copy_item v))
          ((data.set "imdb_id" (.str (imdb_id sid))).set "imdb_link" (.str (imdb_url sid)))
          ["@type", "name", "genre", "contentRating", "datePublished", "description",
            "duration"] with
      | none => simp [hf] at h1
      | some dc =>
        have hPc : (dc.map Prod.fst).Nodup
            ∧ dc.lookup "imdb_link" = some (.str (imdb_url sid)) := by
          refine foldRounds_inv
            (fun d => (d.map Prod.fst).Nodup ∧ d.lookup "imdb_link" = some (.str (imdb_url sid)))
            _ _ ?_ _ dc ⟨nodup_set _ _ _ (nodup_set _ _ _ hd), by rw [lookup_set]; simp⟩ hf
          intro d0 x d0' hx hP hr
          cases hp : page_json.prop x with
          | none => simp [hp] at hr
          | some v =>
            simp only [hp, Option.map_some', Option.some.injEq] at hr
            subst hr
            have hne : "imdb_link" ≠ x := by
              intro e
              subst e
              simp at hx
            exact ⟨nodup_set _ _ _ hP.1, by rw [lookup_set_ne _ _ _ _ hne]; exact hP.2⟩
        cases hi : page_json.prop "image" with
        | none => simp [hf, hi] at h1
        | some image =>
          simp only [hf, hi] at h1
          have hPp : ((dc.set "poster" image).map Prod.fst).Nodup
              ∧ (dc.set "poster" image).lookup "imdb_link" = some (.str (imdb_url sid)) :=
            ⟨nodup_set _ _ _ hPc.1, by rw [lookup_set_ne _ _ _ _ (by decide)]; exact hPc.2⟩
          split at h1
          · cases hy : sliceYear ((dc.set "poster" image).get "datePublished") with
            | none => simp [hy] at h1
            | some y =>
              simp only [hy, Option.map_some', Option.some.injEq] at h1
              subst h1
              exact ⟨nodup_set _ _ _ hPp.1, by
                rw [lookup_set_ne _ _ _ _ (by decide)]; exact hPp.2⟩
          · simp only [Option.some.injEq] at h1
            subst h1
            exact hPp
    cases h2 : foldRounds (person_round page_json) d1 ["actor", "director", "creator"] with
    | none => simp [h2] at h
    | some d2 =>
      simp only [h2] at h
      have hP2 := person_round_keeps page_json "imdb_link" _ (by decide) d1 d2 hP1 h2
      unfold imdb_rating_fields at h
      split at h
      · split at h
        · rename_i rc rv hrc hrv
          simp only [Option.some.injEq] at h
          subst h
          refine ⟨rc, rv, hrc, hrv, ?_, ?_, ?_⟩
          · exact nodup_set _ _ _ (nodup_set _ _ _ (nodup_set _ _ _ (nodup_set _ _ _ hP2.1)))
          · rw [lookup_set_ne _ _ _ _ (by decide), lookup_set_ne _ _ _ _ (by decide),
              lookup_set_ne _ _ _ _ (by decide), lookup_set_ne _ _ _ _ (by decide)]
            exact hP2.2
          · rw [lookup_set]
            simp
        · exact absurd h (by simp)
      · exact absurd h (by simp)

/-- The page fields of lines 598-665 keep a key they do not assign. -/
theorem imdb_page_fields_keeps (page : ImdbPage) (k : String) (r : Option JVal)
    (hk : k ∉ ["metascore", "reviews", "critic", "popularity", "details", "release_date", "aka"])
    (data d : Obj) (h0 : (data.map Prod.fst).Nodup ∧ data.lookup k = r)
    (h : imdb_page_fields page data = some d) :
    (d.map Prod.fst).Nodup ∧ d.lookup k = r := by
  simp only [List.mem_cons, List.mem_singleton, List.not_mem_nil, or_false, not_or] at hk
  unfold imdb_page_fields at h
  cases hf : foldRounds review_bar_round data page.review_bar with
  | none => simp [hf] at h
  | some d1 =>
    simp only [hf, Option.some.injEq] at h
    have hP1 : (d1.map Prod.fst).Nodup ∧ d1.lookup k = r := by
      refine foldRounds_inv (fun d => (d.map Prod.fst).Nodup ∧ d.lookup k = r)
        review_bar_round _ ?_ data d1 h0 hf
      intro d0 x d0' _ hP hr
      unfold review_bar_round at hr
      split at hr
      · simp only [Option.some.injEq] at hr
        subst hr
        exact ⟨nodup_set _ _ _ hP.1, by rw [lookup_set_ne _ _ _ _ hk.1]; exact hP.2⟩
      · split at hr
        · split at hr
          · simp only [Option.some.injEq] at hr
            subst hr
            exact ⟨nodup_set _ _ _ (nodup_set _ _ _ hP.1), by
              rw [lookup_set_ne _ _ _ _ hk.2.2.1, lookup_set_ne _ _ _ _ hk.2.1]; exact hP.2⟩
          · exact absurd hr (by simp)
        · split at hr
          · cases hn : getNumberFromString x.text with
            | none => simp [hn] at hr
            | some n =>
              simp only [hn, Option.map_some', Option.some.injEq] at hr
              subst hr
              exact ⟨nodup_set _ _ _ hP.1, by
                rw [lookup_set_ne _ _ _ _ hk.2.2.2.1]; exact hP.2⟩
          · simp only [Option.some.injEq] at hr
            subst hr
            exact hP
    subst h
    exact ⟨nodup_set _ _ _ (nodup_set _ _ _ (nodup_set _ _ _ hP1.1)), by
      rw [lookup_set_ne _ _ _ _ hk.2.2.2.2.2.2, lookup_set_ne _ _ _ _ hk.2.2.2.2.2.1,
        lookup_set_ne _ _ _ _ hk.2.2.2.2.1]
      exact hP1.2⟩

theorem allSome_cons (o : Option String) (rest : List (Option String)) (ls : List String)
    (h : allSome (o :: rest) = some ls) :
    ∃ x xs, o = some x ∧ allSome rest = some xs ∧ ls = x :: xs := by
  cases o with
  | none => simp [allSome] at h
  | some x =>
    cases hr : allSome rest with
    | none => simp [allSome, hr] at h
    | some xs =>
      simp only [allSome, hr, Option.some.injEq] at h
      exact ⟨x, xs, rfl, rfl, h.symm⟩

theorem utf16Length_pos (s : String) (h : s ≠ "") : 0 < utf16Length s := by
  unfold utf16Length
  cases hl : s.toList with
  | nil =>
    exfalso
    apply h
    apply String.ext
    simpa [String.toList] using hl
  | cons c l =>
    simp only [List.map_cons, List.sum_cons]
    split <;> omega

theorem softLine_str (t line : String) (h : t ≠ "") :
    softLine (.str t) (some line) = some line := by
  simp [softLine, JVal.nonEmpty, JVal.truthy, JVal.lengthPos, h, utf16Length_pos t h]

/-- The imdb rating text and its line in the rendering.  The text is built
from the count first and the average second. -/
theorem imdb_rating_of_json (now : JVal) (sid : String) (page : ImdbPage) (body : Obj)
    (hmark : includes page.imdb_page_raw "404 Error - IMDb" = false)
    (hbody : gen_imdb now sid page = some body) :
    ∃ ratingCount ratingValue,
      (((page.page_json.prop "aggregateRating").getD .undefined).or (.obj [])).prop "ratingCount"
        = some ratingCount
      ∧ (((page.page_json.prop "aggregateRating").getD .undefined).or (.obj [])).prop
          "ratingValue" = some ratingValue
      ∧ Obj.get body "imdb_rating" = .str ((ratingCount.or (.num "0")).toStr ++ "/10 from "
          ++ (ratingValue.or (.num "0")).toStr ++ " users")
      ∧ ∃ pre post : String, Obj.get body "format"
          = .str (pre ++ ("IMDb Rating: " ++ ((ratingCount.or (.num "0")).toStr ++ "/10 from "
              ++ (ratingValue.or (.num "0")).toStr ++ " users") ++ "\n") ++ post) := by
  unfold gen_imdb at hbody
  simp only [hmark, if_false, Bool.false_eq_true] at hbody
  unfold imdb_success at hbody
  cases h1 : imdb_json_fields sid page.page_json [("site", .str "imdb"), ("sid", .str sid)] with
  | none => simp [h1] at hbody
  | some d1 =>
    simp only [h1] at hbody
    obtain ⟨rc, rv, hrc, hrv, hnd1, hlink1, hrate1⟩ :=
      imdb_json_fields_some sid page.page_json _ d1 (by simp) h1
    cases h2 : imdb_page_fields page d1 with
    | none => simp [h2] at hbody
    | some d =>
      simp only [h2] at hbody
      have hlink := imdb_page_fields_keeps page "imdb_link" _ (by decide) d1 d ⟨hnd1, hlink1⟩ h2
      have hrate := imdb_page_fields_keeps page "imdb_rating" _ (by decide) d1 d
        ⟨hnd1, hrate1⟩ h2
      cases h3 : imdb_descr d with
      | none => simp [h3] at hbody
      | some descr =>
        simp only [h3, Option.some.injEq] at hbody
        have hnd := nodup_set _ "success" (.bool true)
          (nodup_set _ "format" (.str (jsTrim descr)) hlink.1)
        refine ⟨rc, rv, hrc, hrv, ?_, ?_⟩
        · rw [← hbody]
          exact get_body_of_lookup now _ hnd _ _ (by decide)
            (by rw [lookup_set, lookup_set]; simpa using hrate.2)
        · have hfmt : Obj.get body "format" = .str (jsTrim descr) := by
            rw [← hbody]
            exact get_body_of_lookup now _ hnd _ _ (by decide)
              (by rw [lookup_set, lookup_set]; simp)
          rw [hfmt]
          unfold imdb_descr at h3
          cases h4 : allSome (imdb_lines d) with
          | none => simp [h4] at h3
          | some ls =>
            simp only [h4, Option.map_some', Option.some.injEq] at h3
            unfold imdb_lines at h4
            obtain ⟨x0, r0, _, k0, rfl⟩ := allSome_cons _ _ _ h4
            obtain ⟨x1, r1, _, k1, rfl⟩ := allSome_cons _ _ _ k0
            obtain ⟨x2, r2, _, k2, rfl⟩ := allSome_cons _ _ _ k1
            obtain ⟨x3, r3, _, k3, rfl⟩ := allSome_cons _ _ _ k2
            obtain ⟨x4, r4, e4, k4, rfl⟩ := allSome_cons _ _ _ k3
            obtain ⟨x5, r5, e5, _, rfl⟩ := allSome_cons _ _ _ k4
            have g4 : Obj.get d "imdb_rating" = .str ((rc.or (.num "0")).toStr ++ "/10 from "
                ++ (rv.or (.num "0")).toStr ++ " users") := by
              unfold Obj.get; rw [hrate.2]
            have g5 : Obj.get d "imdb_link" = .str (imdb_url sid) := by
              unfold Obj.get; rw [hlink.2]
            rw [g4, softLine_str _ _ (append_ne_empty_right _ _ (by decide))] at e4
            rw [g5, softLine_str _ _ (by
              unfold imdb_url
              exact append_ne_empty_right _ _ (by decide))] at e5
            simp only [Option.some.injEq] at e4 e5
            subst e4 e5
            simp only [join_cons] at h3
            generalize String.join r5 = B at h3
            generalize (rc.or (.num "0")).toStr ++ "/10 from "
              ++ (rv.or (.num "0")).toStr ++ " users" = text at h3 ⊢
            obtain ⟨pre, post, hkeep⟩ := jsTrim_keeps_line (x0 ++ (x1 ++ (x2 ++ x3))) B
              ("MDb Rating: " ++ text)
              ("IMDb Link: https://www.imdb.com/title/" ++ imdb_id sid) 'I' '/'
              (by decide) (by decide)
            refine ⟨pre, post, ?_⟩
            have e1 : String.mk ('I' :: ("MDb Rating: " ++ text).toList)
                = "IMDb Rating: " ++ text := by
              apply String.ext
              simp [String.data_append]
            have e2 : descr = (x0 ++ (x1 ++ (x2 ++ x3))) ++
                ((String.mk ('I' :: ("MDb Rating: " ++ text).toList) ++ "\n")
                ++ ((("IMDb Link: https://www.imdb.com/title/" ++ imdb_id sid)
                    ++ String.mk ['/'] ++ "\n") ++ B)) := by
              rw [← h3]
              apply String.ext
              simp [String.data_append, JVal.toStr, imdb_url]
            rw [e2, hkeep, e1]

/-- C5, evaluated where the claim fails: with average 8.5 and count 1000 in
the structured data, `gen_imdb` stores `1000/10 from 8.5 users` as
`imdb_rating` (count and average are exchanged in line 596), not
`8.5/10 from 1000 users`. -/
theorem C5_imdb_rating_exchanges_average_and_count :
    (gen_imdb (.num "0") "1234567"
        (sample_imdb_page (.obj [("image", .str "p.jpg"), ("keywords", .str "k"),
          ("aggregateRating",
            .obj [("ratingCount", .num "1000"), ("ratingValue", .num "8.5")])]))).map
      (fun body => (Obj.get body "success", Obj.get body "imdb_rating"))
      = some (.bool true, .str "1000/10 from 8.5 users") := by
  rfl

/-- C7, as stated, fails: on a douban page whose structured data has no
aggregate rating the record still holds a `douban_rating`, built from the
defaults `0` and `0`. -/
theorem C7_rating_present_without_aggregate :
    (gen_douban sample_compare (fun _ => none) (.num "0") "12345"
        (sample_douban_page (.obj [("image", .str "p.jpg")]) [])).map
      (fun body => (Obj.get body "success", Obj.get body "douban_rating"))
      = some (.bool true, .str "0/10 from 0 users") := by
  rfl

/-- C7, amended. In the douban and imdb extractors, when the structured data
of the primary page has no aggregate rating (the property is absent or
falsy), the site's own rating string is built from the defaults: the record
holds `0/10 from 0 users` as `douban_rating`, respectively `imdb_rating`, and
the formatted text contains the rating line with that text. -/
theorem C7_missing_rating_defaults (localeCompare : String → String → Int)
    (other : String → Option Int) (now : JVal) (sid : String)
    (dpage : DoubanPage) (ipage : ImdbPage) (dagg iagg : JVal) (dbody ibody : Obj)
    (hmark1 : includes dpage.douban_page_raw "你想访问的页面不存在" = false)
    (hmark2 : includes dpage.douban_page_raw "检测到有异常请求" = false)
    (hdagg : dpage.ld_json.prop "aggregateRating" = some dagg) (hdfalsy : dagg.truthy = false)
    (hdbody : gen_douban localeCompare other now sid dpage = some dbody)
    (hmark3 : includes ipage.imdb_page_raw "404 Error - IMDb" = false)
    (hiagg : ipage.page_json.prop "aggregateRating" = some iagg) (hifalsy : iagg.truthy = false)
    (hibody : gen_imdb now sid ipage = some ibody) :
    (Obj.get dbody "douban_rating" = .str "0/10 from 0 users"
      ∧ ∃ pre post : String, Obj.get dbody "format"
          = .str (pre ++ "◎豆瓣评分　0/10 from 0 users\n" ++ post))
    ∧ (Obj.get ibody "imdb_rating" = .str "0/10 from 0 users"
      ∧ ∃ pre post : String, Obj.get ibody "format"
          = .str (pre ++ "IMDb Rating: 0/10 from 0 users\n" ++ post)) := by
  constructor
  · have h := douban_rating_of_parts localeCompare other now sid dpage (.num "0") (.num "0")
      dbody hmark1 hmark2 (by
        unfold douban_rating_parts
        simp only [hdagg, hdfalsy, if_false, Bool.false_eq_true]) hdbody
    exact h
  · obtain ⟨rc, rv, hrc, hrv, hrate, hfmt⟩ := imdb_rating_of_json now sid ipage ibody hmark3 hibody
    have hagg : ((ipage.page_json.prop "aggregateRating").getD .undefined).or (.obj [])
        = .obj [] := by
      simp [hiagg, JVal.or, hifalsy]
    rw [hagg] at hrc hrv
    have e1 : rc = .undefined := by
      have : JVal.prop (.obj []) "ratingCount" = some .undefined := rfl
      rw [this] at hrc
      exact (Option.some.inj hrc).symm
    have e2 : rv = .undefined := by
      have : JVal.prop (.obj []) "ratingValue" = some .undefined := rfl
      rw [this] at hrv
      exact (Option.some.inj hrv).symm
    subst e1 e2
    exact ⟨hrate, hfmt⟩

/-- Witness of C7 (amended): a douban page and an imdb page without
aggregate rating. -/
theorem C7_missing_rating_defaults_witness :
    ∃ dbody ibody,
      gen_douban sample_compare (fun _ => none) (.num "0") "12345"
          (sample_douban_page (.obj [("image", .str "p.jpg")]) []) = some dbody
      ∧ gen_imdb (.num "0") "12345"
          (sample_imdb_page (.obj [("image", .str "p.jpg"), ("keywords", .str "k")]))
          = some ibody
      ∧ Obj.get dbody "douban_rating" = .str "0/10 from 0 users"
      ∧ Obj.get ibody "imdb_rating" = .str "0/10 from 0 users" := by
  have hd : (gen_douban sample_compare (fun _ => none) (.num "0") "12345"
      (sample_douban_page (.obj [("image", .str "p.jpg")]) [])).isSome = true := by rfl
  have hi : (gen_imdb (.num "0") "12345"
      (sample_imdb_page (.obj [("image", .str "p.jpg"), ("keywords", .str "k")]))).isSome
      = true := by rfl
  obtain ⟨dbody, hdbody⟩ := Option.isSome_iff_exists.mp hd
  obtain ⟨ibody, hibody⟩ := Option.isSome_iff_exists.mp hi
  have h := C7_missing_rating_defaults sample_compare (fun _ => none) (.num "0") "12345"
    _ _ .undefined .undefined dbody ibody (by decide) (by decide) (by rfl) (by rfl) hdbody
    (by decide) (by rfl) (by rfl) hibody
  exact ⟨dbody, ibody, hdbody, hibody, h.1.1, h.2.1⟩

/-! ## Dates and sorting -/

theorem dayFromYear_succ (y : Nat) :
    dayFromYear ((y : Int) + 1) = dayFromYear y + (if isLeapYear y then 366 else 365) := by
  unfold dayFromYear isLeapYear
  split <;> rename_i h <;> simp at h <;> omega

theorem dayFromYear_mono (y k : Nat) :
    dayFromYear (y : Int) + 365 * k ≤ dayFromYear ((y + k : Nat) : Int) := by
  induction k with
  | zero => simp
  | succ k ih =>
    have h := dayFromYear_succ (y + k)
    have e : ((y + (k + 1) : Nat) : Int) = ((y + k : Nat) : Int) + 1 := by push_cast; ring
    rw [e, h]
    split <;> push_cast at ih ⊢ <;> omega

theorem daysBeforeMonth_le (y m d : Nat) (hm : 1 ≤ m ∧ m ≤ 12)
    (hd : 1 ≤ d ∧ d ≤ daysInMonth y m) :
    daysBeforeMonth y m + d ≤ (if isLeapYear y then 366 else 365) := by
  obtain ⟨h1, h2⟩ := hm
  interval_cases m <;> simp [daysBeforeMonth, daysInMonth, List.range_succ] at hd ⊢ <;>
    split <;> simp_all <;> omega

theorem daysBeforeMonth_succ (y m : Nat) (hm : 1 ≤ m) :
    daysBeforeMonth y (m + 1) = daysBeforeMonth y m + daysInMonth y m := by
  unfold daysBeforeMonth
  obtain ⟨n, rfl⟩ : ∃ n, m = n + 1 := ⟨m - 1, by omega⟩
  simp [List.range_succ]

theorem daysBeforeMonth_mono (y m k : Nat) (hm : 1 ≤ m) :
    daysBeforeMonth y m ≤ daysBeforeMonth y (m + k) := by
  induction k with
  | zero => simp
  | succ k ih =>
    have := daysBeforeMonth_succ y (m + k) (by omega)
    have e : m + (k + 1) = m + k + 1 := by omega
    rw [e, this]
    omega

/-- The time value grows strictly with the calendar date. -/
theorem timeValue_lt (y m d y' m' d' : Nat) (hm : 1 ≤ m ∧ m ≤ 12)
    (hd : 1 ≤ d ∧ d ≤ daysInMonth y m) (hd' : 1 ≤ d')
    (h : y < y' ∨ (y = y' ∧ (m < m' ∨ (m = m' ∧ d < d')))) :
    timeValue y m d < timeValue y' m' d' := by
  unfold timeValue
  have hle := daysBeforeMonth_le y m d hm hd
  rcases h with h | ⟨rfl, h | ⟨rfl, h⟩⟩
  · obtain ⟨k, rfl⟩ : ∃ k, y' = (y + 1) + k := ⟨y' - (y + 1), by omega⟩
    have h1 := dayFromYear_mono (y + 1) k
    have h2 := dayFromYear_succ y
    have e : (((y + 1 : Nat) : Int)) = (y : Int) + 1 := by push_cast; ring
    rw [e, h2] at h1
    split at h1 <;> rename_i hl <;> simp [hl] at hle <;> omega
  · obtain ⟨k, rfl⟩ : ∃ k, m' = (m + 1) + k := ⟨m' - (m + 1), by omega⟩
    have h1 := daysBeforeMonth_mono y (m + 1) k (by omega)
    have h2 := daysBeforeMonth_succ y m hm.1
    omega
  · omega

theorem calendarDate_valid (s : String) (y m d : Nat) (h : calendarDate s = some (y, m, d)) :
    (1 ≤ m ∧ m ≤ 12) ∧ (1 ≤ d ∧ d ≤ daysInMonth y m) := by
  unfold calendarDate at h
  split at h
  · split at h
    · dsimp only at h
      split at h
      · rename_i hv
        simp only [Option.some.injEq, Prod.mk.injEq] at h
        obtain ⟨rfl, rfl, rfl⟩ := h
        exact ⟨⟨hv.1, hv.2.1⟩, hv.2.2⟩
      · exact absurd h (by simp)
    · exact absurd h (by simp)
  · exact absurd h (by simp)

theorem orderedInsert_congr {α : Type} (r r' : α → α → Prop) [DecidableRel r] [DecidableRel r']
    (a : α) (l : List α) (h : ∀ b ∈ l, (r a b ↔ r' a b)) :
    l.orderedInsert r a = l.orderedInsert r' a := by
  induction l with
  | nil => rfl
  | cons b l ih =>
    have hb := h b (List.mem_cons_self _ _)
    by_cases hr : r a b
    · simp [List.orderedInsert, hr, hb.mp hr]
    · have hr' : ¬ r' a b := fun e => hr (hb.mpr e)
      simp [List.orderedInsert, hr, hr', ih (fun c hc => h c (List.mem_cons_of_mem _ hc))]

/-- Sorting depends on the comparator only through its values on the items. -/
theorem insertionSort_congr {α : Type} (r r' : α → α → Prop) [DecidableRel r]
    [DecidableRel r'] (l : List α) (h : ∀ a ∈ l, ∀ b ∈ l, (r a b ↔ r' a b)) :
    l.insertionSort r = l.insertionSort r' := by
  induction l with
  | nil => rfl
  | cons a l ih =>
    simp only [List.insertionSort]
    rw [ih (fun x hx y hy => h x (List.mem_cons_of_mem _ hx) y (List.mem_cons_of_mem _ hy))]
    apply orderedInsert_congr
    intro b hb
    have hb' : b ∈ l := (List.perm_insertionSort r' l).subset hb
    exact h a (List.mem_cons_self _ _) b (List.mem_cons_of_mem _ hb')

/-- Texts that all name calendar days are put in calendar order. -/
theorem jsSort_dates (other : String → Option Int) (l : List String)
    (hl : ∀ s ∈ l, (calendarDate s).isSome = true) :
    (jsSort (compareDates other) l).Perm l
      ∧ (jsSort (compareDates other) l).Pairwise (fun a b =>
          ∀ y m d y' m' d', calendarDate a = some (y, m, d) →
            calendarDate b = some (y', m', d') →
            y < y' ∨ (y = y' ∧ (m < m' ∨ (m = m' ∧ d ≤ d')))) := by
  have hperm : (jsSort (compareDates other) l).Perm l := List.perm_insertionSort _ l
  refine ⟨hperm, ?_⟩
  have hcongr : jsSort (compareDates other) l
      = l.insertionSort (fun a b => (dateValue other a).getD 0 ≤ (dateValue other b).getD 0) := by
    unfold jsSort
    apply insertionSort_congr
    intro a ha b hb
    obtain ⟨ta, hta⟩ := Option.isSome_iff_exists.mp (hl a ha)
    obtain ⟨tb, htb⟩ := Option.isSome_iff_exists.mp (hl b hb)
    obtain ⟨ya, ma, da⟩ := ta
    obtain ⟨yb, mb, db⟩ := tb
    simp only [compareDates, dateValue, hta, htb, Option.getD_some]
    omega
  haveI : IsTotal String
      (fun a b => (dateValue other a).getD 0 ≤ (dateValue other b).getD 0) :=
    ⟨fun a b => le_total _ _⟩
  haveI : IsTrans String
      (fun a b => (dateValue other a).getD 0 ≤ (dateValue other b).getD 0) :=
    ⟨fun a b c hab hbc => le_trans hab hbc⟩
  have hsorted := List.sorted_insertionSort
    (fun a b => (dateValue other a).getD 0 ≤ (dateValue other b).getD 0) l
  rw [← hcongr] at hsorted
  refine List.Pairwise.imp_of_mem ?_ hsorted
  intro a b ha hb hab y m d y' m' d' hca hcb
  simp only [dateValue, hca, hcb, Option.getD_some] at hab
  obtain ⟨hm, hd⟩ := calendarDate_valid a y m d hca
  obtain ⟨hm', hd'⟩ := calendarDate_valid b y' m' d' hcb
  by_contra hnot
  have hgt : y' < y ∨ (y' = y ∧ (m' < m ∨ (m' = m ∧ d' < d))) := by omega
  have := timeValue_lt y' m' d' y m d hm' hd' hd.1 hgt
  omega

/-- A key assigned by lines 410-459 keeps its value in the answer. -/
theorem douban_body_get_page (localeCompare : String → String → Int)
    (other : String → Option Int) (now : JVal) (sid : String) (page : DoubanPage)
    (body : Obj) (k : String) (v : JVal)
    (hmark1 : includes page.douban_page_raw "你想访问的页面不存在" = false)
    (hmark2 : includes page.douban_page_raw "检测到有异常请求" = false)
    (hbody : gen_douban localeCompare other now sid page = some body)
    (hk : (douban_page_entries localeCompare other page).lookup k = some v)
    (hk' : k ∉ ["douban_rating_average", "douban_votes", "douban_rating", "poster", "director",
      "writer", "cast", "tags", "awards", "format", "success", "generate_at"]) :
    Obj.get body k = v := by
  simp only [List.mem_cons, List.mem_singleton, List.not_mem_nil, or_false, not_or] at hk'
  unfold gen_douban at hbody
  simp only [hmark1, hmark2, if_false, Bool.false_eq_true] at hbody
  obtain ⟨data1, average, votes, poster, descr, hd1, _, _, _, _, hb⟩ :=
    douban_success_some localeCompare other now sid page _ body (by simp) hbody
  have hnd := nodup_set _ "success" (.bool true)
    (nodup_set _ "format" (.str (jsTrim descr))
      (nodup_douban_data localeCompare other page data1
        (douban_ld_list page.ld_json average votes poster) hd1))
  rw [hb]
  refine get_body_of_lookup now _ hnd _ _ hk'.2.2.2.2.2.2.2.2.2.2.2 ?_
  rw [lookup_set_ne _ _ _ _ hk'.2.2.2.2.2.2.2.2.2.2.1,
    lookup_set_ne _ _ _ _ hk'.2.2.2.2.2.2.2.2.2.1]
  unfold douban_data
  rw [lookup_assign _ _ (nodup_tail_entries page)]
  have ht : (douban_tail_entries page).lookup k = none := by
    rw [lookup_eq_none_iff]
    unfold douban_tail_entries
    split <;> simp [hk'.2.2.2.2.2.2.2.1, hk'.2.2.2.2.2.2.2.2.1]
  rw [ht]
  simp only
  rw [lookup_assign _ _ (nodup_ld_list _ _ _ _)]
  have hl : (douban_ld_list page.ld_json average votes poster).lookup k = none := by
    rw [lookup_eq_none_iff]
    simp [douban_ld_list, hk'.1, hk'.2.1, hk'.2.2.1, hk'.2.2.2.1, hk'.2.2.2.2.1,
      hk'.2.2.2.2.2.1, hk'.2.2.2.2.2.2.1]
  rw [hl]
  simp only
  rw [lookup_assign _ _ (nodup_page_entries _ _ _), hk]

theorem lookup_page_playdate (localeCompare : String → String → Int)
    (other : String → Option Int) (page : DoubanPage) :
    (douban_page_entries localeCompare other page).lookup "playdate"
      = some (.arr ((douban_playdate other page.initialReleaseDate).map JVal.str)) := by
  unfold douban_page_entries
  cases page.aka_anchor <;> rfl

/-- C8. For every list of release-date texts of the form YYYY-MM-DD (naming
calendar days) read by the douban extractor, the record's `playdate` list is
a permutation of the texts read, arranged in non-decreasing calendar order
(year, then month, then day). -/
theorem C8_playdate_sorted (localeCompare : String → String → Int)
    (other : String → Option Int) (now : JVal) (sid : String) (page : DoubanPage)
    (body : Obj)
    (hmark1 : includes page.douban_page_raw "你想访问的页面不存在" = false)
    (hmark2 : includes page.douban_page_raw "检测到有异常请求" = false)
    (hcal : ∀ s ∈ page.initialReleaseDate.map jsTrim, (calendarDate s).isSome = true)
    (hbody : gen_douban localeCompare other now sid page = some body) :
    ∃ playdate : List String,
      Obj.get body "playdate" = .arr (playdate.map JVal.str)
      ∧ playdate.Perm (page.initialReleaseDate.map jsTrim)
      ∧ playdate.Pairwise (fun a b =>
          ∀ y m d y' m' d', calendarDate a = some (y, m, d) →
            calendarDate b = some (y', m', d') →
            y < y' ∨ (y = y' ∧ (m < m' ∨ (m = m' ∧ d ≤ d')))) := by
  refine ⟨douban_playdate other page.initialReleaseDate, ?_, ?_⟩
  · exact douban_body_get_page localeCompare other now sid page body "playdate" _
      hmark1 hmark2 hbody (lookup_page_playdate localeCompare other page) (by decide)
  · exact jsSort_dates other _ hcal

/-- Witness of C8: the three dates of the specification come out in calendar
order. -/
theorem C8_playdate_sorted_witness :
    douban_playdate (fun _ => none) ["2020-03-01", "2019-05-10", "2020-01-15"]
        = ["2019-05-10", "2020-01-15", "2020-03-01"]
      ∧ ∃ body, gen_douban sample_compare (fun _ => none) (.num "0") "12345"
          (sample_douban_page (.obj [("image", .str "p.jpg")])
            ["2020-03-01", "2019-05-10", "2020-01-15"]) = some body
        ∧ ∃ playdate : List String,
          Obj.get body "playdate" = .arr (playdate.map JVal.str)
          ∧ playdate.Perm (["2020-03-01", "2019-05-10", "2020-01-15"].map jsTrim)
          ∧ playdate.Pairwise (fun a b =>
              ∀ y m d y' m' d', calendarDate a = some (y, m, d) →
                calendarDate b = some (y', m', d') →
                y < y' ∨ (y = y' ∧ (m < m' ∨ (m = m' ∧ d ≤ d')))) := by
  refine ⟨by decide, ?_⟩
  have hs : (gen_douban sample_compare (fun _ => none) (.num "0") "12345"
      (sample_douban_page (.obj [("image", .str "p.jpg")])
        ["2020-03-01", "2019-05-10", "2020-01-15"])).isSome = true := by rfl
  obtain ⟨body, hbody⟩ := Option.isSome_iff_exists.mp hs
  exact ⟨body, hbody, C8_playdate_sorted sample_compare (fun _ => none) (.num "0") "12345"
    _ body (by decide) (by decide) (by decide) hbody⟩

/-! ## Splitting and joining -/

theorem splitGo_piece (c : Char) (x : List Char) (hx : c ∉ x) (acc rest : List Char) :
    splitGo [c] (x ++ rest) 0 acc = splitGo [c] rest 0 (x.reverse ++ acc) := by
  induction x generalizing acc with
  | nil => rfl
  | cons a x ih =>
    have ha : (c == a) = false := by
      apply beq_false_of_ne
      intro e
      exact hx (by rw [e]; exact List.mem_cons_self _ _)
    have hx' : c ∉ x := fun e => hx (List.mem_cons_of_mem _ e)
    simp only [List.cons_append, splitGo, List.isPrefixOf, ha, Bool.false_and,
      Bool.false_eq_true, if_false]
    rw [show x.append rest = x ++ rest from rfl, ih hx' (a :: acc)]
    simp

theorem splitGo_ne_nil (sep s : List Char) : ∀ skip acc, splitGo sep s skip acc ≠ [] := by
  induction s with
  | nil => intro skip acc; simp [splitGo]
  | cons c cs ih =>
    intro skip acc
    cases skip with
    | zero =>
      simp only [splitGo]
      split
      · simp
      · exact ih 0 (c :: acc)
    | succ n => simpa [splitGo] using ih n acc

theorem jsSplit_ne_nil (s sep : String) : jsSplit s sep ≠ [] := by
  unfold jsSplit splitChars
  simpa using splitGo_ne_nil sep.toList s.toList 0 []

theorem splitGo_sep (c : Char) (acc rest : List Char) :
    splitGo [c] (c :: rest) 0 acc = acc.reverse :: splitGo [c] rest 0 [] := by
  simp [splitGo, List.isPrefixOf]

/-- Splitting at a one-character separator undoes joining with it, when no
piece contains the separator. -/
theorem jsSplit_jsJoin (c : Char) (items : List String) (hne : items ≠ [])
    (hitems : ∀ x ∈ items, c ∉ x.toList) :
    jsSplit (jsJoin items (String.mk [c])) (String.mk [c]) = items := by
  unfold jsSplit splitChars
  induction items with
  | nil => exact absurd rfl hne
  | cons a rest ih =>
    have ha : c ∉ a.toList := hitems a (List.mem_cons_self _ _)
    cases rest with
    | nil =>
      have := splitGo_piece c a.toList ha [] []
      simp only [List.append_nil] at this
      simp only [jsJoin, String.toList] at this ⊢
      rw [this]
      simp [splitGo]
    | cons b rest =>
      have hrest := ih (by simp) (fun x hx => hitems x (List.mem_cons_of_mem _ hx))
      have e : (jsJoin (a :: b :: rest) (String.mk [c])).toList
          = a.toList ++ c :: (jsJoin (b :: rest) (String.mk [c])).toList := by
        simp [jsJoin, String.toList, String.data_append]
      simp only [String.toList] at e hrest ha ⊢
      rw [e, splitGo_piece c a.data ha [] _, splitGo_sep]
      simp only [List.map_cons, List.append_nil, List.reverse_reverse]
      rw [hrest]

/-- With a comparator that orders all texts consistently, sorting yields an
ordered permutation. -/
theorem jsSort_sorted (comparefn : String → String → Int)
    (htotal : ∀ a b, comparefn a b ≤ 0 ∨ comparefn b a ≤ 0)
    (htrans : ∀ a b c, comparefn a b ≤ 0 → comparefn b c ≤ 0 → comparefn a c ≤ 0)
    (l : List String) :
    (jsSort comparefn l).Perm l
      ∧ (jsSort comparefn l).Pairwise (fun a b => comparefn a b ≤ 0) := by
  haveI : IsTotal String (fun a b => comparefn a b ≤ 0) := ⟨htotal⟩
  haveI : IsTrans String (fun a b => comparefn a b ≤ 0) := ⟨htrans⟩
  exact ⟨List.perm_insertionSort _ l, List.sorted_insertionSort _ l⟩

theorem lookup_page_aka (localeCompare : String → String → Int)
    (other : String → Option Int) (page : DoubanPage) (t : String)
    (ht : page.aka_anchor = some t) :
    (douban_page_entries localeCompare other page).lookup "aka"
      = some (.arr ((jsSplit (douban_aka localeCompare t) "/").map JVal.str)) := by
  unfold douban_page_entries douban_aka_text
  rw [ht]
  rfl

/-- The alias list of the record, for alias texts whose pieces hold no `/`. -/
theorem douban_aka_list (localeCompare : String → String → Int) (t : String)
    (hslash : ∀ x ∈ jsSplit (fetch_anchor t) " / ", '/' ∉ x.toList) :
    jsSplit (douban_aka localeCompare t) "/"
      = jsSort localeCompare (jsSplit (fetch_anchor t) " / ") := by
  unfold douban_aka
  have hperm : (jsSort localeCompare (jsSplit (fetch_anchor t) " / ")).Perm
      (jsSplit (fetch_anchor t) " / ") := List.perm_insertionSort _ _
  have hne : jsSort localeCompare (jsSplit (fetch_anchor t) " / ") ≠ [] := by
    intro e
    rw [e] at hperm
    exact jsSplit_ne_nil _ _ hperm.symm.eq_nil
  exact jsSplit_jsJoin '/' _ hne (fun x hx => hslash x (hperm.subset hx))

theorem compareChars_swap (a b : List Char) : compareChars b a = - compareChars a b := by
  induction a generalizing b with
  | nil => cases b <;> simp [compareChars]
  | cons x a ih =>
    cases b with
    | nil => simp [compareChars]
    | cons y b =>
      simp only [compareChars]
      by_cases h1 : x.toNat < y.toNat
      · have h2 : ¬ y.toNat < x.toNat := by omega
        simp [h1, h2]
      · by_cases h2 : y.toNat < x.toNat
        · simp [h1, h2]
        · simp [h1, h2, ih b]

theorem compareChars_trans (a b c : List Char) (hab : compareChars a b ≤ 0)
    (hbc : compareChars b c ≤ 0) : compareChars a c ≤ 0 := by
  induction a generalizing b c with
  | nil => cases c <;> simp [compareChars]
  | cons x a ih =>
    cases b with
    | nil => simp [compareChars] at hab
    | cons y b =>
      cases c with
      | nil => simp [compareChars] at hbc
      | cons z c =>
        simp only [compareChars] at hab hbc ⊢
        by_cases h1 : x.toNat < y.toNat
        · by_cases h2 : y.toNat < z.toNat
          · have : x.toNat < z.toNat := by omega
            simp [this]
          · by_cases h3 : z.toNat < y.toNat
            · simp [h2, h3] at hbc
            · have : x.toNat < z.toNat := by omega
              simp [this]
        · by_cases h1' : y.toNat < x.toNat
          · simp [h1, h1'] at hab
          · simp only [h1, h1', if_false] at hab
            by_cases h2 : y.toNat < z.toNat
            · have : x.toNat < z.toNat := by omega
              simp [this]
            · by_cases h3 : z.toNat < y.toNat
              · simp [h2, h3] at hbc
              · simp only [h2, h3, if_false] at hbc
                have e1 : ¬ x.toNat < z.toNat := by omega
                have e2 : ¬ z.toNat < x.toNat := by omega
                simp only [e1, e2, if_false]
                exact ih b c hab hbc

theorem sample_compare_total (a b : String) :
    sample_compare a b ≤ 0 ∨ sample_compare b a ≤ 0 := by
  unfold sample_compare
  rw [compareChars_swap a.toList b.toList]
  omega

/-- C9, as stated, fails: an alias that itself contains `/` is cut in two
when the sorted list is joined with `/` and split again (lines 417-418).  The
text `Face/Off / Alpha` has two aliases and yields three entries. -/
theorem C9_alias_with_slash_is_cut :
    jsSplit (fetch_anchor "Face/Off / Alpha") " / " = ["Face/Off", "Alpha"]
      ∧ (gen_douban sample_compare (fun _ => none) (.num "0") "12345"
          (sample_douban_page_aka "Face/Off / Alpha")).map (fun body => Obj.get body "aka")
        = some (.arr [.str "Alpha", .str "Face", .str "Off"]) := by
  constructor
  · decide
  · rfl

/-- C9, amended. For every alias text found on a douban page in which no
alias (a piece between ` / `) contains `/`, the record's `aka` list is a
permutation of the aliases obtained by splitting the text at ` / `, arranged
in non-decreasing order under `localeCompare` (a comparator that orders all
texts consistently). -/
theorem C9_aka_sorted (localeCompare : String → String → Int)
    (other : String → Option Int) (now : JVal) (sid : String) (page : DoubanPage)
    (t : String) (body : Obj)
    (hmark1 : includes page.douban_page_raw "你想访问的页面不存在" = false)
    (hmark2 : includes page.douban_page_raw "检测到有异常请求" = false)
    (ht : page.aka_anchor = some t)
    (hslash : ∀ x ∈ jsSplit (fetch_anchor t) " / ", '/' ∉ x.toList)
    (htotal : ∀ a b, localeCompare a b ≤ 0 ∨ localeCompare b a ≤ 0)
    (htrans : ∀ a b c, localeCompare a b ≤ 0 → localeCompare b c ≤ 0 → localeCompare a c ≤ 0)
    (hbody : gen_douban localeCompare other now sid page = some body) :
    ∃ aka : List String,
      Obj.get body "aka" = .arr (aka.map JVal.str)
      ∧ aka.Perm (jsSplit (fetch_anchor t) " / ")
      ∧ aka.Pairwise (fun a b => localeCompare a b ≤ 0) := by
  refine ⟨jsSort localeCompare (jsSplit (fetch_anchor t) " / "), ?_,
    jsSort_sorted localeCompare htotal htrans _⟩
  rw [← douban_aka_list localeCompare t hslash]
  exact douban_body_get_page localeCompare other now sid page body "aka" _
    hmark1 hmark2 hbody (lookup_page_aka localeCompare other page t ht) (by decide)

/-- Witness of C9 (amended) at the text `Beta / alpha / Gamma`, with
code-point order as the comparator. -/
theorem C9_aka_sorted_witness :
    jsSort sample_compare (jsSplit (fetch_anchor "Beta / alpha / Gamma") " / ")
        = ["Beta", "Gamma", "alpha"]
      ∧ ∃ body, gen_douban sample_compare (fun _ => none) (.num "0") "12345"
          (sample_douban_page_aka "Beta / alpha / Gamma") = some body
        ∧ ∃ aka : List String,
          Obj.get body "aka" = .arr (aka.map JVal.str)
          ∧ aka.Perm (jsSplit (fetch_anchor "Beta / alpha / Gamma") " / ")
          ∧ aka.Pairwise (fun a b => sample_compare a b ≤ 0) := by
  refine ⟨by decide, ?_⟩
  have hs : (gen_douban sample_compare (fun _ => none) (.num "0") "12345"
      (sample_douban_page_aka "Beta / alpha / Gamma")).isSome = true := by rfl
  obtain ⟨body, hbody⟩ := Option.isSome_iff_exists.mp hs
  exact ⟨body, hbody, C9_aka_sorted sample_compare (fun _ => none) (.num "0") "12345"
    _ "Beta / alpha / Gamma" body (by decide) (by decide) rfl (by decide)
    sample_compare_total
    (fun a b c hab hbc => compareChars_trans a.toList b.toList c.toList hab hbc)
    hbody⟩

/-- C10, as stated, fails: nothing removes duplicates.  The alias text
`Up / Up` yields the list `["Up", "Up"]`. -/
theorem C10_duplicate_alias_kept :
    (gen_douban sample_compare (fun _ => none) (.num "0") "12345"
        (sample_douban_page_aka "Up / Up")).map (fun body => Obj.get body "aka")
      = some (.arr [.str "Up", .str "Up"]) := by
  rfl

/-- C10, amended. For every alias text found on a douban page in which no
alias contains `/`, the record's `aka` list keeps every occurrence: each text
occurs in it exactly as many times as among the aliases obtained by
splitting the alias text at ` / `. -/
theorem C10_aka_keeps_duplicates (localeCompare : String → String → Int)
    (other : String → Option Int) (now : JVal) (sid : String) (page : DoubanPage)
    (t : String) (body : Obj)
    (hmark1 : includes page.douban_page_raw "你想访问的页面不存在" = false)
    (hmark2 : includes page.douban_page_raw "检测到有异常请求" = false)
    (ht : page.aka_anchor = some t)
    (hslash : ∀ x ∈ jsSplit (fetch_anchor t) " / ", '/' ∉ x.toList)
    (hbody : gen_douban localeCompare other now sid page = some body) :
    ∃ aka : List String,
      Obj.get body "aka" = .arr (aka.map JVal.str)
      ∧ aka.length = (jsSplit (fetch_anchor t) " / ").length
      ∧ ∀ x, aka.count x = (jsSplit (fetch_anchor t) " / ").count x := by
  have hperm : (jsSort localeCompare (jsSplit (fetch_anchor t) " / ")).Perm
      (jsSplit (fetch_anchor t) " / ") := List.perm_insertionSort _ _
  refine ⟨jsSort localeCompare (jsSplit (fetch_anchor t) " / "), ?_, hperm.length_eq,
    fun x => hperm.count_eq x⟩
  rw [← douban_aka_list localeCompare t hslash]
  exact douban_body_get_page localeCompare other now sid page body "aka" _
    hmark1 hmark2 hbody (lookup_page_aka localeCompare other page t ht) (by decide)

/-- Witness of C10 (amended) at the text `Up / Up`. -/
theorem C10_aka_keeps_duplicates_witness :
    ∃ body, gen_douban sample_compare (fun _ => none) (.num "0") "12345"
        (sample_douban_page_aka "Up / Up") = some body
      ∧ ∃ aka : List String,
        Obj.get body "aka" = .arr (aka.map JVal.str)
        ∧ aka.length = (jsSplit (fetch_anchor "Up / Up") " / ").length
        ∧ ∀ x, aka.count x = (jsSplit (fetch_anchor "Up / Up") " / ").count x := by
  have hs : (gen_douban sample_compare (fun _ => none) (.num "0") "12345"
      (sample_douban_page_aka "Up / Up")).isSome = true := by rfl
  obtain ⟨body, hbody⟩ := Option.isSome_iff_exists.mp hs
  exact ⟨body, hbody, C10_aka_keeps_duplicates sample_compare (fun _ => none) (.num "0")
    "12345" _ "Up / Up" body (by decide) (by decide) rfl (by decide) hbody⟩

/-! ## Precedence of the `url` parameter -/

/-- C17. For every content-generation request with a non-empty `url`
parameter the resolution depends only on `url`: two requests with the same
`url` and different `site` and `sid` parameters resolve identically and are
handled identically, and when `url` matches no pattern the request is
answered with the missing-key error even if `site` and `sid` are given. -/
theorem C17_url_takes_precedence (url : String) (hne : url ≠ "")
    (site1 sid1 site2 sid2 : Option String) :
    resolve ⟨some url, site1, sid1⟩ = resolve ⟨some url, site2, sid2⟩
      ∧ generate ⟨some url, site1, sid1⟩ = generate ⟨some url, site2, sid2⟩
      ∧ ((∀ e ∈ support_list, jsMatch url e.2 = none) →
          resolve ⟨some url, site1, sid1⟩ = (none, none)
          ∧ generate ⟨some url, site1, sid1⟩ = Action.respond [("error",
              .str "Miss key of `site` or `sid` , or input unsupported resource `url`.")]) := by
  have h : ∀ s i, resolve ⟨some url, s, i⟩ = scan support_list url := by
    intro s i
    simp only [resolve, hne, ne_eq, not_false_eq_true, if_true]
  refine ⟨by rw [h, h], by simp only [generate, h], ?_⟩
  intro hno
  have hres : resolve ⟨some url, site1, sid1⟩ = (none, none) := by
    rw [h]
    exact scan_no_match url support_list hno
  refine ⟨hres, ?_⟩
  simp only [generate, hres]
  rfl

/-- Witness of C17: an unsupported address with a valid `site` and `sid`. -/
theorem C17_url_takes_precedence_witness :
    "https://example.org/x" ≠ ""
      ∧ resolve ⟨some "https://example.org/x", some "douban", some "1"⟩
        = resolve ⟨some "https://example.org/x", none, none⟩
      ∧ generate ⟨some "https://example.org/x", some "douban", some "1"⟩
        = Action.respond [("error",
            .str "Miss key of `site` or `sid` , or input unsupported resource `url`.")] :=
  ⟨by decide,
    (C17_url_takes_precedence "https://example.org/x" (by decide)
      (some "douban") (some "1") none none).1,
    ((C17_url_takes_precedence "https://example.org/x" (by decide)
      (some "douban") (some "1") none none).2.2 (by decide)).2⟩

/-! ## The lines of the douban rendering -/

/-- C14, evaluated where the claim fails: for a page without year, genre and
release dates the formatted text still holds the three labelled lines, with
nothing after the label (`genre` and `playdate` are arrays, which are always
truthy, and `year` starts with a blank). -/
theorem C14_empty_fields_still_rendered :
    (gen_douban sample_compare (fun _ => none) (.num "0") "12345"
        sample_douban_page_bare).map (fun body =>
          (Obj.get body "year", Obj.get body "genre", Obj.get body "playdate",
            Obj.get body "format"))
      = some (.str " ", .arr [], .arr [],
          .str ("[img]p.jpg[/img]\n\n◎片　　名　Up\n◎年　　代　\n◎类　　别　\n◎上映日期　\n"
            ++ "◎豆瓣评分　0/10 from 0 users\n◎豆瓣链接　https://movie.douban.com/subject/12345/\n"
            ++ "◎片　　长　96分钟\n\n◎简　　介\n\n　　暂无相关剧情介绍")) := by
  rfl

/-! ## The introduction text -/

theorem dropWhile_head (p : Char → Bool) (l : List Char) (c : Char) (t : List Char)
    (h : l.dropWhile p = c :: t) : p c = false := by
  induction l with
  | nil => simp at h
  | cons a l ih =>
    by_cases ha : p a = true
    · simp only [List.dropWhile, ha] at h
      exact ih h
    · simp only [List.dropWhile, ha] at h
      have e : a = c := (List.cons.inj h).1
      rw [← e]
      simpa using ha

theorem trimChars_idem (l : List Char) :
    (((l.dropWhile isWhiteSpace).rdropWhile isWhiteSpace).dropWhile isWhiteSpace).rdropWhile
      isWhiteSpace = (l.dropWhile isWhiteSpace).rdropWhile isWhiteSpace := by
  have hd : ((l.dropWhile isWhiteSpace).rdropWhile isWhiteSpace).dropWhile isWhiteSpace
      = (l.dropWhile isWhiteSpace).rdropWhile isWhiteSpace := by
    obtain ⟨t, ht⟩ := List.rdropWhile_prefix isWhiteSpace (l.dropWhile isWhiteSpace)
    cases h2 : (l.dropWhile isWhiteSpace).rdropWhile isWhiteSpace with
    | nil => rfl
    | cons c l2 =>
      rw [h2] at ht
      have hc := dropWhile_head isWhiteSpace l c (l2 ++ t) (by rw [← ht]; rfl)
      simp [List.dropWhile, hc]
  rw [hd, List.rdropWhile_idempotent]

theorem jsTrim_idem (s : String) : jsTrim (jsTrim s) = jsTrim s := by
  unfold jsTrim
  apply String.ext
  simp only [String.toList]
  exact trimChars_idem s.data

theorem jsTrim_not_mem (s : String) (c : Char) (h : c ∉ s.toList) : c ∉ (jsTrim s).toList := by
  intro hc
  apply h
  unfold jsTrim at hc
  simp only [String.toList] at hc ⊢
  exact (List.dropWhile_suffix isWhiteSpace).subset
    ((List.rdropWhile_prefix isWhiteSpace _).subset hc)

theorem splitGo_not_mem (c : Char) (s : List Char) :
    ∀ acc, c ∉ acc → ∀ p ∈ splitGo [c] s 0 acc, c ∉ p := by
  induction s with
  | nil =>
    intro acc hacc p hp
    simp only [splitGo, List.mem_singleton] at hp
    subst hp
    simpa using hacc
  | cons a s ih =>
    intro acc hacc p hp
    simp only [splitGo, List.isPrefixOf, List.length_singleton, Nat.sub_self] at hp
    by_cases hca : c = a
    · subst hca
      simp only [beq_self_eq_true, Bool.true_and] at hp
      have hp' : p ∈ acc.reverse :: splitGo [c] s 0 [] := by
        cases s <;> simpa [List.isPrefixOf] using hp
      rcases List.mem_cons.mp hp' with h | h
      · subst h; simpa using hacc
      · exact ih [] (by simp) p h
    · have hb : (c == a) = false := beq_false_of_ne hca
      simp only [hb, Bool.false_and, Bool.false_eq_true, if_false] at hp
      refine ih (a :: acc) ?_ p hp
      intro h
      rcases List.mem_cons.mp h with h | h
      · exact hca h
      · exact hacc h

theorem jsSplit_not_mem (s : String) (c : Char) :
    ∀ p ∈ jsSplit s (String.mk [c]), c ∉ p.toList := by
  intro p hp
  unfold jsSplit splitChars at hp
  simp only [List.mem_map] at hp
  obtain ⟨q, hq, rfl⟩ := hp
  exact splitGo_not_mem c s.toList [] (by simp) q hq

theorem splitGo_double (c : Char) (u v : List Char) :
    ∀ acc, [] ∈ splitGo [c] (u ++ c :: c :: v) 0 acc := by
  induction u with
  | nil =>
    intro acc
    simp [splitGo, List.isPrefixOf]
  | cons a u ih =>
    intro acc
    by_cases hca : c = a
    · subst hca
      have : splitGo [c] (c :: u ++ c :: c :: v) 0 acc
          = acc.reverse :: splitGo [c] (u ++ c :: c :: v) 0 [] := splitGo_sep c acc _
      rw [this]
      exact List.mem_cons_of_mem _ (ih [])
    · have hb : (c == a) = false := beq_false_of_ne hca
      simp only [List.cons_append, splitGo, List.isPrefixOf, hb, Bool.false_and,
        Bool.false_eq_true, if_false]
      exact ih (a :: acc)

/-- A text joined from non-empty pieces that hold no line break has no two
line breaks in a row. -/
theorem jsJoin_no_double (c : Char) (items : List String)
    (hitems : ∀ x ∈ items, x ≠ "" ∧ c ∉ x.toList) :
    ¬ ([c, c] <:+: (jsJoin items (String.mk [c])).toList) := by
  intro hin
  by_cases hne : items = []
  · subst hne
    obtain ⟨u, v, huv⟩ := hin
    simp [jsJoin] at huv
  · have hsplit := jsSplit_jsJoin c items hne (fun x hx => (hitems x hx).2)
    obtain ⟨u, v, huv⟩ := hin
    have hmem : "" ∈ jsSplit (jsJoin items (String.mk [c])) (String.mk [c]) := by
      unfold jsSplit splitChars
      simp only [List.mem_map]
      refine ⟨[], ?_, rfl⟩
      have e : (jsJoin items (String.mk [c])).toList = u ++ c :: c :: v := by
        rw [← huv]; simp
      rw [e]
      exact splitGo_double c u v []
    rw [hsplit] at hmem
    exact (hitems "" hmem).1 rfl

theorem utf16Length_eq_zero (s : String) (h : ¬ 0 < utf16Length s) : s = "" := by
  by_contra hne
  exact h (utf16Length_pos s hne)

theorem lookup_page_introduction (localeCompare : String → String → Int)
    (other : String → Option Int) (page : DoubanPage) :
    (douban_page_entries localeCompare other page).lookup "introduction"
      = some (.str (douban_introduction page)) := by
  unfold douban_page_entries
  cases page.aka_anchor <;> rfl

/-- The pieces of the normalisation are trimmed, non-empty and hold no line
break. -/
theorem normalize_pieces (text : String) :
    ∀ p ∈ ((jsSplit text "\n").map jsTrim).filter (fun a => decide (0 < utf16Length a)),
      p ≠ "" ∧ jsTrim p = p ∧ '\n' ∉ p.toList := by
  intro p hp
  simp only [List.mem_filter, List.mem_map, decide_eq_true_eq] at hp
  obtain ⟨⟨q, hq, rfl⟩, hpos⟩ := hp
  refine ⟨?_, jsTrim_idem q, jsTrim_not_mem q '\n' (jsSplit_not_mem text '\n' q hq)⟩
  intro e
  rw [e] at hpos
  exact absurd hpos (by decide)

/-- C19. The introduction of the douban record is the synopsis text cut at
line breaks, each line trimmed, blank lines dropped, the rest joined in order
by single line breaks.  Every line of the result is non-empty and has no
leading or trailing white space, the result has no two line breaks in a row,
and normalising the result again leaves it unchanged. -/
theorem C19_introduction_normalised (text : String) :
    (∀ p ∈ ((jsSplit text "\n").map jsTrim).filter (fun a => decide (0 < utf16Length a)),
        p ≠ "" ∧ jsTrim p = p ∧ '\n' ∉ p.toList)
      ∧ normalizeLines text
          = jsJoin (((jsSplit text "\n").map jsTrim).filter
              (fun a => decide (0 < utf16Length a))) "\n"
      ∧ (((jsSplit text "\n").map jsTrim).filter (fun a => decide (0 < utf16Length a)) ≠ [] →
          jsSplit (normalizeLines text) "\n"
            = ((jsSplit text "\n").map jsTrim).filter (fun a => decide (0 < utf16Length a)))
      ∧ (((jsSplit text "\n").map jsTrim).filter (fun a => decide (0 < utf16Length a)) = [] →
          normalizeLines text = "")
      ∧ ¬ ("\n\n".toList <:+: (normalizeLines text).toList)
      ∧ normalizeLines (normalizeLines text) = normalizeLines text
      ∧ ∀ (localeCompare : String → String → Int) (other : String → Option Int) (now : JVal)
          (sid : String) (page : DoubanPage) (body : Obj),
          includes page.douban_page_raw "你想访问的页面不存在" = false →
          includes page.douban_page_raw "检测到有异常请求" = false →
          page.summary = some text →
          gen_douban localeCompare other now sid page = some body →
          Obj.get body "introduction" = .str (normalizeLines text) := by
  have hp := normalize_pieces text
  generalize hP : ((jsSplit text "\n").map jsTrim).filter
    (fun a => decide (0 < utf16Length a)) = pieces at hp
  have hnorm : normalizeLines text = jsJoin pieces "\n" := by
    unfold normalizeLines
    rw [hP]
  have hsplit : pieces ≠ [] → jsSplit (normalizeLines text) "\n" = pieces := by
    intro hne
    rw [hnorm]
    exact jsSplit_jsJoin '\n' pieces hne (fun x hx => (hp x hx).2.2)
  refine ⟨hp, hnorm, hsplit, ?_, ?_, ?_, ?_⟩
  · intro he
    rw [hnorm, he]
    rfl
  · rw [hnorm]
    exact jsJoin_no_double '\n' pieces (fun x hx => ⟨(hp x hx).1, (hp x hx).2.2⟩)
  · by_cases hne : pieces = []
    · rw [hnorm, hne]
      rfl
    · have h1 : normalizeLines (normalizeLines text)
          = jsJoin (((jsSplit (normalizeLines text) "\n").map jsTrim).filter
              (fun a => decide (0 < utf16Length a))) "\n" := rfl
      rw [h1, hsplit hne]
      have h2 : pieces.map jsTrim = pieces := by
        conv_rhs => rw [← List.map_id pieces]
        apply List.map_congr_left
        intro x hx
        exact (hp x hx).2.1
      have h3 : pieces.filter (fun a => decide (0 < utf16Length a)) = pieces := by
        rw [List.filter_eq_self]
        intro x hx
        simpa using utf16Length_pos x (hp x hx).1
      rw [h2, h3, hnorm]
  · intro localeCompare other now sid page body hm1 hm2 hsum hbody
    have := douban_body_get_page localeCompare other now sid page body "introduction" _
      hm1 hm2 hbody (lookup_page_introduction localeCompare other page) (by decide)
    rw [this]
    unfold douban_introduction
    rw [hsum]
    rfl

/-- Witness of C19 at a synopsis with indentation and a blank line. -/
theorem C19_introduction_normalised_witness :
    normalizeLines "\n  one  \n\n\n　　two\n" = "one\ntwo"
      ∧ jsSplit (normalizeLines "\n  one  \n\n\n　　two\n") "\n"
        = ((jsSplit "\n  one  \n\n\n　　two\n" "\n").map jsTrim).filter
            (fun a => decide (0 < utf16Length a))
      ∧ ∃ body, gen_douban sample_compare (fun _ => none) (.num "0") "12345"
          (sample_douban_page_summary "\n  one  \n\n\n　　two\n") = some body
        ∧ Obj.get body "introduction" = .str (normalizeLines "\n  one  \n\n\n　　two\n") := by
  have h := C19_introduction_normalised "\n  one  \n\n\n　　two\n"
  refine ⟨by decide, h.2.2.1 (by decide), ?_⟩
  have hs : (gen_douban sample_compare (fun _ => none) (.num "0") "12345"
      (sample_douban_page_summary "\n  one  \n\n\n　　two\n")).isSome = true := by rfl
  obtain ⟨body, hbody⟩ := Option.isSome_iff_exists.mp hs
  exact ⟨body, hbody, h.2.2.2.2.2.2 sample_compare (fun _ => none) (.num "0") "12345"
    _ body (by decide) (by decide) rfl hbody⟩

/-! ## The epic extractor -/

theorem epic_round_reverse (emitted : List String) (d : String) :
    epic_language_round emitted.reverse d
      = (match emitted with
        | last :: earlier =>
          if !hasChar d ':' && !hasChar d '：' then (last ++ "、" ++ d) :: earlier
          else if hasChar d '-' then ((jsSplit d "-").map jsTrim).reverse ++ emitted
          else d :: emitted
        | [] =>
          if hasChar d '-' then ((jsSplit d "-").map jsTrim).reverse else [d]).reverse := by
  cases emitted with
  | nil =>
    simp only [epic_language_round, List.reverse_nil, List.length_nil, Nat.lt_irrefl,
      decide_False, Bool.and_false, Bool.false_eq_true, if_false, List.nil_append]
    split <;> simp
  | cons last earlier =>
    simp only [epic_language_round, List.reverse_cons, List.length_append, List.length_reverse,
      List.length_singleton]
    by_cases h1 : (!hasChar d ':' && !hasChar d '：') = true
    · have hpos : decide (0 < earlier.length + 1) = true := by simp
      simp [h1, hpos]
    · simp only [Bool.not_eq_true] at h1
      have hc : (!hasChar d ':' && !hasChar d '：' && decide (0 < earlier.length + 1)) = false := by
        rw [h1]; rfl
      rw [hc, h1]
      simp only [Bool.false_eq_true, if_false]
      split <;> simp

/-- The loop of `gen_epic` computes the merge as the specification words it. -/
theorem epic_languages_refines (emitted descriptors : List String) :
    descriptors.foldl epic_language_round emitted.reverse = merge_spec emitted descriptors := by
  induction descriptors generalizing emitted with
  | nil => rfl
  | cons d rest ih =>
    simp only [List.foldl_cons]
    rw [epic_round_reverse]
    cases emitted with
    | nil =>
      simp only [merge_spec]
      split
      · exact ih _
      · exact ih _
    | cons last earlier =>
      simp only [merge_spec]
      split
      · exact ih _
      · split
        · exact ih _
        · exact ih _

theorem epic_languages_unchanged (acc descriptors : List String)
    (h : ∀ d ∈ descriptors, (hasChar d ':' = true ∨ hasChar d '：' = true)
      ∧ hasChar d '-' = false) :
    descriptors.foldl epic_language_round acc = acc ++ descriptors := by
  induction descriptors generalizing acc with
  | nil => simp
  | cons d rest ih =>
    have hd := h d (List.mem_cons_self _ _)
    have hround : epic_language_round acc d = acc ++ [d] := by
      unfold epic_language_round
      have hc : (!hasChar d ':' && !hasChar d '：' && decide (0 < acc.length)) = false := by
        rcases hd.1 with h1 | h1 <;> simp [h1]
      rw [hc, hd.2]
      rfl
    simp only [List.foldl_cons, hround]
    rw [ih (acc ++ [d]) (fun x hx => h x (List.mem_cons_of_mem _ hx))]
    simp

/-- Trimming a rendering keeps a visible text that one of its lines starts with. -/
theorem jsTrim_join_keeps (lines : List String) (c1 c2 : Char) (mid : List Char)
    (tail : String) (h1 : isWhiteSpace c1 = false) (h2 : isWhiteSpace c2 = false)
    (hmem : String.mk (c1 :: mid ++ [c2]) ++ tail ∈ lines) :
    ∃ pre post : String,
      jsTrim (String.join lines) = pre ++ String.mk (c1 :: mid ++ [c2]) ++ post := by
  obtain ⟨l1, l2, hl⟩ := List.append_of_mem hmem
  obtain ⟨a', b', hk⟩ := jsTrim_keeps (String.join l1) (tail ++ String.join l2) c1 c2 mid h1 h2
  refine ⟨a', b', ?_⟩
  rw [← hk, hl, join_append, join_cons]
  congr 1
  apply String.ext
  simp [String.data_append]

/-- A key of the entries of `gen_epic` keeps its value in the answer. -/
theorem epic_body_get (now : JVal) (sid : String) (status : Nat) (epic_api_json : JVal)
    (body : Obj) (hstatus : status ≠ 404)
    (hbody : gen_epic now sid status epic_api_json = some body) :
    ∃ entries descr, epic_entries sid epic_api_json = some entries
      ∧ (entries.map Prod.fst = ["name", "epic_link", "desc", "logo", "poster", "screenshot",
          "language", "min_req", "max_req", "level"])
      ∧ Obj.get body "success" = .bool true
      ∧ Obj.get body "error" = .null
      ∧ Obj.get body "format" = .str (jsTrim descr)
      ∧ (∃ pre post : String, jsTrim descr = pre ++ "【基本信息】" ++ post)
      ∧ ∀ k ∈ entries.map Prod.fst, Obj.get body k = Obj.get entries k := by
  unfold gen_epic at hbody
  simp only [hstatus, if_false] at hbody
  cases he : epic_entries sid epic_api_json with
  | none => simp [he] at hbody
  | some entries =>
    simp only [he] at hbody
    split at hbody
    · exact absurd hbody (by simp)
    · rename_i descr hdescr
      simp only [Option.some.injEq] at hbody
      have hkeys : entries.map Prod.fst = ["name", "epic_link", "desc", "logo", "poster",
          "screenshot", "language", "min_req", "max_req", "level"] := by
        unfold epic_entries at he
        split at he
        · exact absurd he (by simp)
        · split at he
          · split at he
            · simp only [Option.some.injEq] at he
              rw [← he]
              rfl
            · exact absurd he (by simp)
          · exact absurd he (by simp)
      have hnde : (entries.map Prod.fst).Nodup := by rw [hkeys]; decide
      have hnd : ((((Obj.assign [("site", JVal.str "epic"), ("sid", JVal.str sid)] entries).set
          "format" (.str (jsTrim descr))).set "success" (.bool true)).map Prod.fst).Nodup :=
        nodup_set _ _ _ (nodup_set _ _ _ (nodup_assign _ _ (by simp)))
      have hlook : ∀ k, k ≠ "format" → k ≠ "success" →
          (((Obj.assign [("site", JVal.str "epic"), ("sid", JVal.str sid)] entries).set
            "format" (.str (jsTrim descr))).set "success" (.bool true)).lookup k
          = (match entries.lookup k with
            | some v => some v
            | none => List.lookup k [("site", JVal.str "epic"), ("sid", JVal.str sid)]) := by
        intro k h1 h2
        rw [lookup_set_ne _ _ _ _ h2, lookup_set_ne _ _ _ _ h1, lookup_assign _ _ hnde]
      have hnoerr : entries.lookup "error" = none := by
        rw [lookup_eq_none_iff, hkeys]; decide
      refine ⟨entries, descr, rfl, hkeys, ?_, ?_, ?_, ?_, ?_⟩
      · rw [← hbody]
        exact get_body_of_lookup now _ hnd _ _ (by decide) (by rw [lookup_set]; simp)
      · rw [← hbody, get_makeJsonResponse now _ hnd]
        have : Obj.has (((Obj.assign [("site", JVal.str "epic"), ("sid", JVal.str sid)]
            entries).set "format" (.str (jsTrim descr))).set "success" (.bool true)) "error"
            = false := by
          unfold Obj.has
          rw [hlook "error" (by decide) (by decide), hnoerr]
          rfl
        rw [this]
        rfl
      · rw [← hbody]
        exact get_body_of_lookup now _ hnd _ _ (by decide)
          (by rw [lookup_set, lookup_set]; simp)
      · unfold epic_descr at hdescr
        split at hdescr
        · simp only [Option.some.injEq] at hdescr
          rw [← hdescr]
          exact jsTrim_join_keeps _ '【' '】' "基本信息".toList "\n\n" (by decide) (by decide)
            (by simp)
        · exact absurd hdescr (by simp)
      · intro k hk
        have hk1 : k ≠ "format" := by
          intro e; rw [e, hkeys] at hk; revert hk; decide
        have hk2 : k ≠ "success" := by
          intro e; rw [e, hkeys] at hk; revert hk; decide
        have hk3 : k ≠ "generate_at" := by
          intro e; rw [e, hkeys] at hk; revert hk; decide
        have hsome : ∃ v, entries.lookup k = some v := by
          cases hl : entries.lookup k with
          | none => exact absurd hk ((lookup_eq_none_iff entries k).mp hl)
          | some v => exact ⟨v, rfl⟩
        obtain ⟨v, hv⟩ := hsome
        rw [← hbody, get_body_of_lookup now _ hnd k v hk3 (by rw [hlook k hk1 hk2, hv])]
        unfold Obj.get
        rw [hv]

theorem epic_entries_language (sid : String) (epic_api_json : JVal)
    (entries : List (String × JVal)) (he : epic_entries sid epic_api_json = some entries) :
    ∃ page req langs descriptors,
      (epic_api_json.prop "pages").bind JVal.first = some page
      ∧ page.path ["data", "requirements"] = some req
      ∧ (req.or (.arr [])).prop "languages" = some langs
      ∧ epic_descriptors langs = some descriptors
      ∧ Obj.get entries "language" = .arr ((epic_languages descriptors).map JVal.str) := by
  unfold epic_entries at he
  split at he
  · exact absurd he (by simp)
  · rename_i page hpage
    split at he
    · rename_i name desc logo screenshot req _ _ _ _ hreq
      split at he
      · rename_i descriptors reqs level hdesc _ _
        simp only [Option.some.injEq] at he
        cases hl : (req.or (.arr [])).prop "languages" with
        | none => simp [hl] at hdesc
        | some langs =>
          simp only [hl, Option.some_bind] at hdesc
          refine ⟨page, req, langs, descriptors, hpage, hreq, hl, hdesc, ?_⟩
          rw [← he]
          rfl
      · exact absurd he (by simp)
    · exact absurd he (by simp)

/-- C15. The language list of the epic record is the left-to-right merge the
specification describes (`merge_spec`): a descriptor with neither `:` nor `：`
that follows an emitted entry is appended to the last entry after `、`,
otherwise a descriptor with `-` is split at every `-` into trimmed pieces,
otherwise it is emitted unchanged.  A list whose descriptors all have a colon
and no `-` is returned unchanged, and the example list of the specification
gives its two merged entries. -/
theorem C15_epic_language_merge :
    (∀ descriptors, epic_languages descriptors = merge_spec [] descriptors)
      ∧ (∀ descriptors : List String,
          (∀ d ∈ descriptors, (hasChar d ':' = true ∨ hasChar d '：' = true)
            ∧ hasChar d '-' = false) →
          epic_languages descriptors = descriptors)
      ∧ epic_languages ["语音：英语", "法语", "德语", "文本：繁体中文、简体中文"]
          = ["语音：英语、法语、德语", "文本：繁体中文、简体中文"]
      ∧ ∀ (now : JVal) (sid : String) (status : Nat) (epic_api_json : JVal) (body : Obj),
          status ≠ 404 → gen_epic now sid status epic_api_json = some body →
          ∃ page req langs descriptors,
            (epic_api_json.prop "pages").bind JVal.first = some page
            ∧ page.path ["data", "requirements"] = some req
            ∧ (req.or (.arr [])).prop "languages" = some langs
            ∧ epic_descriptors langs = some descriptors
            ∧ Obj.get body "language" = .arr ((merge_spec [] descriptors).map JVal.str) := by
  refine ⟨fun l => epic_languages_refines [] l, ?_, by decide, ?_⟩
  · intro l hl
    have := epic_languages_unchanged [] l hl
    simpa [epic_languages] using this
  · intro now sid status epic_api_json body hstatus hbody
    obtain ⟨entries, descr, he, hkeys, _, _, _, _, hget⟩ :=
      epic_body_get now sid status epic_api_json body hstatus hbody
    obtain ⟨page, req, langs, descriptors, h1, h2, h3, h4, h5⟩ :=
      epic_entries_language sid epic_api_json entries he
    refine ⟨page, req, langs, descriptors, h1, h2, h3, h4, ?_⟩
    rw [hget "language" (by rw [hkeys]; decide), h5]
    have : epic_languages descriptors = merge_spec [] descriptors :=
      epic_languages_refines [] descriptors
    rw [this]

/-- Witness of C15: a product document with the example descriptors. -/
theorem C15_epic_language_merge_witness :
    epic_languages ["语音：英语", "文本：简体中文"] = ["语音：英语", "文本：简体中文"]
      ∧ ∃ body, gen_epic (.num "0") "game" 200
          (sample_epic_json [("requirements", .obj [
            ("languages", .arr [.str "语音：英语", .str "法语", .str "德语",
              .str "文本：繁体中文、简体中文"]),
            ("systems", .arr []), ("legalTags", .arr [])])]) = some body
        ∧ Obj.get body "language"
          = .arr [.str "语音：英语、法语、德语", .str "文本：繁体中文、简体中文"] := by
  refine ⟨C15_epic_language_merge.2.1 _ (by decide), ?_⟩
  have hs : (gen_epic (.num "0") "game" 200
      (sample_epic_json [("requirements", .obj [
        ("languages", .arr [.str "语音：英语", .str "法语", .str "德语",
          .str "文本：繁体中文、简体中文"]),
        ("systems", .arr []), ("legalTags", .arr [])])])).isSome = true := by rfl
  obtain ⟨body, hbody⟩ := Option.isSome_iff_exists.mp hs
  obtain ⟨page, req, langs, descriptors, h1, h2, h3, h4, h5⟩ :=
    C15_epic_language_merge.2.2.2 (.num "0") "game" 200 _ body (by decide) hbody
  refine ⟨body, hbody, ?_⟩
  have e1 : page = .obj [("productName", .str "G"),
      ("data", .obj ([("about", .obj [("description", .str "D")]),
        ("hero", .obj [("logoImage", .obj [("src", .str "l.png")])]),
        ("gallery", .obj [("galleryImages", .arr [])])] ++
        [("requirements", .obj [
          ("languages", .arr [.str "语音：英语", .str "法语", .str "德语",
            .str "文本：繁体中文、简体中文"]),
          ("systems", .arr []), ("legalTags", .arr [])])]))] :=
    (Option.some.inj h1).symm
  subst e1
  have e2 := (Option.some.inj h2).symm
  subst e2
  have e3 := (Option.some.inj h3).symm
  subst e3
  have e4 := (Option.some.inj h4).symm
  subst e4
  rw [h5]
  rfl

/-- C16, evaluated where the claim fails: for a product document whose page
data has no requirements block the default `[]` of line 1053 has no
`languages`, reading its `length` raises, and `gen_epic` returns no record
(the request ends as an internal error). -/
theorem C16_missing_requirements_raises :
    gen_epic (.num "0") "game" 200 (sample_epic_json []) = none
      ∧ gen_epic (.num "0") "game" 200 (sample_epic_json [("requirements", .obj [])]) = none
      ∧ (gen_epic (.num "0") "game" 200 (sample_epic_json [("requirements",
          .obj [("languages", .arr []), ("systems", .arr []), ("legalTags", .arr [])])])).isSome
        = true := by
  refine ⟨by rfl, by rfl, by rfl⟩

theorem lookup_str_ne (o : List (String × String)) (k k0 v0 : String) (h : ¬ k = k0) :
    List.lookup k ((k0, v0) :: o) = List.lookup k o := by
  have hb : (k == k0) = false := beq_false_of_ne h
  simp [List.lookup, hb]

/-! ## The bangumi search -/

theorem bangumi_search_items_forall (list out : List JVal)
    (h : bangumi_search_items list = some out) :
    List.Forall₂ (fun d item => bangumi_search_item d = some item) list out := by
  induction list generalizing out with
  | nil =>
    simp only [bangumi_search_items, Option.some.injEq] at h
    subst h
    exact List.Forall₂.nil
  | cons d rest ih =>
    simp only [bangumi_search_items] at h
    cases h1 : bangumi_search_item d with
    | none => simp [h1] at h
    | some item =>
      cases h2 : bangumi_search_items rest with
      | none => simp [h1, h2] at h
      | some items =>
        simp only [h1, h2, Option.some.injEq] at h
        subst h
        exact List.Forall₂.cons h1 (ih items h2)

/-- C18. For every upstream answer to the bangumi search, the output list
corresponds item by item, in order, to the upstream list (so it has the same
length); an item with numeric type code `t` gets as `subtype` the label of
the fixed table for 1, 2, 3, 4 and 6 (4 gives "游戏") and `undefined` (an
absent field in the JSON answer) for every other code. -/
theorem C18_bangumi_subtype (now : JVal) (bgm_search_json : JVal) (body : Obj)
    (hbody : search_bangumi now bgm_search_json = some body) :
    ∃ list out : List JVal,
      bgm_search_json.prop "list" = some (.arr list)
      ∧ Obj.get body "data" = .arr out
      ∧ out.length = list.length
      ∧ List.Forall₂ (fun d item =>
          ∃ fields, item = JVal.obj fields
            ∧ d.prop "url" = some (Obj.get fields "link")
            ∧ d.prop "name" = some (Obj.get fields "subtitle")
            ∧ ∀ shown, d.prop "type" = some (.num shown) →
                Obj.get fields "subtype"
                  = (if shown = "1" then .str "漫画/小说"
                    else if shown = "2" then .str "动画/二次元番"
                    else if shown = "3" then .str "音乐"
                    else if shown = "4" then .str "游戏"
                    else if shown = "6" then .str "三次元番"
                    else .undefined)) list out := by
  unfold search_bangumi at hbody
  cases hl : bgm_search_json.prop "list" with
  | none => simp [hl] at hbody
  | some lv =>
    cases lv with
    | arr list =>
      simp only [hl, Option.some_bind, JVal.items] at hbody
      cases hi : bangumi_search_items list with
      | none => simp [hi] at hbody
      | some out =>
        simp only [hi, Option.some.injEq] at hbody
        have hfa := bangumi_search_items_forall list out hi
        refine ⟨list, out, rfl, ?_, hfa.length_eq.symm, ?_⟩
        · rw [← hbody]
          exact get_body_of_lookup now _ (by simp) _ _ (by decide) (by simp [List.lookup])
        · refine hfa.imp ?_
          intro d item hitem
          unfold bangumi_search_item at hitem
          split at hitem
          · rename_i year type name_cn name url _ htype _ hname hurl
            simp only [Option.some.injEq] at hitem
            refine ⟨_, hitem.symm, ?_, ?_, ?_⟩
            · rw [hurl]; rfl
            · rw [hname]; rfl
            · intro shown hshown
              rw [htype] at hshown
              have e := Option.some.inj hshown
              subst e
              show tp_dict_get (.num shown) = _
              unfold tp_dict_get tp_dict
              simp only [JVal.toStr]
              by_cases h1 : shown = "1"
              · subst h1; rfl
              · by_cases h2 : shown = "2"
                · subst h2; rfl
                · by_cases h3 : shown = "3"
                  · subst h3; rfl
                  · by_cases h4 : shown = "4"
                    · subst h4; rfl
                    · by_cases h6 : shown = "6"
                      · subst h6; rfl
                      · simp only [h1, h2, h3, h4, h6, if_false]
                        rw [lookup_str_ne _ _ _ _ h1, lookup_str_ne _ _ _ _ h2,
                          lookup_str_ne _ _ _ _ h3, lookup_str_ne _ _ _ _ h4,
                          lookup_str_ne _ _ _ _ h6]
                        rfl
          · exact absurd hitem (by simp)
    | undefined => simp [hl, JVal.items] at hbody
    | null => simp [hl, JVal.items] at hbody
    | bool b => simp [hl, JVal.items] at hbody
    | num n => simp [hl, JVal.items] at hbody
    | str s => simp [hl, JVal.items] at hbody
    | obj o => simp [hl, JVal.items] at hbody

/-- Witness of C18: type codes 4 and 5. -/
theorem C18_bangumi_subtype_witness :
    (search_bangumi (.num "0") (.obj [("list", .arr [
        .obj [("air_date", .str "2011-01-01"), ("type", .num "4"), ("name_cn", .str ""),
          ("name", .str "G"), ("url", .str "http://bgm.tv/subject/1")],
        .obj [("air_date", .str "2012-01-01"), ("type", .num "5"), ("name_cn", .str "x"),
          ("name", .str "H"), ("url", .str "http://bgm.tv/subject/2")]])])).map
      (fun body => Obj.get body "data")
      = some (.arr [
        .obj [("year", .str "2011"), ("subtype", .str "游戏"), ("title", .str "G"),
          ("subtitle", .str "G"), ("link", .str "http://bgm.tv/subject/1")],
        .obj [("year", .str "2012"), ("subtype", .undefined), ("title", .str "x"),
          ("subtitle", .str "H"), ("link", .str "http://bgm.tv/subject/2")]])
    ∧ ∃ body, search_bangumi (.num "0") (.obj [("list", .arr [
        .obj [("air_date", .str "2011-01-01"), ("type", .num "4"), ("name_cn", .str ""),
          ("name", .str "G"), ("url", .str "http://bgm.tv/subject/1")]])]) = some body
      ∧ ∃ list out : List JVal, Obj.get body "data" = .arr out ∧ out.length = list.length := by
  refine ⟨by rfl, ?_⟩
  have hs : (search_bangumi (.num "0") (.obj [("list", .arr [
        .obj [("air_date", .str "2011-01-01"), ("type", .num "4"), ("name_cn", .str ""),
          ("name", .str "G"), ("url", .str "http://bgm.tv/subject/1")]])])).isSome = true := by
    rfl
  obtain ⟨body, hbody⟩ := Option.isSome_iff_exists.mp hs
  obtain ⟨list, out, _, h2, h3, _⟩ := C18_bangumi_subtype (.num "0") _ body hbody
  exact ⟨body, hbody, list, out, h2, h3⟩

/-! ## The steam record -/

/-- C20, evaluated where the claim fails: when the localisation document is
the callback text `cb(null)`, `jsonp_parser` returns `null` (the parse
succeeds, so the `catch` does not apply), the read of `name_cn` in line 877
raises, and `gen_steam` returns no record. -/
theorem C20_null_payload_raises (JSON_parse : String → Option JVal)
    (hnull : JSON_parse "null" = some .null) (now : JVal) (sid : String) (page : SteamPage)
    (hstatus : page.status ≠ 302) (hjsonp : page.steamcn_api_jsonp = "cb(null)") :
    jsonp_parse JSON_parse page.steamcn_api_jsonp = .null
      ∧ (jsonp_parse JSON_parse page.steamcn_api_jsonp).prop "name_cn" = none
      ∧ gen_steam JSON_parse now sid page = none := by
  have hm : jsMatch (replaceNewlines "cb(null)" "") pattern_jsonp = some (some "null") := by
    rfl
  have hp : jsonp_parse JSON_parse page.steamcn_api_jsonp = .null := by
    unfold jsonp_parse
    rw [hjsonp, hm]
    simp only [hnull]
  refine ⟨hp, by rw [hp]; rfl, ?_⟩
  unfold gen_steam
  simp only [hstatus, if_false]
  rw [hp]
  cases page.cover <;> cases steam_linkbar page <;> cases allTexts page.screenshot <;> rfl

/-- Witness of C20: a store page with status 200, and two other texts of the
localisation document, for which the record is built. -/
theorem C20_null_payload_raises_witness :
    gen_steam sample_JSON_parse (.num "0") "1" (sample_steam_page [] "cb(null)") = none
      ∧ (gen_steam sample_JSON_parse (.num "0") "1" (sample_steam_page [] "garbage")).map
          (fun body => (Obj.get body "success", Obj.has body "name_chs"))
        = some (.bool true, false)
      ∧ (gen_steam sample_JSON_parse (.num "0") "1"
          (sample_steam_page [] "cb(\x7b\"name_cn\":\"游戏\"\x7d)")).map
          (fun body => (Obj.get body "success", Obj.get body "name_chs"))
        = some (.bool true, .str "游戏") :=
  ⟨(C20_null_payload_raises sample_JSON_parse (by rfl) (.num "0") "1"
      (sample_steam_page [] "cb(null)") (by decide) (by rfl)).2.2, by rfl, by rfl⟩

/-- C21, evaluated where the claim fails: the test of line 839 is the
position `search` returns, which is falsy only at 0.  A row whose first
capability cell holds a check mark after blanks and whose other cells hold
none is rendered with all three labels; a row whose cells all start with the
check mark is rendered bare. -/
theorem C21_labels_do_not_follow_check_marks :
    steam_language_row ["简体中文", "\n\t✔\t", "\n\t", "\n\t"] = "简体中文 (界面, 完全音频, 字幕)"
      ∧ steam_language_row ["英语", "✔", "✔", "✔"] = "英语"
      ∧ steam_language_row ["日语", "", "✔ ", ""] = "日语 (界面, 字幕)"
      ∧ (gen_steam sample_JSON_parse (.num "0") "1"
          (sample_steam_page [["h"], ["简体中文", "\n\t✔\t", "\n\t", "\n\t"],
            ["英语", "✔", "✔", "✔"], ["日语", "", "✔ ", ""]] "cb(\x7b\x7d)")).map
          (fun body => Obj.get body "language")
        = some (.arr [.str "简体中文 (界面, 完全音频, 字幕)", .str "英语", .str "日语 (界面, 字幕)"]) := by
  refine ⟨by decide, by decide, by decide, by rfl⟩

/-! ## The indienova record -/

/-- The values of the object `links` are texts or `undefined`. -/
theorem indienova_links_values (link_field : List (String × Option String)) :
    ∀ (acc : Obj), (∀ k v, acc.lookup k = some v → (∃ s, v = .str s) ∨ v = .undefined) →
      ∀ k v, (link_field.foldl (fun links that =>
          Obj.set links (jsTrim that.1) (match that.2 with
            | some href => .str href
            | none => .undefined)) acc).lookup k = some v →
        (∃ s, v = .str s) ∨ v = .undefined := by
  induction link_field with
  | nil => intro acc h k v hk; exact h k v hk
  | cons that rest ih =>
    intro acc h k v hk
    simp only [List.foldl_cons] at hk
    refine ih _ ?_ k v hk
    intro k' v' hk'
    rw [lookup_set] at hk'
    split at hk'
    · simp only [Option.some.injEq] at hk'
      subst hk'
      cases that.2 with
      | none => exact Or.inr rfl
      | some href => exact Or.inl ⟨href, rfl⟩
    · exact h k' v' hk'

/-- C22, evaluated where the claim fails: `data["links"]` is a plain object,
which has no `length`, so the guard of line 1010 does not hold and the line
"链接地址：" is not rendered.  For a page with one link the record holds the
link and the format has no such line; and whatever the links of the page,
the piece the guarded block adds to the format is empty. -/
theorem C22_links_line_not_rendered :
    (gen_indienova (.num "0") "g" (sample_indienova_page
        [("Steam", some "https://store.steampowered.com/app/1")])).map
        (fun body => (Obj.get body "success", Obj.get body "links", Obj.get body "format"))
      = some (.bool true, .obj [("Steam", .str "https://store.steampowered.com/app/1")],
          .str "【基本信息】\n\n中文名称：G\n评分：undefined:undefined / undefined:undefined\n开发商：\n标签：")
    ∧ ∀ (link_field : List (String × Option String)) (line : String),
        indienova_links_line (.obj (indienova_links link_field)) = some line → line = "" := by
  refine ⟨by rfl, ?_⟩
  intro link_field line h
  unfold indienova_links_line at h
  simp only [JVal.truthy, if_true] at h
  cases hl : (indienova_links link_field).lookup "length" with
  | none =>
    simp only [JVal.lengthPos, hl, Option.some.injEq] at h
    exact h.symm
  | some v =>
    rcases indienova_links_values link_field [] (by intro k v hk; simp at hk) "length" v hl
      with ⟨s, rfl⟩ | rfl
    · simp [JVal.lengthPos, hl] at h
    · simp only [JVal.lengthPos, hl, Option.some.injEq] at h
      exact h.symm

/-! ## Not-found answers -/

/-- C11. For each of the six extractors, when the primary upstream answer
carries the site's nonexistence signal (the marker text in the page for
douban, imdb, bangumi and indienova; status 302 for steam; status 404 for
epic), the answer is the not-found record (success = false, the standard
message, empty format, `site` and `sid` as the only fields beside the
defaults), and the only address fetched is the primary one. -/
theorem C11_not_found_records (localeCompare : String → String → Int)
    (other : String → Option Int) (JSON_parse : String → Option JVal) (now : JVal)
    (sid : String) (douban : DoubanPage) (imdb : ImdbPage) (bangumi : BangumiPage)
    (steam : SteamPage) (indienova : IndienovaPage) (epic_api_json : JVal)
    (hdouban : includes douban.douban_page_raw "你想访问的页面不存在" = true)
    (himdb : includes imdb.imdb_page_raw "404 Error - IMDb" = true)
    (hbangumi : includes bangumi.bangumi_page_raw "呜咕，出错了" = true)
    (hsteam : steam.status = 302)
    (hindienova : includes indienova.indienova_page_raw "出现错误" = true) :
    (gen_douban localeCompare other now sid douban = some (not_found_record now "douban" sid)
      ∧ douban_fetches sid douban = ["https://movie.douban.com/subject/" ++ sid ++ "/"])
    ∧ (gen_imdb now sid imdb = some (not_found_record now "imdb" sid)
      ∧ imdb_fetches sid imdb = [imdb_url sid])
    ∧ (gen_bangumi now sid bangumi = not_found_record now "bangumi" sid
      ∧ bangumi_fetches sid bangumi = ["https://bgm.tv/subject/" ++ sid])
    ∧ (gen_steam JSON_parse now sid steam = some (not_found_record now "steam" sid)
      ∧ steam_fetches sid steam
        = ["https://store.steampowered.com/app/" ++ sid ++ "/?l=schinese"])
    ∧ (gen_indienova now sid indienova = some (not_found_record now "indienova" sid)
      ∧ indienova_fetches sid = ["https://indienova.com/game/" ++ sid])
    ∧ (gen_epic now sid 404 epic_api_json = some (not_found_record now "epic" sid)
      ∧ epic_fetches sid
        = ["https://store-content.ak.epicgames.com/api/zh-CN/content/products/" ++ sid]) := by
  refine ⟨⟨?_, ?_⟩, ⟨?_, ?_⟩, ⟨?_, ?_⟩, ⟨?_, ?_⟩, ⟨?_, rfl⟩, ⟨?_, rfl⟩⟩
  · unfold gen_douban; rw [if_pos hdouban]; rfl
  · unfold douban_fetches; simp only [hdouban, if_true]
  · unfold gen_imdb; rw [if_pos himdb]; rfl
  · unfold imdb_fetches; rw [if_pos himdb]
  · unfold gen_bangumi; rw [if_pos hbangumi]; rfl
  · unfold bangumi_fetches; rw [if_pos hbangumi]
  · unfold gen_steam; rw [if_pos hsteam]; rfl
  · unfold steam_fetches; rw [if_pos hsteam]
  · unfold gen_indienova; rw [if_pos hindienova]; rfl
  · unfold gen_epic; rw [if_pos rfl]; rfl

/-- Witness of C11: pages that consist of the marker texts. -/
theorem C11_not_found_records_witness :
    gen_bangumi (.num "0") "1" (sample_bangumi_page "呜咕，出错了")
        = not_found_record (.num "0") "bangumi" "1"
      ∧ bangumi_fetches "1" (sample_bangumi_page "呜咕，出错了") = ["https://bgm.tv/subject/1"]
      ∧ gen_steam sample_JSON_parse (.num "0") "1"
          { sample_steam_page [] "" with status := 302 }
        = some (not_found_record (.num "0") "steam" "1") := by
  have h := C11_not_found_records sample_compare (fun _ => none) sample_JSON_parse (.num "0") "1"
    { sample_douban_page_bare with douban_page_raw := "你想访问的页面不存在" }
    { sample_imdb_page .null with imdb_page_raw := "404 Error - IMDb" }
    (sample_bangumi_page "呜咕，出错了")
    { sample_steam_page [] "" with status := 302 }
    { sample_indienova_page [] with indienova_page_raw := "出现错误" } .null
    (by decide) (by decide) (by decide) (by rfl) (by decide)
  exact ⟨h.2.2.1.1, h.2.2.1.2, h.2.2.2.1.1⟩

/-! ## The edge cache -/

/-- C13, a request the claim fails on: a GET request without `site`, `sid`
and `url` gets the answer with success = false for the missing key, and that
answer is passed to `cache.put`; so is the not-found answer of an extractor,
and the answer for an unknown site. -/
theorem C13_unsuccessful_answer_is_cached :
    ((handle sample_upstream none (sample_request ⟨none, none, none⟩)).put.bind
        Response.body).map (fun body => (Obj.get body "success", Obj.get body "error"))
      = some (.bool false,
          .str "Miss key of `site` or `sid` , or input unsupported resource `url`.")
    ∧ ((handle sample_upstream none (sample_request ⟨none, some "epic", some "g"⟩)).put.bind
        Response.body).map (fun body => (Obj.get body "success", Obj.get body "error"))
      = some (.bool false, .str "The corresponding resource does not exist.")
    ∧ ((handle sample_upstream none (sample_request ⟨none, some "x", some "1"⟩)).put.bind
        Response.body).map (fun body => (Obj.get body "success", Obj.get body "error"))
      = some (.bool false, .str "Unknown value of key `site`.") := by
  refine ⟨by rfl, by rfl, by rfl⟩

/-- C13, as the code has it: `handle` makes no call of `cache.put` exactly
when the request is an OPTIONS request, or the cache holds an answer, or the
handling raises (the answer is then the Internal Error body); every other
answer it builds, whatever its `success`, is the one passed to `cache.put`. -/
theorem C13_only_exceptions_skip_the_cache (up : Upstream) (cached : Option Response)
    (req : Request) :
    ((handle up cached req).put = none
        ↔ (req.method = "OPTIONS" ∨ cached.isSome = true
            ∨ ∃ message, respond up req = .error message))
      ∧ (∀ response, respond up req = .ok response → req.method ≠ "OPTIONS" →
          handle up none req = ⟨response, some response⟩)
      ∧ (∀ message, respond up req = .error message → req.method ≠ "OPTIONS" →
          ((handle up none req).response.body.map (fun body => Obj.get body "success")
              = some (.bool false)
            ∧ (handle up none req).put = none)) := by
  refine ⟨?_, ?_, ?_⟩
  · unfold handle
    by_cases hm : req.method = "OPTIONS"
    · simp [hm]
    · cases cached with
      | some response => simp [hm]
      | none =>
        cases hr : respond up req with
        | ok response => simp [hm]
        | error message => simp [hm]
  · intro response hr hm
    unfold handle
    simp only [hm, if_false, hr]
  · intro message hr hm
    unfold handle
    simp only [hm, if_false, hr, Response.body, Option.map_some', Option.some.injEq, and_true]
    rw [get_makeJsonResponse _ _ (by
      by_cases hd : req.debug = some "1" <;> simp [hd])]
    by_cases hd : req.debug = some "1" <;>
      simp [hd, Obj.has, Obj.get, List.lookup, default_body]

/-- Witness of C13: a request whose handling raises, and one whose handling
does not. -/
theorem C13_only_exceptions_skip_the_cache_witness :
    (handle sample_upstream none (sample_request ⟨none, some "steam", some "1"⟩)).put = none
      ∧ (handle sample_upstream none (sample_request ⟨none, none, none⟩)).put.isSome = true :=
  ⟨((C13_only_exceptions_skip_the_cache sample_upstream none
      (sample_request ⟨none, some "steam", some "1"⟩)).1).mpr
      (Or.inr (Or.inr ⟨"fetch failed", by rfl⟩)), by rfl⟩

/-! ## The record invariant -/

/-- A record that holds a non-empty format and no error satisfies the
invariant once `success` is set. -/
theorem invariant_of_success (now : JVal) (data : Obj) (text : String)
    (hd : (data.map Prod.fst).Nodup) (herr : data.lookup "error" = none) (hne : text ≠ "") :
    record_invariant (makeJsonResponse now
      ((data.set "format" (.str text)).set "success" (.bool true))) = true := by
  have hnd : (((data.set "format" (.str text)).set "success" (.bool true)).map
      Prod.fst).Nodup := nodup_set _ _ _ (nodup_set _ _ _ hd)
  have h1 : Obj.get (makeJsonResponse now
      ((data.set "format" (.str text)).set "success" (.bool true))) "success" = .bool true :=
    get_body_of_lookup now _ hnd _ _ (by decide) (by rw [lookup_set]; simp)
  have h2 : Obj.get (makeJsonResponse now
      ((data.set "format" (.str text)).set "success" (.bool true))) "format" = .str text :=
    get_body_of_lookup now _ hnd _ _ (by decide) (by rw [lookup_set, lookup_set]; simp)
  have h3 : Obj.get (makeJsonResponse now
      ((data.set "format" (.str text)).set "success" (.bool true))) "error" = .null := by
    rw [get_makeJsonResponse now _ hnd]
    have : Obj.has ((data.set "format" (.str text)).set "success" (.bool true)) "error"
        = false := by
      unfold Obj.has
      rw [lookup_set_ne _ _ _ _ (by decide), lookup_set_ne _ _ _ _ (by decide), herr]
      rfl
    rw [this]
    rfl
  unfold record_invariant
  rw [h1, h2, h3]
  simp [hne]

/-- The format of a record built by `invariant_of_success`. -/
theorem format_of_success (now : JVal) (data : Obj) (text : String)
    (hd : (data.map Prod.fst).Nodup) :
    Obj.get (makeJsonResponse now
      ((data.set "format" (.str text)).set "success" (.bool true))) "format" = .str text :=
  get_body_of_lookup now _ (nodup_set _ _ _ (nodup_set _ _ _ hd)) _ _ (by decide)
    (by rw [lookup_set, lookup_set]; simp)

theorem mk_cons_ne_empty (c : Char) (l : List Char) : String.mk (c :: l) ≠ "" := by
  intro h
  have := congrArg String.data h
  simp at this

/-- A text that keeps a visible piece is not empty. -/
theorem keeps_ne_empty (t pre post line : String) (h : t = pre ++ line ++ post)
    (hl : line ≠ "") : t ≠ "" := by
  rw [h]
  exact append_ne_empty_left _ _ (append_ne_empty_right _ _ hl)

/-- An answer with an error message and nothing else satisfies the invariant. -/
theorem invariant_of_error (now : JVal) (site sid message : String) (hm : message ≠ "") :
    record_invariant (makeJsonResponse now
      (Obj.assign [("site", .str site), ("sid", .str sid)] [("error", .str message)])) = true := by
  have e : makeJsonResponse now
      (Obj.assign [("site", .str site), ("sid", .str sid)] [("error", .str message)])
      = [("success", .bool false), ("error", .str message), ("format", .str ""),
         ("copyright", .str "Powered by @Rhilip"), ("version", .str "0.6.1"),
         ("generate_at", now), ("site", .str site), ("sid", .str sid)] := by rfl
  rw [e]
  simp [record_invariant, Obj.get, List.lookup, hm]

theorem bangumi_invariant (now : JVal) (sid : String) (page : BangumiPage) :
    record_invariant (gen_bangumi now sid page) = true := by
  unfold gen_bangumi
  split
  · exact invariant_of_error now _ _ _ (by decide)
  · refine invariant_of_success now _ _ (nodup_assign _ _ (by simp)) ?_ ?_
    · rw [lookup_assign _ _ (by simp [bangumi_entries])]
      have : (bangumi_entries sid page).lookup "error" = none := by
        rw [lookup_eq_none_iff]
        simp [bangumi_entries]
      rw [this]
      rfl
    · have halt : "https://bgm.tv/subject/" ++ sid ≠ "" :=
        append_ne_empty_left _ _ (by decide)
      obtain ⟨pre, post, hk⟩ := jsTrim_join_keeps
        (bangumi_lines (bangumi_poster page) (jsTrim page.story) page.staff
          (page.cast.map bangumi_cast_entry) ("https://bgm.tv/subject/" ++ sid))
        '(' '于' "来源".toList (" " ++ ("https://bgm.tv/subject/" ++ sid) ++ " )\n")
        (by decide) (by decide) (by
          unfold bangumi_lines
          rw [textLine_of_ne _ _ halt]
          have e : "(来源于 " ++ ("https://bgm.tv/subject/" ++ sid) ++ " )\n"
              = String.mk ('(' :: "来源".toList ++ ['于'])
                ++ (" " ++ ("https://bgm.tv/subject/" ++ sid) ++ " )\n") := by
            apply String.ext
            simp [String.data_append]
          rw [e]
          simp)
      exact keeps_ne_empty _ pre post _ hk (mk_cons_ne_empty _ _)

theorem steam_invariant (JSON_parse : String → Option JVal) (now : JVal) (sid : String)
    (page : SteamPage) (body : Obj) (h : gen_steam JSON_parse now sid page = some body) :
    record_invariant body = true := by
  unfold gen_steam at h
  split at h
  · simp only [Option.some.injEq] at h
    rw [← h]
    exact invariant_of_error now _ _ _ (by decide)
  · split at h
    · rename_i cover linkbar screenshot name_cn _ hlink _ _
      split at h
      · simp only [Option.some.injEq] at h
        rw [← h]
        have hkl : linkbar.map Prod.fst = ["linkbar"] ∨ linkbar.map Prod.fst = [] := by
          unfold steam_linkbar at hlink
          split at hlink
          · split at hlink
            · simp only [Option.some.injEq] at hlink
              rw [← hlink]
              exact Or.inl rfl
            · exact absurd hlink (by simp)
          · simp only [Option.some.injEq] at hlink
            rw [← hlink]
            exact Or.inr rfl
        have hkn : (steam_name_chs name_cn).map Prod.fst = ["name_chs"]
            ∨ (steam_name_chs name_cn).map Prod.fst = [] := by
          unfold steam_name_chs
          split
          · exact Or.inl rfl
          · exact Or.inr rfl
        have hkeys : ((steam_entries sid page cover linkbar screenshot
            (steam_name_chs name_cn)).map Prod.fst).Nodup
            ∧ "error" ∉ (steam_entries sid page cover linkbar screenshot
              (steam_name_chs name_cn)).map Prod.fst := by
          unfold steam_entries
          simp only [List.map_append, List.map_cons, List.map_nil]
          rcases hkl with e1 | e1 <;> rcases hkn with e2 | e2 <;> rw [e1, e2] <;> decide
        refine invariant_of_success now _ _ (nodup_assign _ _ (by simp)) ?_ ?_
        · rw [lookup_assign _ _ hkeys.1, (lookup_eq_none_iff _ _).mpr hkeys.2]
          rfl
        · obtain ⟨pre, post, hk⟩ := jsTrim_join_keeps
            (steam_lines sid page cover (Obj.get linkbar "linkbar") screenshot (by assumption))
            '【' '】' "基本信息".toList "\n\n" (by decide) (by decide) (by simp [steam_lines])
          exact keeps_ne_empty _ pre post _ hk (mk_cons_ne_empty _ _)
      · exact absurd h (by simp)
    · exact absurd h (by simp)

theorem indienova_invariant (now : JVal) (sid : String) (page : IndienovaPage) (body : Obj)
    (h : gen_indienova now sid page = some body) : record_invariant body = true := by
  unfold gen_indienova at h
  split at h
  · simp only [Option.some.injEq] at h
    rw [← h]
    exact invariant_of_error now _ _ _ (by decide)
  · split at h
    · rename_i links_line _
      simp only [Option.some.injEq] at h
      rw [← h]
      have hkeys : ((indienova_entries page).map Prod.fst).Nodup
          ∧ "error" ∉ (indienova_entries page).map Prod.fst := by
        unfold indienova_entries
        simp only [List.map_append, List.map_cons, List.map_nil]
        split <;> split <;> simp
      refine invariant_of_success now _ _ (nodup_assign _ _ (by simp)) ?_ ?_
      · rw [lookup_assign _ _ hkeys.1, (lookup_eq_none_iff _ _).mpr hkeys.2]
        rfl
      · obtain ⟨pre, post, hk⟩ := jsTrim_join_keeps (indienova_lines page links_line)
          '【' '】' "基本信息".toList "\n\n" (by decide) (by decide) (by simp [indienova_lines])
        exact keeps_ne_empty _ pre post _ hk (mk_cons_ne_empty _ _)
    · exact absurd h (by simp)

theorem epic_invariant (now : JVal) (sid : String) (status : Nat) (epic_api_json : JVal)
    (body : Obj) (h : gen_epic now sid status epic_api_json = some body) :
    record_invariant body = true := by
  by_cases hs : status = 404
  · unfold gen_epic at h
    rw [if_pos hs] at h
    simp only [Option.some.injEq] at h
    rw [← h]
    exact invariant_of_error now _ _ _ (by decide)
  · obtain ⟨entries, descr, _, _, h1, h2, h3, ⟨pre, post, hk⟩, _⟩ :=
      epic_body_get now sid status epic_api_json body hs h
    unfold record_invariant
    rw [h1, h2, h3]
    have : jsTrim descr ≠ "" := keeps_ne_empty _ pre post _ hk (by decide)
    simp [this]

/-- The fields taken from `page_json` by `gen_imdb` do not include `error`. -/
theorem imdb_json_fields_no_error (sid : String) (page_json : JVal) (data d : Obj)
    (hd : (data.map Prod.fst).Nodup) (he : data.lookup "error" = none)
    (h : imdb_json_fields sid page_json data = some d) :
    (d.map Prod.fst).Nodup ∧ d.lookup "error" = none := by
  unfold imdb_json_fields at h
  cases h1 : imdb_copy_fields sid page_json data with
  | none => simp [h1] at h
  | some d1 =>
    simp only [h1] at h
    have hP1 : (d1.map Prod.fst).Nodup ∧ d1.lookup "error" = none := by
      unfold imdb_copy_fields at h1
      cases hf : foldRounds (fun data copy_item =>
          (page_json.prop copy_item).map (fun v => data.set copy_item v))
          ((data.set "imdb_id" (.str (imdb_id sid))).set "imdb_link" (.str (imdb_url sid)))
          ["@type", "name", "genre", "contentRating", "datePublished", "description",
            "duration"] with
      | none => simp [hf] at h1
      | some dc =>
        have hPc : (dc.map Prod.fst).Nodup ∧ dc.lookup "error" = none := by
          refine foldRounds_inv
            (fun d => (d.map Prod.fst).Nodup ∧ d.lookup "error" = none)
            _ _ ?_ _ dc ⟨nodup_set _ _ _ (nodup_set _ _ _ hd), by
              rw [lookup_set_ne _ _ _ _ (by decide), lookup_set_ne _ _ _ _ (by decide)]
              exact he⟩ hf
          intro d0 x d0' hx hP hr
          cases hp : page_json.prop x with
          | none => simp [hp] at hr
          | some v =>
            simp only [hp, Option.map_some', Option.some.injEq] at hr
            subst hr
            have hne : "error" ≠ x := by
              intro e
              subst e
              simp at hx
            exact ⟨nodup_set _ _ _ hP.1, by rw [lookup_set_ne _ _ _ _ hne]; exact hP.2⟩
        cases hi : page_json.prop "image" with
        | none => simp [hf, hi] at h1
        | some image =>
          simp only [hf, hi] at h1
          have hPp : ((dc.set "poster" image).map Prod.fst).Nodup
              ∧ (dc.set "poster" image).lookup "error" = none :=
            ⟨nodup_set _ _ _ hPc.1, by rw [lookup_set_ne _ _ _ _ (by decide)]; exact hPc.2⟩
          split at h1
          · cases hy : sliceYear ((dc.set "poster" image).get "datePublished") with
            | none => simp [hy] at h1
            | some y =>
              simp only [hy, Option.map_some', Option.some.injEq] at h1
              subst h1
              exact ⟨nodup_set _ _ _ hPp.1, by
                rw [lookup_set_ne _ _ _ _ (by decide)]; exact hPp.2⟩
          · simp only [Option.some.injEq] at h1
            subst h1
            exact hPp
    cases h2 : foldRounds (person_round page_json) d1 ["actor", "director", "creator"] with
    | none => simp [h2] at h
    | some d2 =>
      simp only [h2] at h
      have hP2 := person_round_keeps page_json "error" none (by decide) d1 d2 hP1 h2
      unfold imdb_rating_fields at h
      split at h
      · split at h
        · simp only [Option.some.injEq] at h
          subst h
          refine ⟨?_, ?_⟩
          · exact nodup_set _ _ _ (nodup_set _ _ _ (nodup_set _ _ _ (nodup_set _ _ _ hP2.1)))
          · rw [lookup_set_ne _ _ _ _ (by decide), lookup_set_ne _ _ _ _ (by decide),
              lookup_set_ne _ _ _ _ (by decide), lookup_set_ne _ _ _ _ (by decide)]
            exact hP2.2
        · exact absurd h (by simp)
      · exact absurd h (by simp)

theorem imdb_invariant (now : JVal) (sid : String) (page : ImdbPage) (body : Obj)
    (h : gen_imdb now sid page = some body) : record_invariant body = true := by
  cases hmark : includes page.imdb_page_raw "404 Error - IMDb" with
  | true =>
    unfold gen_imdb at h
    rw [if_pos hmark] at h
    simp only [Option.some.injEq] at h
    rw [← h]
    exact invariant_of_error now _ _ _ (by decide)
  | false =>
    obtain ⟨rc, rv, _, _, _, pre, post, hshape⟩ := imdb_rating_of_json now sid page body hmark h
    unfold gen_imdb at h
    simp only [hmark, if_false, Bool.false_eq_true] at h
    unfold imdb_success at h
    cases h1 : imdb_json_fields sid page.page_json [("site", .str "imdb"), ("sid", .str sid)] with
    | none => simp [h1] at h
    | some d1 =>
      simp only [h1] at h
      have hP1 := imdb_json_fields_no_error sid page.page_json _ d1 (by simp) (by rfl) h1
      cases h2 : imdb_page_fields page d1 with
      | none => simp [h2] at h
      | some d =>
        simp only [h2] at h
        have hP := imdb_page_fields_keeps page "error" none (by decide) d1 d hP1 h2
        cases h3 : imdb_descr d with
        | none => simp [h3] at h
        | some descr =>
          simp only [h3, Option.some.injEq] at h
          rw [← h] at hshape ⊢
          rw [format_of_success now d _ hP.1] at hshape
          refine invariant_of_success now d _ hP.1 hP.2 ?_
          exact keeps_ne_empty _ pre post _ (JVal.str.inj hshape)
            (append_ne_empty_left _ _ (append_ne_empty_left _ _ (by decide)))

/-- The imdb cross-reference of `gen_douban` does not assign `error`. -/
theorem douban_imdb_fields_no_error (ref : ImdbRef) (data data' : Obj)
    (he : data.lookup "error" = none) (h : douban_imdb_fields ref data = some data') :
    data'.lookup "error" = none := by
  unfold douban_imdb_fields at h
  dsimp only at h
  split at h
  · split at h
    · split at h
      · simp only [Option.some.injEq] at h
        subst h
        rw [lookup_set_ne _ _ _ _ (by decide), lookup_set_ne _ _ _ _ (by decide),
          lookup_set_ne _ _ _ _ (by decide), lookup_set_ne _ _ _ _ (by decide),
          lookup_set_ne _ _ _ _ (by decide)]
        exact he
      · exact absurd h (by simp)
    · simp only [Option.some.injEq] at h
      subst h
      rw [lookup_set_ne _ _ _ _ (by decide), lookup_set_ne _ _ _ _ (by decide)]
      exact he
  · exact absurd h (by simp)

/-- The assignments of lines 410-490 of `gen_douban` do not touch `error`. -/
theorem douban_data_lookup_error (localeCompare : String → String → Int)
    (other : String → Option Int) (page : DoubanPage) (data : Obj)
    (average votes : JVal) (poster : String) :
    (douban_data localeCompare other page data
      (douban_ld_list page.ld_json average votes poster)).lookup "error"
        = data.lookup "error" := by
  unfold douban_data
  rw [lookup_assign _ _ (nodup_tail_entries page)]
  have ht : (douban_tail_entries page).lookup "error" = none := by
    rw [lookup_eq_none_iff]
    unfold douban_tail_entries
    split <;> simp
  rw [ht]
  simp only
  rw [lookup_assign _ _ (nodup_ld_list _ _ _ _)]
  have hl : (douban_ld_list page.ld_json average votes poster).lookup "error" = none := by
    rw [lookup_eq_none_iff]
    simp [douban_ld_list]
  rw [hl]
  simp only
  rw [lookup_assign _ _ (nodup_page_entries _ _ _)]
  have hp : (douban_page_entries localeCompare other page).lookup "error" = none := by
    rw [lookup_eq_none_iff]
    unfold douban_page_entries
    cases page.aka_anchor <;> simp
  rw [hp]

theorem douban_invariant (localeCompare : String → String → Int)
    (other : String → Option Int) (now : JVal) (sid : String) (page : DoubanPage) (body : Obj)
    (h : gen_douban localeCompare other now sid page = some body) :
    record_invariant body = true := by
  cases hmark1 : includes page.douban_page_raw "你想访问的页面不存在" with
  | true =>
    unfold gen_douban at h
    rw [if_pos hmark1] at h
    simp only [Option.some.injEq] at h
    rw [← h]
    exact invariant_of_error now _ _ _ (by decide)
  | false =>
    cases hmark2 : includes page.douban_page_raw "检测到有异常请求" with
    | true =>
      unfold gen_douban at h
      simp only [hmark1, hmark2, if_true, if_false, Bool.false_eq_true, Option.some.injEq] at h
      rw [← h]
      exact invariant_of_error now _ _ _ (by decide)
    | false =>
      have h0 := h
      unfold gen_douban at h
      simp only [hmark1, hmark2, if_false, Bool.false_eq_true] at h
      obtain ⟨data1, average, votes, poster, descr, hd1, hdata1, hparts, _, _, hb⟩ :=
        douban_success_some localeCompare other now sid page _ body (by simp) h
      obtain ⟨_, pre, post, hshape⟩ := douban_rating_of_parts localeCompare other now sid page
        average votes body hmark1 hmark2 hparts h0
      have he1 : data1.lookup "error" = none := by
        cases hi : page.imdb with
        | none =>
          rw [hi] at hdata1
          simp only [Option.some.injEq] at hdata1
          rw [← hdata1]
          rfl
        | some ref =>
          rw [hi] at hdata1
          exact douban_imdb_fields_no_error ref _ data1 (by rfl) hdata1
      have hnd := nodup_douban_data localeCompare other page data1
        (douban_ld_list page.ld_json average votes poster) hd1
      rw [hb] at hshape ⊢
      rw [format_of_success now _ _ hnd] at hshape
      refine invariant_of_success now _ _ hnd ?_ ?_
      · rw [douban_data_lookup_error]
        exact he1
      · exact keeps_ne_empty _ pre post _ (JVal.str.inj hshape)
          (append_ne_empty_left _ _ (append_ne_empty_left _ _ (by decide)))

/-- C12. Every record returned by one of the six extractors satisfies the
record invariant: with success = true the error is null and the format is a
non-empty text; with success = false the format is the empty text and the
error is a non-empty message. -/
theorem C12_record_invariant (localeCompare : String → String → Int)
    (other : String → Option Int) (JSON_parse : String → Option JVal) (now : JVal)
    (sid : String) (douban : DoubanPage) (imdb : ImdbPage) (bangumi : BangumiPage)
    (steam : SteamPage) (indienova : IndienovaPage) (status : Nat) (epic_api_json : JVal)
    (body : Obj)
    (h : gen_douban localeCompare other now sid douban = some body
      ∨ gen_imdb now sid imdb = some body
      ∨ gen_bangumi now sid bangumi = body
      ∨ gen_steam JSON_parse now sid steam = some body
      ∨ gen_indienova now sid indienova = some body
      ∨ gen_epic now sid status epic_api_json = some body) :
    record_invariant body = true := by
  rcases h with h | h | h | h | h | h
  · exact douban_invariant localeCompare other now sid douban body h
  · exact imdb_invariant now sid imdb body h
  · rw [← h]; exact bangumi_invariant now sid bangumi
  · exact steam_invariant JSON_parse now sid steam body h
  · exact indienova_invariant now sid indienova body h
  · exact epic_invariant now sid status epic_api_json body h

/-- Witness of C12: a bangumi subject page, and the page of a subject that
does not exist. -/
theorem C12_record_invariant_witness :
    (Obj.get (gen_bangumi (.num "0") "1" (sample_bangumi_page "")) "success" = .bool true
      ∧ record_invariant (gen_bangumi (.num "0") "1" (sample_bangumi_page "")) = true)
    ∧ (Obj.get (gen_bangumi (.num "0") "1" (sample_bangumi_page "呜咕，出错了")) "success"
        = .bool false
      ∧ record_invariant (gen_bangumi (.num "0") "1" (sample_bangumi_page "呜咕，出错了"))
        = true) :=
  ⟨⟨by rfl, C12_record_invariant sample_compare (fun _ => none) sample_JSON_parse (.num "0") "1"
      sample_douban_page_bare (sample_imdb_page .null) (sample_bangumi_page "")
      (sample_steam_page [] "") (sample_indienova_page []) 200 .null _
      (Or.inr (Or.inr (Or.inl rfl)))⟩,
    ⟨by rfl, C12_record_invariant sample_compare (fun _ => none) sample_JSON_parse (.num "0") "1"
      sample_douban_page_bare (sample_imdb_page .null) (sample_bangumi_page "呜咕，出错了")
      (sample_steam_page [] "") (sample_indienova_page []) 200 .null _
      (Or.inr (Or.inr (Or.inl rfl)))⟩⟩

end PtGen
